import Mathlib

/-! # Bank Management System: the account ledger

A shallow embedding of the account entities (`Account`, `SavingsAccount`,
`CheckingAccount`), the repositories and `AccountService` of `main.cpp`.

Modelling conventions

* The C++ `double` that carries money is modelled by `Money`: the finite values of IEEE-754
  binary64 (the rationals that rounding to 53 significant bits leaves fixed, subnormal
  numbers included), the two infinities and NaN. Arithmetic is the exact operation followed
  by rounding to nearest, ties to even, with overflow to an infinity; the comparisons
  `<=`, `<`, `>` with a NaN are false, and `!= 0` is true of a NaN. Only the sign of zero
  is not kept: no comparison depends on it and the program divides by the constant 100
  only.
* `std::to_string(double)` renders with `"%f"`, six decimals. A column written through it
  holds that decimal and `std::stod` reads the nearest `double` back
  (`Money.to_string_stod`).
* A member function that mutates `this` and returns `bool` becomes a function
  returning the pair of the returned flag and the object after the call.
* The dynamic class of an object behind an `Account` pointer is the field
  `variant`; a virtual call dispatches on it.
* `std::cerr` / `std::cout` output is not modelled.
-/

namespace Bank

/-! ## The type `double` -/

/-- The number of binary digits of `n`, by halving at most `fuel` times. -/
def bitLenAux : Nat → Nat → Nat
  | 0, _ => 0
  | fuel + 1, n => if n = 0 then 0 else bitLenAux fuel (n / 2) + 1

/-- The number of binary digits of `n` (`0` for `0`). -/
def bitLen (n : Nat) : Nat := bitLenAux n n

/-- The binary exponent of a non-zero rational: the integer `k` with
`2 ^ k ≤ |q| < 2 ^ (k + 1)`. -/
def floorLog2 (q : ℚ) : Int :=
  let n := q.num.natAbs
  let d := q.den
  let k : Int := (bitLen n : Int) - (bitLen d : Int)
  if 0 ≤ k then
    if d * 2 ^ k.toNat ≤ n then k else k - 1
  else
    if d ≤ n * 2 ^ (-k).toNat then k else k - 1

/-- The rational `q * 2 ^ s`. -/
def scale2 (q : ℚ) (s : Int) : ℚ :=
  if 0 ≤ s then mkRat (q.num * 2 ^ s.toNat) q.den
  else mkRat q.num (q.den * 2 ^ (-s).toNat)

/-- The integer nearest to `x`, the even one when `x` is half way between two integers. -/
def roundHalfEven (x : ℚ) : Int :=
  let f : Int := x.num / (x.den : Int)
  let r : Int := x.num % (x.den : Int)
  if 2 * r < (x.den : Int) then f
  else if (x.den : Int) < 2 * r then f + 1
  else if f % 2 = 0 then f else f + 1

/-- Rounding to the binary64 grid, exponent range unbounded above: the nearest multiple of
`2 ^ (e - 52)`, ties to even, where `e` is the binary exponent of `q`, not below `-1022`
(below it the grid is that of the subnormal numbers). -/
def round53 (q : ℚ) : ℚ :=
  if q = 0 then 0
  else
    let e : Int := max (floorLog2 q) (-1022) - 52
    scale2 (mkRat (roundHalfEven (scale2 q (-e))) 1) e

/-- Whether the rational `q` is the value of a finite `double`. -/
def isBinary64 (q : ℚ) : Bool :=
  decide (round53 q = q) && (decide (q = 0) || decide (floorLog2 q ≤ 1023))

/-- The values of the C++ type `double` (IEEE-754 binary64): not-a-number, the two
infinities, and the finite values. The sign of zero is not kept. -/
inductive Money where
  | nan
  | posInf
  | negInf
  | fin (q : ℚ) (h : isBinary64 q = true)
  deriving DecidableEq, Repr

/-- The `double` nearest to the rational `q` (round to nearest, ties to even; a result of
magnitude `2 ^ 1024` or more is an infinity). -/
def Money.ofRat (q : ℚ) : Money :=
  if h : isBinary64 (round53 q) = true then Money.fin (round53 q) h
  else if 0 < q then Money.posInf else Money.negInf

instance : OfNat Money n := ⟨Money.ofRat (mkRat n 1)⟩

instance : Zero Money := ⟨Money.ofRat 0⟩

/-- Unary minus of `double`. -/
def Money.neg : Money → Money
  | Money.nan => Money.nan
  | Money.posInf => Money.negInf
  | Money.negInf => Money.posInf
  | Money.fin q _ => Money.ofRat (mkRat (-q.num) q.den)

instance : Neg Money := ⟨Money.neg⟩

/-- Addition of `double`: the exact sum of two finite values, rounded. -/
def Money.add : Money → Money → Money
  | Money.nan, _ => Money.nan
  | _, Money.nan => Money.nan
  | Money.posInf, Money.negInf => Money.nan
  | Money.negInf, Money.posInf => Money.nan
  | Money.posInf, _ => Money.posInf
  | _, Money.posInf => Money.posInf
  | Money.negInf, _ => Money.negInf
  | _, Money.negInf => Money.negInf
  | Money.fin a _, Money.fin b _ =>
    Money.ofRat (mkRat (a.num * b.den + b.num * a.den) (a.den * b.den))

instance : Add Money := ⟨Money.add⟩

/-- Subtraction of `double`: the exact difference of two finite values, rounded. -/
def Money.sub : Money → Money → Money
  | Money.nan, _ => Money.nan
  | _, Money.nan => Money.nan
  | Money.posInf, Money.posInf => Money.nan
  | Money.negInf, Money.negInf => Money.nan
  | Money.posInf, _ => Money.posInf
  | _, Money.negInf => Money.posInf
  | Money.negInf, _ => Money.negInf
  | _, Money.posInf => Money.negInf
  | Money.fin a _, Money.fin b _ =>
    Money.ofRat (mkRat (a.num * b.den - b.num * a.den) (a.den * b.den))

instance : Sub Money := ⟨Money.sub⟩

/-- The sign of a `double` that is not a NaN: `1`, `0` or `-1`. -/
def Money.sign : Money → Int
  | Money.nan => 0
  | Money.posInf => 1
  | Money.negInf => -1
  | Money.fin q _ => q.num.sign

/-- Multiplication of `double`: the exact product of two finite values, rounded. -/
def Money.mul : Money → Money → Money
  | Money.nan, _ => Money.nan
  | _, Money.nan => Money.nan
  | Money.fin a _, Money.fin b _ => Money.ofRat (mkRat (a.num * b.num) (a.den * b.den))
  | x, y =>
    if x.sign * y.sign = 0 then Money.nan
    else if 0 < x.sign * y.sign then Money.posInf else Money.negInf

instance : Mul Money := ⟨Money.mul⟩

/-- Division of `double`: the exact quotient of two finite values, rounded. -/
def Money.div : Money → Money → Money
  | Money.nan, _ => Money.nan
  | _, Money.nan => Money.nan
  | Money.fin a _, Money.fin b _ =>
    if b = 0 then
      (if a = 0 then Money.nan else if 0 < a then Money.posInf else Money.negInf)
    else Money.ofRat (Rat.divInt (a.num * b.den) (a.den * b.num))
  | Money.fin _ _, _ => 0
  | x, Money.fin b _ =>
    if 0 ≤ x.sign * (if 0 ≤ b then 1 else -1) then Money.posInf else Money.negInf
  | _, _ => Money.nan

instance : Div Money := ⟨Money.div⟩

/-- The comparison `x <= y` of `double`: false as soon as one side is a NaN. -/
def Money.le : Money → Money → Bool
  | Money.nan, _ => false
  | _, Money.nan => false
  | Money.negInf, _ => true
  | _, Money.posInf => true
  | Money.posInf, _ => false
  | _, Money.negInf => false
  | Money.fin a _, Money.fin b _ => decide (a ≤ b)

/-- The comparison `x < y` of `double`: false as soon as one side is a NaN. -/
def Money.lt : Money → Money → Bool
  | Money.nan, _ => false
  | _, Money.nan => false
  | Money.posInf, _ => false
  | _, Money.negInf => false
  | Money.negInf, _ => true
  | _, Money.posInf => true
  | Money.fin a _, Money.fin b _ => decide (a < b)

instance : LE Money := ⟨fun x y => Money.le x y = true⟩

instance : LT Money := ⟨fun x y => Money.lt x y = true⟩

instance (x y : Money) : Decidable (x ≤ y) := inferInstanceAs (Decidable (Money.le x y = true))

instance (x y : Money) : Decidable (x < y) := inferInstanceAs (Decidable (Money.lt x y = true))

/-- The value a column holds after `std::to_string(double)` wrote it into the statement and
as `std::stod` reads it back: `std::to_string` renders with `"%f"`, that is the exact value
rounded to six decimals (ties to even), and `std::stod` returns the `double` nearest to
that decimal. `nan` and `inf` are read back as themselves. -/
def Money.to_string_stod : Money → Money
  | Money.fin q _ =>
    Money.ofRat (mkRat (roundHalfEven (mkRat (q.num * 1000000) q.den)) 1000000)
  | x => x

/-- Whether the `double` is finite (neither an infinity nor a NaN). -/
def Money.isFinite : Money → Bool
  | Money.fin _ _ => true
  | _ => false

/-- The real number a finite `double` stands for (`0` for an infinity or a NaN). -/
def Money.toRat : Money → ℚ
  | Money.fin q _ => q
  | _ => 0

/-- The dynamic class of an object handled through `Account*`: the base class
`Account`, `SavingsAccount` (with its `interestRate` member) or
`CheckingAccount` (with its `overdraftLimit` member). -/
inductive Variant where
  | Standard
  | Savings (interestRate : Money)
  | Checking (overdraftLimit : Money)
  deriving DecidableEq, Repr

/-- The members of `Entity` / `Account`, plus the dynamic class. -/
structure Account where
  id : Int
  customerId : Int
  balance : Money
  accountNumber : String
  accountType : String
  dateOpened : String
  variant : Variant
  deriving DecidableEq, Repr

/-- Constructor `Account(id, customerId, balance, accountNumber, accountType, dateOpened)`. -/
def Account.ctor (id customerId : Int) (balance : Money)
    (accountNumber accountType dateOpened : String) : Account :=
  { id := id, customerId := customerId, balance := balance,
    accountNumber := accountNumber, accountType := accountType,
    dateOpened := dateOpened, variant := Variant.Standard }

/-- Constructor `SavingsAccount(...)`: the base part is built with account type `"Savings"`. -/
def SavingsAccount.ctor (id customerId : Int) (balance : Money)
    (accountNumber dateOpened : String) (interestRate : Money) : Account :=
  { id := id, customerId := customerId, balance := balance,
    accountNumber := accountNumber, accountType := "Savings",
    dateOpened := dateOpened, variant := Variant.Savings interestRate }

/-- Constructor `CheckingAccount(...)`: the base part is built with account type `"Checking"`. -/
def CheckingAccount.ctor (id customerId : Int) (balance : Money)
    (accountNumber dateOpened : String) (overdraftLimit : Money) : Account :=
  { id := id, customerId := customerId, balance := balance,
    accountNumber := accountNumber, accountType := "Checking",
    dateOpened := dateOpened, variant := Variant.Checking overdraftLimit }

/-- `Account::deposit` (not overridden by any subclass). -/
def Account.deposit (self : Account) (amount : Money) : Bool × Account :=
  if amount ≤ 0 then
    (false, self)
  else
    (true, { self with balance := self.balance + amount })

/-- `Account::withdraw`, the base implementation used by `Account` and `SavingsAccount`. -/
def Account.withdraw (self : Account) (amount : Money) : Bool × Account :=
  if amount ≤ 0 then
    (false, self)
  else if amount > self.balance then
    (false, self)
  else
    (true, { self with balance := self.balance - amount })

/-- `CheckingAccount::withdraw`, the override; `overdraftLimit` is the member of the subclass. -/
def CheckingAccount.withdraw (self : Account) (overdraftLimit : Money) (amount : Money) :
    Bool × Account :=
  if amount ≤ 0 then
    (false, self)
  else if amount > self.balance + overdraftLimit then
    (false, self)
  else
    (true, { self with balance := self.balance - amount })

/-- `SavingsAccount::calculateInterest`; `interestRate` is the member of the subclass, read
from the object. The function is a member of `SavingsAccount` only: on an object of another
class there is nothing to call, and the object is returned as it is. -/
def SavingsAccount.calculateInterest (self : Account) : Account :=
  match self.variant with
  | Variant.Savings interestRate =>
    let interest := self.balance * interestRate / 100
    { self with balance := self.balance + interest }
  | _ => self

/-- The virtual call `account->withdraw(amount)`: dispatch on the dynamic class. -/
def Account.virtualWithdraw (self : Account) (amount : Money) : Bool × Account :=
  match self.variant with
  | Variant.Checking overdraftLimit => CheckingAccount.withdraw self overdraftLimit amount
  | Variant.Savings _ => Account.withdraw self amount
  | Variant.Standard => Account.withdraw self amount

/-- The lowest balance the withdrawal policy of the account's class lets a withdrawal reach. -/
def Account.floor (self : Account) : Money :=
  match self.variant with
  | Variant.Checking overdraftLimit => -overdraftLimit
  | Variant.Savings _ => 0
  | Variant.Standard => 0

/-- One call made on an account object. -/
inductive Call where
  | deposit (amount : Money)
  | withdraw (amount : Money)
  deriving DecidableEq, Repr

/-- The argument of a call. -/
def Call.amount : Call → Money
  | Call.deposit amount => amount
  | Call.withdraw amount => amount

/-- Perform one call on the object (virtual dispatch for `withdraw`). -/
def Account.perform (self : Account) : Call → Bool × Account
  | Call.deposit amount => self.deposit amount
  | Call.withdraw amount => self.virtualWithdraw amount

/-- Perform the calls in order, each on the object the previous one left; the log pairs
every call with the flag it returned. -/
def Account.runLog (self : Account) : List Call → List (Call × Bool) × Account
  | [] => ([], self)
  | c :: cs =>
      let r := self.perform c
      let rest := Account.runLog r.2 cs
      ((c, r.1) :: rest.1, rest.2)

/-- Sum of the amounts of the logged deposit calls that returned `true`. -/
def depositedTotal : List (Call × Bool) → Money
  | [] => 0
  | (Call.deposit amount, true) :: l => amount + depositedTotal l
  | _ :: l => depositedTotal l

/-- Sum of the amounts of the logged withdraw calls that returned `true`. -/
def withdrawnTotal : List (Call × Bool) → Money
  | [] => 0
  | (Call.withdraw amount, true) :: l => amount + withdrawnTotal l
  | _ :: l => withdrawnTotal l

/-- The sum of the spec, in exact arithmetic: the amounts of the logged deposits that
returned `true` minus the amounts of the logged withdrawals that returned `true`. -/
def exactTotal : List (Call × Bool) → ℚ
  | [] => 0
  | (Call.deposit amount, true) :: l => amount.toRat + exactTotal l
  | (Call.withdraw amount, true) :: l => -amount.toRat + exactTotal l
  | _ :: l => exactTotal l

/-! ## Transactions and the database -/

/-- The members of `Entity` / `Transaction`; also a row of table `transactions`
(`transaction_id, account_id, type, amount, date_time, description`). -/
structure Transaction where
  id : Int
  accountId : Int
  type : String
  amount : Money
  dateTime : String
  description : String
  deriving DecidableEq, Repr

/-- The members of `Entity` / `Customer`; also a row of table `customers`
(`customer_id, name, address, phone, email`). -/
structure Customer where
  id : Int
  name : String
  address : String
  phone : String
  email : String
  deriving DecidableEq, Repr

/-- A row of table `accounts`, in column order. -/
structure AccountRow where
  account_id : Int
  customer_id : Int
  balance : Money
  account_number : String
  account_type : String
  date_opened : String
  deriving DecidableEq, Repr

/-- A row of table `savings_accounts`. -/
structure SavingsRow where
  savings_id : Int
  account_id : Int
  interest_rate : Money
  deriving DecidableEq, Repr

/-- A row of table `checking_accounts`. -/
structure CheckingRow where
  checking_id : Int
  account_id : Int
  overdraft_limit : Money
  deriving DecidableEq, Repr

/-- Modelled from the spec: the database server behind `IDatabase::executeQuery` is not part
of the source; it is taken as the store of the spec (`get`, `save`, `delete`, `append`, each
answering ok or error), holding the tables that `DatabaseSetup::createSchema` declares, rows
in insertion order, with the `AUTO_INCREMENT` counters of the two tables the services write.
A column holds the value of the text the statement carries (for a `double`, the six-decimal
rendering of `std::to_string`); the `DECIMAL(15,2)` declaration of the schema is not
modelled. -/
structure Database where
  accounts : List AccountRow
  savings_accounts : List SavingsRow
  checking_accounts : List CheckingRow
  transactions : List Transaction
  nextAccountId : Int
  nextTransactionId : Int
  customers : List Customer := []
  deriving DecidableEq, Repr

/-- The behaviour of the store during an operation: `ok k` tells whether the
`executeQuery` call number `k` succeeds. A failed call changes nothing and yields no rows. -/
abbrev StoreBehaviour := Nat → Bool

/-- The database handle shared by the repositories: the tables, and the number of
`executeQuery` calls made so far. -/
structure Conn where
  db : Database
  calls : Nat
  deriving DecidableEq, Repr

/-- Account for one more `executeQuery` call. -/
def Conn.tick (c : Conn) : Conn := { c with calls := c.calls + 1 }

/-- The rows of `SELECT * FROM accounts WHERE account_id=id`, first row if any. -/
def Database.selectAccount (db : Database) (id : Int) : Option AccountRow :=
  db.accounts.find? (fun r => decide (r.account_id = id))

/-- The rows of `SELECT interest_rate FROM savings_accounts WHERE account_id=id`,
first row if any. -/
def Database.selectSavings (db : Database) (id : Int) : Option SavingsRow :=
  db.savings_accounts.find? (fun r => decide (r.account_id = id))

/-- The rows of `SELECT overdraft_limit FROM checking_accounts WHERE account_id=id`,
first row if any. -/
def Database.selectChecking (db : Database) (id : Int) : Option CheckingRow :=
  db.checking_accounts.find? (fun r => decide (r.account_id = id))

/-- The statement `INSERT INTO accounts (customer_id, balance, account_number, account_type,
date_opened) VALUES (...)` that `AccountRepository::add` builds: the balance is written as
`std::to_string(account.getBalance())`; the id comes from the counter; no other table is
written. -/
def Database.insertAccount (db : Database) (account : Account) : Database :=
  { db with
    accounts := db.accounts ++
      [{ account_id := db.nextAccountId, customer_id := account.customerId,
         balance := account.balance.to_string_stod, account_number := account.accountNumber,
         account_type := account.accountType, date_opened := account.dateOpened }]
    nextAccountId := db.nextAccountId + 1 }

/-- The `SET` clause of `AccountRepository::update` applied to one row: every column but
the key is overwritten from the object, the balance as
`std::to_string(account.getBalance())`. -/
def AccountRow.assign (r : AccountRow) (account : Account) : AccountRow :=
  { account_id := r.account_id, customer_id := account.customerId,
    balance := account.balance.to_string_stod, account_number := account.accountNumber,
    account_type := account.accountType, date_opened := account.dateOpened }

/-- The statement `UPDATE accounts SET customer_id=.., balance=.., account_number=..,
account_type=.., date_opened=.. WHERE account_id=id`. -/
def Database.updateAccount (db : Database) (account : Account) : Database :=
  { db with
    accounts := db.accounts.map (fun r =>
      if r.account_id = account.id then r.assign account else r) }

/-- The statement `DELETE FROM accounts WHERE account_id=id`; the three tables that
reference `accounts(account_id)` are declared `ON DELETE CASCADE`. -/
def Database.deleteAccount (db : Database) (id : Int) : Database :=
  { db with
    accounts := db.accounts.filter (fun r => decide (r.account_id ≠ id))
    savings_accounts := db.savings_accounts.filter (fun r => decide (r.account_id ≠ id))
    checking_accounts := db.checking_accounts.filter (fun r => decide (r.account_id ≠ id))
    transactions := db.transactions.filter (fun t => decide (t.accountId ≠ id)) }

/-- The statement `INSERT INTO transactions (account_id, type, amount, date_time,
description) VALUES (...)` that `TransactionRepository::add` builds: the amount is written
as `std::to_string(transaction.getAmount())`; the id comes from the counter. -/
def Database.insertTransaction (db : Database) (transaction : Transaction) : Database :=
  { db with
    transactions := db.transactions ++
      [{ transaction with id := db.nextTransactionId,
                          amount := transaction.amount.to_string_stod }]
    nextTransactionId := db.nextTransactionId + 1 }

/-! ## Repositories -/

/-- `AccountRepository::add`: one `executeQuery` call with the `INSERT` statement, whose
text carries the balance rendered by `std::to_string`. -/
def AccountRepository.add (ok : StoreBehaviour) (c : Conn) (account : Account) :
    Bool × Conn :=
  if ok c.calls then
    (true, { db := c.db.insertAccount account, calls := c.calls + 1 })
  else
    (false, c.tick)

/-- `AccountRepository::update`: one `executeQuery` call with the `UPDATE` statement, whose
text carries the balance rendered by `std::to_string`. -/
def AccountRepository.update (ok : StoreBehaviour) (c : Conn) (account : Account) :
    Bool × Conn :=
  if ok c.calls then
    (true, { db := c.db.updateAccount account, calls := c.calls + 1 })
  else
    (false, c.tick)

/-- `AccountRepository::remove`. -/
def AccountRepository.remove (ok : StoreBehaviour) (c : Conn) (id : Int) : Bool × Conn :=
  if ok c.calls then
    (true, { db := c.db.deleteAccount id, calls := c.calls + 1 })
  else
    (false, c.tick)

/-- `AccountRepository::getById`: the object is built in the class the `account_type`
column names; the extra member of a subclass comes from a second query and is `0.0` when
that query fails or returns no row. `none` is the null pointer. -/
def AccountRepository.getById (ok : StoreBehaviour) (c : Conn) (id : Int) :
    Option Account × Conn :=
  if ok c.calls then
    match c.db.selectAccount id with
    | none => (none, c.tick)
    | some row =>
      if row.account_type = "Savings" then
        let interestRate : Money :=
          if ok (c.calls + 1) then
            match c.db.selectSavings row.account_id with
            | some s => s.interest_rate
            | none => 0
          else 0
        (some (SavingsAccount.ctor row.account_id row.customer_id row.balance
          row.account_number row.date_opened interestRate), c.tick.tick)
      else if row.account_type = "Checking" then
        let overdraftLimit : Money :=
          if ok (c.calls + 1) then
            match c.db.selectChecking row.account_id with
            | some k => k.overdraft_limit
            | none => 0
          else 0
        (some (CheckingAccount.ctor row.account_id row.customer_id row.balance
          row.account_number row.date_opened overdraftLimit), c.tick.tick)
      else
        (some (Account.ctor row.account_id row.customer_id row.balance
          row.account_number row.account_type row.date_opened), c.tick)
  else
    (none, c.tick)

/-- `TransactionRepository::add`: one `executeQuery` call with the `INSERT` statement, whose
text carries the amount rendered by `std::to_string`. -/
def TransactionRepository.add (ok : StoreBehaviour) (c : Conn) (transaction : Transaction) :
    Bool × Conn :=
  if ok c.calls then
    (true, { db := c.db.insertTransaction transaction, calls := c.calls + 1 })
  else
    (false, c.tick)

/-! ## AccountService

`now` is the string `getCurrentDateTime()` returns when the operation reads the clock
(each operation reads it at most once). -/

/-- Decimal rendering of an `int`, as `std::to_string` does. -/
def to_string (n : Int) : String := toString n

/-- `AccountService::openAccount`. -/
def AccountService.openAccount (ok : StoreBehaviour) (c : Conn) (account : Account) :
    Bool × Conn :=
  AccountRepository.add ok c account

/-- `AccountService::closeAccount`. The test `getBalance() != 0` is true of a NaN and of
every value other than zero. -/
def AccountService.closeAccount (ok : StoreBehaviour) (c : Conn) (accountId : Int) :
    Bool × Conn :=
  let loaded := AccountRepository.getById ok c accountId
  match loaded.1 with
  | none => (false, loaded.2)
  | some account =>
    if account.balance ≠ 0 then
      (false, loaded.2)
    else
      AccountRepository.remove ok loaded.2 accountId

/-- `AccountService::deposit`. -/
def AccountService.deposit (ok : StoreBehaviour) (now : String) (c : Conn)
    (accountId : Int) (amount : Money) : Bool × Conn :=
  let loaded := AccountRepository.getById ok c accountId
  match loaded.1 with
  | none => (false, loaded.2)
  | some account =>
    let deposited := account.deposit amount
    if deposited.1 then
      let transaction : Transaction :=
        { id := 0, accountId := accountId, type := "Deposit", amount := amount,
          dateTime := now, description := "Deposit to account" }
      let recorded := TransactionRepository.add ok loaded.2 transaction
      AccountRepository.update ok recorded.2 deposited.2
    else
      (false, loaded.2)

/-- `AccountService::withdraw`. -/
def AccountService.withdraw (ok : StoreBehaviour) (now : String) (c : Conn)
    (accountId : Int) (amount : Money) : Bool × Conn :=
  let loaded := AccountRepository.getById ok c accountId
  match loaded.1 with
  | none => (false, loaded.2)
  | some account =>
    let withdrawn := account.virtualWithdraw amount
    if withdrawn.1 then
      let transaction : Transaction :=
        { id := 0, accountId := accountId, type := "Withdrawal", amount := amount,
          dateTime := now, description := "Withdrawal from account" }
      let recorded := TransactionRepository.add ok loaded.2 transaction
      AccountRepository.update ok recorded.2 withdrawn.2
    else
      (false, loaded.2)

/-- `AccountService::transfer`. The results of the two `add` and the two `update` calls
are discarded by the source. -/
def AccountService.transfer (ok : StoreBehaviour) (now : String) (c : Conn)
    (fromAccountId toAccountId : Int) (amount : Money) : Bool × Conn :=
  let loadedFrom := AccountRepository.getById ok c fromAccountId
  let loadedTo := AccountRepository.getById ok loadedFrom.2 toAccountId
  match loadedFrom.1, loadedTo.1 with
  | some fromAccount, some toAccount =>
    let withdrawn := fromAccount.virtualWithdraw amount
    if withdrawn.1 then
      let deposited := toAccount.deposit amount
      let dateTime := now
      let description := "Transfer from account " ++ to_string fromAccountId ++
        " to account " ++ to_string toAccountId
      let fromTransaction : Transaction :=
        { id := 0, accountId := fromAccountId, type := "Transfer Out", amount := amount,
          dateTime := dateTime, description := description }
      let toTransaction : Transaction :=
        { id := 0, accountId := toAccountId, type := "Transfer In", amount := amount,
          dateTime := dateTime, description := description }
      let c1 := (TransactionRepository.add ok loadedTo.2 fromTransaction).2
      let c2 := (TransactionRepository.add ok c1 toTransaction).2
      let c3 := (AccountRepository.update ok c2 withdrawn.2).2
      let c4 := (AccountRepository.update ok c3 deposited.2).2
      (true, c4)
    else
      (false, loadedTo.2)
  | _, _ => (false, loadedTo.2)

/-- `AccountService::getAccount`. -/
def AccountService.getAccount (ok : StoreBehaviour) (c : Conn) (accountId : Int) :
    Option Account × Conn :=
  AccountRepository.getById ok c accountId

/-- `AccountService::getBalance`. -/
def AccountService.getBalance (ok : StoreBehaviour) (c : Conn) (accountId : Int) :
    Money × Conn :=
  let loaded := AccountRepository.getById ok c accountId
  match loaded.1 with
  | some account => (account.balance, loaded.2)
  | none => (-1, loaded.2)

/-- The rows of `SELECT * FROM customers WHERE customer_id=id`, first row if any. -/
def Database.selectCustomer (db : Database) (id : Int) : Option Customer :=
  db.customers.find? (fun r => decide (r.id = id))

/-- `CustomerRepository::getById`. -/
def CustomerRepository.getById (ok : StoreBehaviour) (c : Conn) (id : Int) :
    Option Customer × Conn :=
  if ok c.calls then
    (c.db.selectCustomer id, c.tick)
  else
    (none, c.tick)

/-- `CustomerService::getCustomer`. -/
def CustomerService.getCustomer (ok : StoreBehaviour) (c : Conn) (customerId : Int) :
    Option Customer × Conn :=
  CustomerRepository.getById ok c customerId

/-- `ConsoleUI::openAccount`. The numbers typed at the prompts are parameters:
`customerId`, `accountType`, `initialDeposit`, and `extra` for the number typed at the
interest-rate or overdraft-limit prompt; `now` is the value of `std::time(nullptr)` and
`dateOpened` its rendering by `std::put_time`. The result is `none` when the function
returns without calling the service, and otherwise the flag the service returned. -/
def ConsoleUI.openAccount (ok : StoreBehaviour) (c : Conn) (customerId accountType : Int)
    (initialDeposit extra : Money) (now : Int) (dateOpened : String) : Option Bool × Conn :=
  let customer := CustomerService.getCustomer ok c customerId
  match customer.1 with
  | none => (none, customer.2)
  | some _ =>
    if initialDeposit ≤ 0 then
      (none, customer.2)
    else
      let accountNumber := to_string customerId ++ to_string now
      if accountType = 1 then
        let account := SavingsAccount.ctor 0 customerId initialDeposit accountNumber
          dateOpened extra
        let opened := AccountService.openAccount ok customer.2 account
        (some opened.1, opened.2)
      else if accountType = 2 then
        let account := CheckingAccount.ctor 0 customerId initialDeposit accountNumber
          dateOpened extra
        let opened := AccountService.openAccount ok customer.2 account
        (some opened.1, opened.2)
      else
        (none, customer.2)

/-! ## TransactionService -/

/-- `TransactionRepository::getById`: the first row of
`SELECT * FROM transactions WHERE transaction_id=id`, or the null pointer. -/
def TransactionRepository.getById (ok : StoreBehaviour) (c : Conn) (id : Int) :
    Option Transaction × Conn :=
  if ok c.calls then
    (c.db.transactions.find? (fun t => decide (t.id = id)), c.tick)
  else
    (none, c.tick)

/-- `TransactionRepository::getByAccountId`: the rows of
`SELECT * FROM transactions WHERE account_id=accountId`, none when the query fails. -/
def TransactionRepository.getByAccountId (ok : StoreBehaviour) (c : Conn) (accountId : Int) :
    List Transaction × Conn :=
  if ok c.calls then
    (c.db.transactions.filter (fun t => decide (t.accountId = accountId)), c.tick)
  else
    ([], c.tick)

/-- `TransactionService::recordTransaction`. -/
def TransactionService.recordTransaction (ok : StoreBehaviour) (c : Conn)
    (transaction : Transaction) : Bool × Conn :=
  TransactionRepository.add ok c transaction

/-- `TransactionService::getAccountTransactions`. -/
def TransactionService.getAccountTransactions (ok : StoreBehaviour) (c : Conn)
    (accountId : Int) : List Transaction × Conn :=
  TransactionRepository.getByAccountId ok c accountId

/-- `TransactionService::getTransaction`. -/
def TransactionService.getTransaction (ok : StoreBehaviour) (c : Conn)
    (transactionId : Int) : Option Transaction × Conn :=
  TransactionRepository.getById ok c transactionId

/-! ## Login -/

/-- The members of class `User`. -/
structure User where
  username : String
  password : String
  deriving DecidableEq, Repr

/-- `User::authenticate`. -/
def User.authenticate (self : User) (user pass : String) : Bool :=
  decide (self.username = user) && decide (self.password = pass)

/-- How a run of `ConsoleUI::login` stands once the typed entries are used up:
it has returned (`loggedIn`), it has reached `exit(0)` after "Access denied"
(`accessDenied`), or it is at the prompt again with the given value of `attempts`. -/
inductive LoginOutcome where
  | loggedIn
  | accessDenied
  | prompting (attempts : Int)
  deriving DecidableEq, Repr

/-- The `while (attempts < maxAttempts)` loop of `ConsoleUI::login`, run on the successive
(username, password) pairs typed in. The first component lists the value of `attempts` at
each evaluation of the loop condition. The 60 second sleep is not modelled. -/
def ConsoleUI.loginLoop (attempts : Int) : List (String × String) → List Int × LoginOutcome
  | [] =>
    if attempts < 3 then ([attempts], LoginOutcome.prompting attempts)
    else ([attempts], LoginOutcome.accessDenied)
  | entry :: rest =>
    if attempts < 3 then
      if (User.mk "admin" "password123").authenticate entry.1 entry.2 then
        ([attempts], LoginOutcome.loggedIn)
      else
        let counted := attempts + 1
        let next := if counted = 3 then 0 else counted
        let run := ConsoleUI.loginLoop next rest
        (attempts :: run.1, run.2)
    else
      ([attempts], LoginOutcome.accessDenied)

/-- `ConsoleUI::login`: the loop entered with `attempts = 0`. -/
def ConsoleUI.login (entries : List (String × String)) : List Int × LoginOutcome :=
  ConsoleUI.loginLoop 0 entries

/-- The store in which every call succeeds. -/
def allOk : StoreBehaviour := fun _ => true

/-- The store in which the call number `n` fails and every other call succeeds. -/
def failAt (n : Nat) : StoreBehaviour := fun k => decide (k ≠ n)

/-- The store in which the calls before number `n` succeed and every later call fails. -/
def failFrom (n : Nat) : StoreBehaviour := fun k => decide (k < n)

/-! ## Sample data -/

/-- A database with a Standard account 1 (balance 100), a Savings account 2 (balance 200,
rate 2), a Checking account 3 (balance 0, overdraft limit 100) and no transaction yet. -/
def sampleDb : Database :=
  { accounts :=
      [ { account_id := 1, customer_id := 7, balance := 100,
          account_number := "71700000000", account_type := "Standard",
          date_opened := "2024-01-01" },
        { account_id := 2, customer_id := 7, balance := 200,
          account_number := "71700000001", account_type := "Savings",
          date_opened := "2024-01-01" },
        { account_id := 3, customer_id := 8, balance := 0,
          account_number := "81700000002", account_type := "Checking",
          date_opened := "2024-01-01" } ]
    savings_accounts := [ { savings_id := 1, account_id := 2, interest_rate := 2 } ]
    checking_accounts := [ { checking_id := 1, account_id := 3, overdraft_limit := 100 } ]
    transactions := []
    nextAccountId := 4
    nextTransactionId := 1 }

/-- The handle on `sampleDb` before any call. -/
def sampleConn : Conn := { db := sampleDb, calls := 0 }

/-- The sample database with customer 7 registered. -/
def sampleCustomerConn : Conn :=
  { db := { sampleDb with
      customers := [ { id := 7, name := "Ada", address := "1 Main St", phone := "555-0100",
                       email := "ada@example.org" } ] },
    calls := 0 }

/-- A database whose only account, number 5, holds one cent. -/
def sampleCentConn : Conn :=
  { db := { accounts :=
              [ { account_id := 5, customer_id := 7, balance := 1 / 100,
                  account_number := "71700000005", account_type := "Standard",
                  date_opened := "2024-01-01" } ]
            savings_accounts := []
            checking_accounts := []
            transactions := []
            nextAccountId := 6
            nextTransactionId := 1 },
    calls := 0 }

/-- A Checking object with overdraft limit 250, as `ConsoleUI::openAccount` builds it. -/
def sampleNewChecking : Account :=
  CheckingAccount.ctor 0 7 500 "71714550000" "2024-05-01" 250

/-- The sample database in which account 3 (balance 0) and account 1 each have a record in
table `transactions`. -/
def sampleHistoryConn : Conn :=
  { db := { sampleDb with
      transactions :=
        [ { id := 1, accountId := 3, type := "Deposit", amount := 50,
            dateTime := "2024-04-01 09:00:00", description := "Deposit to account" },
          { id := 2, accountId := 1, type := "Deposit", amount := 100,
            dateTime := "2024-04-01 09:30:00", description := "Deposit to account" },
          { id := 3, accountId := 3, type := "Withdrawal", amount := 50,
            dateTime := "2024-04-02 09:00:00", description := "Withdrawal from account" } ]
      nextTransactionId := 4 },
    calls := 0 }

/-- An empty database in which customers 1 and 11 are registered. -/
def sampleTwoCustomersConn : Conn :=
  { db := { accounts := []
            savings_accounts := []
            checking_accounts := []
            transactions := []
            nextAccountId := 1
            nextTransactionId := 1
            customers :=
              [ { id := 1, name := "Ada", address := "1 Main St", phone := "555-0100",
                  email := "ada@example.org" },
                { id := 11, name := "Bob", address := "2 Main St", phone := "555-0111",
                  email := "bob@example.org" } ] },
    calls := 0 }

/-- A Standard account with balance 100. -/
def sampleStandard : Account := Account.ctor 1 7 100 "71700000000" "Standard" "2024-01-01"

/-- A Savings account with balance 100 and interest rate 2. -/
def sampleSavings : Account := SavingsAccount.ctor 2 7 100 "71700000001" "2024-01-01" 2

/-- A Checking account with balance 0 and overdraft limit 100. -/
def sampleChecking : Account := CheckingAccount.ctor 3 7 0 "71700000002" "2024-01-01" 100

/-- A Checking account with balance -80 and overdraft limit 100. -/
def sampleOverdrawn : Account := CheckingAccount.ctor 4 7 (-80) "71700000003" "2024-01-01" 100

/-- The `double` 2^53 = 9007199254740992, from which on the odd integers are not
representable. -/
def twoPow53 : Money := 9007199254740992

/-- A Standard account with balance 2^53. -/
def sampleLarge : Account :=
  Account.ctor 6 7 twoPow53 "71700000006" "Standard" "2024-01-01"

/-- A Standard account with balance 2^53 + 2 = 9007199254740994. -/
def sampleLargePlusTwo : Account :=
  Account.ctor 11 7 9007199254740994 "71700000011" "Standard" "2024-01-01"

/-- A Checking account with balance 2^53 and overdraft limit 3. -/
def sampleLargeChecking : Account :=
  CheckingAccount.ctor 7 7 twoPow53 "71700000007" "2024-01-01" 3

/-- A Checking account with balance 0.03 and overdraft limit 0.01 (the `double`s nearest to
these decimals). -/
def sampleCentsChecking : Account :=
  CheckingAccount.ctor 8 7 (3 / 100) "71700000008" "2024-01-01" (1 / 100)

/-- A Checking account at its floor: balance -100, overdraft limit 100. -/
def sampleFloorChecking : Account :=
  CheckingAccount.ctor 9 7 (-100) "71700000009" "2024-01-01" 100

/-- A Savings account with balance 0.07 (the nearest `double`) and interest rate 3. -/
def sampleSmallSavings : Account :=
  SavingsAccount.ctor 10 7 (7 / 100) "71700000010" "2024-01-01" 3

/-! ## Rounding to the binary64 grid -/

/-- Zero has no binary digit. -/
theorem bitLenAux_zero (fuel : Nat) : bitLenAux fuel 0 = 0 := by
  cases fuel <;> simp [bitLenAux]

/-- With enough fuel, a non-zero `n` has `bitLenAux fuel n` binary digits:
`2 ^ (b - 1) ≤ n < 2 ^ b`. -/
theorem bitLenAux_spec : ∀ (fuel n : Nat), n ≤ fuel → n ≠ 0 →
    2 ^ bitLenAux fuel n ≤ 2 * n ∧ n < 2 ^ bitLenAux fuel n := by
  intro fuel
  induction fuel with
  | zero =>
    intro n h1 h2
    omega
  | succ fuel ih =>
    intro n h1 h2
    simp only [bitLenAux, if_neg h2]
    by_cases h0 : n / 2 = 0
    · have hn : n = 1 := by omega
      subst hn
      simp [bitLenAux_zero]
    · obtain ⟨i1, i2⟩ := ih (n / 2) (by omega) h0
      rw [pow_succ]
      constructor <;> omega

/-- A non-zero `n` has `bitLen n` binary digits. -/
theorem bitLen_spec (n : Nat) (h : n ≠ 0) : 2 ^ bitLen n ≤ 2 * n ∧ n < 2 ^ bitLen n :=
  bitLenAux_spec n n (le_refl n) h

/-- The absolute value of a rational, from its numerator and denominator. -/
theorem abs_eq_natAbs_div (q : ℚ) : |q| = (q.num.natAbs : ℚ) / (q.den : ℚ) := by
  conv_lhs => rw [← Rat.num_div_den q]
  rw [abs_div, Nat.abs_cast, Nat.cast_natAbs, Int.cast_abs]

/-- The test `floorLog2` makes, read in the rationals. -/
theorem floorLog2_eq (q : ℚ) :
    floorLog2 q =
      if (2 : ℚ) ^ ((bitLen q.num.natAbs : Int) - (bitLen q.den : Int)) * (q.den : ℚ)
          ≤ (q.num.natAbs : ℚ)
      then (bitLen q.num.natAbs : Int) - (bitLen q.den : Int)
      else (bitLen q.num.natAbs : Int) - (bitLen q.den : Int) - 1 := by
  unfold floorLog2
  simp only
  generalize ((bitLen q.num.natAbs : Int) - (bitLen q.den : Int)) = k
  generalize q.num.natAbs = n
  generalize q.den = d
  by_cases hk : 0 ≤ k
  · rw [if_pos hk]
    obtain ⟨j, rfl⟩ := Int.eq_ofNat_of_zero_le hk
    have e : (d * 2 ^ j ≤ n) ↔ ((2 : ℚ) ^ (j : Int) * (d : ℚ) ≤ (n : ℚ)) := by
      rw [zpow_natCast, mul_comm]
      exact_mod_cast Iff.rfl
    simp only [Int.toNat_ofNat]
    by_cases hc : d * 2 ^ j ≤ n
    · rw [if_pos hc, if_pos (e.mp hc)]
    · rw [if_neg hc, if_neg (fun h => hc (e.mpr h))]
  · rw [if_neg hk]
    obtain ⟨j, hj⟩ := Int.exists_eq_neg_ofNat (le_of_lt (not_le.mp hk))
    subst hj
    have e : (d ≤ n * 2 ^ j) ↔ ((2 : ℚ) ^ (-(j : Int)) * (d : ℚ) ≤ (n : ℚ)) := by
      rw [zpow_neg, zpow_natCast, inv_mul_le_iff₀ (by positivity), mul_comm]
      exact_mod_cast Iff.rfl
    simp only [neg_neg, Int.toNat_ofNat]
    by_cases hc : d ≤ n * 2 ^ j
    · rw [if_pos hc, if_pos (e.mp hc)]
    · rw [if_neg hc, if_neg (fun h => hc (e.mpr h))]

/-- The binary exponent brackets the magnitude: `2 ^ k ≤ |q| < 2 ^ (k + 1)`. -/
theorem floorLog2_spec (q : ℚ) (hq : q ≠ 0) :
    (2 : ℚ) ^ floorLog2 q ≤ |q| ∧ |q| < (2 : ℚ) ^ (floorLog2 q + 1) := by
  have hn0 : q.num.natAbs ≠ 0 := by
    simpa [Int.natAbs_eq_zero, Rat.num_eq_zero] using hq
  obtain ⟨n1, n2⟩ := bitLen_spec q.num.natAbs hn0
  obtain ⟨d1, d2⟩ := bitLen_spec q.den q.den_nz
  have N1 : (2 : ℚ) ^ bitLen q.num.natAbs ≤ 2 * (q.num.natAbs : ℚ) := by exact_mod_cast n1
  have N2 : (q.num.natAbs : ℚ) < (2 : ℚ) ^ bitLen q.num.natAbs := by exact_mod_cast n2
  have D1 : (2 : ℚ) ^ bitLen q.den ≤ 2 * (q.den : ℚ) := by exact_mod_cast d1
  have D2 : (q.den : ℚ) < (2 : ℚ) ^ bitLen q.den := by exact_mod_cast d2
  have dpos : (0 : ℚ) < (q.den : ℚ) := by exact_mod_cast q.den_pos
  have npos : (0 : ℚ) < (q.num.natAbs : ℚ) := by exact_mod_cast Nat.pos_of_ne_zero hn0
  have hk : (2 : ℚ) ^ ((bitLen q.num.natAbs : Int) - (bitLen q.den : Int))
      = (2 : ℚ) ^ bitLen q.num.natAbs / (2 : ℚ) ^ bitLen q.den := by
    rw [zpow_sub₀ (by norm_num), zpow_natCast, zpow_natCast]
  rw [floorLog2_eq, abs_eq_natAbs_div]
  generalize hA : (2 : ℚ) ^ bitLen q.num.natAbs = A at *
  generalize hB : (2 : ℚ) ^ bitLen q.den = B at *
  generalize (q.num.natAbs : ℚ) = n at *
  generalize (q.den : ℚ) = d at *
  generalize ((bitLen q.num.natAbs : Int) - (bitLen q.den : Int)) = k at *
  have Bpos : 0 < B := lt_trans dpos D2
  have Apos : 0 < A := lt_trans npos N2
  by_cases hc : (2 : ℚ) ^ k * d ≤ n
  · rw [if_pos hc]
    constructor
    · rw [le_div_iff₀ dpos]
      exact hc
    · rw [zpow_add₀ (by norm_num), hk, zpow_one, div_lt_iff₀ dpos, div_mul_eq_mul_div,
        div_mul_eq_mul_div, lt_div_iff₀ Bpos]
      nlinarith
  · rw [if_neg hc]
    constructor
    · rw [zpow_sub₀ (by norm_num), hk, zpow_one, le_div_iff₀ dpos, div_div,
        div_mul_eq_mul_div, div_le_iff₀ (by positivity)]
      nlinarith
    · rw [sub_add_cancel, div_lt_iff₀ dpos]
      exact not_le.mp hc

/-- The binary exponent is the only integer that brackets the magnitude. -/
theorem floorLog2_unique (q : ℚ) (k : Int) (h1 : (2 : ℚ) ^ k ≤ |q|)
    (h2 : |q| < (2 : ℚ) ^ (k + 1)) : floorLog2 q = k := by
  have hq : q ≠ 0 := by
    intro h
    rw [h, abs_zero] at h1
    exact absurd h1 (not_le.mpr (by positivity))
  obtain ⟨s1, s2⟩ := floorLog2_spec q hq
  have a1 : floorLog2 q < k + 1 :=
    (zpow_lt_zpow_iff_right₀ (by norm_num : (1 : ℚ) < 2)).mp (lt_of_le_of_lt s1 h2)
  have a2 : k < floorLog2 q + 1 :=
    (zpow_lt_zpow_iff_right₀ (by norm_num : (1 : ℚ) < 2)).mp (lt_of_le_of_lt h1 s2)
  omega

/-- The binary exponent grows with the magnitude. -/
theorem floorLog2_mono (p q : ℚ) (hp : p ≠ 0) (h : |p| ≤ |q|) :
    floorLog2 p ≤ floorLog2 q := by
  have hq : q ≠ 0 := by
    intro h0
    rw [h0, abs_zero] at h
    exact hp (abs_eq_zero.mp (le_antisymm h (abs_nonneg p)))
  obtain ⟨s1, -⟩ := floorLog2_spec p hp
  obtain ⟨-, t2⟩ := floorLog2_spec q hq
  have a1 : floorLog2 p < floorLog2 q + 1 :=
    (zpow_lt_zpow_iff_right₀ (by norm_num : (1 : ℚ) < 2)).mp
      (lt_of_le_of_lt (le_trans s1 h) t2)
  omega

/-- The binary exponent does not depend on the sign. -/
theorem floorLog2_neg (q : ℚ) : floorLog2 (-q) = floorLog2 q := by
  simp [floorLog2]

/-- `scale2 q s` is `q * 2 ^ s`. -/
theorem scale2_eq (q : ℚ) (s : Int) : scale2 q s = q * (2 : ℚ) ^ s := by
  unfold scale2
  by_cases hs : 0 ≤ s
  · rw [if_pos hs]
    obtain ⟨j, rfl⟩ := Int.eq_ofNat_of_zero_le hs
    simp only [Int.toNat_ofNat]
    rw [Rat.mkRat_eq_div, zpow_natCast]
    push_cast
    rw [mul_div_right_comm, Rat.num_div_den]
  · rw [if_neg hs]
    obtain ⟨j, hj⟩ := Int.exists_eq_neg_ofNat (le_of_lt (not_le.mp hs))
    subst hj
    simp only [neg_neg, Int.toNat_ofNat]
    rw [Rat.mkRat_eq_div, zpow_neg, zpow_natCast]
    push_cast
    rw [← div_div, Rat.num_div_den, div_eq_mul_inv]

/-- An integer as a rational. -/
theorem mkRat_one (m : Int) : mkRat m 1 = (m : ℚ) := by
  rw [Rat.mkRat_eq_div]
  simp

/-- `roundHalfEven x` is an integer nearest to `x`, and an even one when `x` is half way
between two integers. -/
theorem roundHalfEven_spec (x : ℚ) :
    |2 * x - 2 * (roundHalfEven x : ℚ)| ≤ 1 ∧
    (|2 * x - 2 * (roundHalfEven x : ℚ)| = 1 → roundHalfEven x % 2 = 0) := by
  have dpos : (0 : ℚ) < (x.den : ℚ) := by exact_mod_cast x.den_pos
  have dposI : (0 : Int) < (x.den : Int) := by exact_mod_cast x.den_pos
  have hdiv := Int.ediv_add_emod x.num (x.den : Int)
  have hr0 := Int.emod_nonneg x.num (ne_of_gt dposI)
  have hr1 := Int.emod_lt_of_pos x.num dposI
  have hN : (x.num : ℚ) = (x.den : ℚ) * ((x.num / (x.den : Int) : Int) : ℚ)
      + ((x.num % (x.den : Int) : Int) : ℚ) := by
    exact_mod_cast hdiv.symm
  have hx : x = ((x.num / (x.den : Int) : Int) : ℚ)
      + ((x.num % (x.den : Int) : Int) : ℚ) / (x.den : ℚ) :=
    calc x = (x.num : ℚ) / (x.den : ℚ) := (Rat.num_div_den x).symm
      _ = ((x.den : ℚ) * ((x.num / (x.den : Int) : Int) : ℚ)
            + ((x.num % (x.den : Int) : Int) : ℚ)) / (x.den : ℚ) := by rw [← hN]
      _ = ((x.num / (x.den : Int) : Int) : ℚ)
            + ((x.num % (x.den : Int) : Int) : ℚ) / (x.den : ℚ) := by
          rw [add_div, mul_div_cancel_left₀ _ (ne_of_gt dpos)]
  unfold roundHalfEven
  simp only
  generalize x.num / (x.den : Int) = f at *
  generalize x.num % (x.den : Int) = r at *
  have hr0q : (0 : ℚ) ≤ (r : ℚ) := by exact_mod_cast hr0
  have hr1q : (r : ℚ) < (x.den : ℚ) := by exact_mod_cast hr1
  have e1 : 2 * x - 2 * (f : ℚ) = 2 * ((r : ℚ) / (x.den : ℚ)) := by linarith
  have e2 : 2 * x - 2 * ((f + 1 : Int) : ℚ) = 2 * ((r : ℚ) / (x.den : ℚ)) - 2 := by
    push_cast
    linarith
  have t0 : (0 : ℚ) ≤ (r : ℚ) / (x.den : ℚ) := div_nonneg hr0q (le_of_lt dpos)
  have t1 : (r : ℚ) / (x.den : ℚ) < 1 := (div_lt_one dpos).mpr hr1q
  by_cases c1 : 2 * r < (x.den : Int)
  · rw [if_pos c1]
    have c1q : 2 * (r : ℚ) < (x.den : ℚ) := by exact_mod_cast c1
    have c1t : 2 * ((r : ℚ) / (x.den : ℚ)) < 1 := by
      rw [← mul_div_assoc, div_lt_one dpos]
      exact c1q
    rw [e1]
    have hlt : |2 * ((r : ℚ) / (x.den : ℚ))| < 1 := by
      rw [abs_lt]
      constructor <;> linarith
    exact ⟨le_of_lt hlt, fun h => absurd h (ne_of_lt hlt)⟩
  · rw [if_neg c1]
    by_cases c2 : (x.den : Int) < 2 * r
    · rw [if_pos c2]
      have c2q : (x.den : ℚ) < 2 * (r : ℚ) := by exact_mod_cast c2
      have c2t : 1 < 2 * ((r : ℚ) / (x.den : ℚ)) := by
        rw [← mul_div_assoc, one_lt_div dpos]
        exact c2q
      rw [e2]
      have hlt : |2 * ((r : ℚ) / (x.den : ℚ)) - 2| < 1 := by
        rw [abs_lt]
        constructor <;> linarith
      exact ⟨le_of_lt hlt, fun h => absurd h (ne_of_lt hlt)⟩
    · rw [if_neg c2]
      have c3 : 2 * r = (x.den : Int) := by omega
      have c3q : 2 * (r : ℚ) = (x.den : ℚ) := by exact_mod_cast c3
      have c3t : 2 * ((r : ℚ) / (x.den : ℚ)) = 1 := by
        rw [← mul_div_assoc, c3q, div_self (ne_of_gt dpos)]
      by_cases c4 : f % 2 = 0
      · rw [if_pos c4, e1, c3t]
        exact ⟨by norm_num, fun _ => c4⟩
      · rw [if_neg c4, e2, c3t]
        exact ⟨by norm_num, fun _ => by omega⟩

/-- There is only one nearest integer that is even in case of a tie. -/
theorem roundHalfEven_unique (x : ℚ) (m : Int) (h1 : |2 * x - 2 * (m : ℚ)| ≤ 1)
    (h2 : |2 * x - 2 * (m : ℚ)| = 1 → m % 2 = 0) : roundHalfEven x = m := by
  obtain ⟨s1, s2⟩ := roundHalfEven_spec x
  generalize roundHalfEven x = a at *
  rw [abs_le] at h1 s1
  have hd : (a : ℚ) - (m : ℚ) ≤ 1 ∧ (m : ℚ) - (a : ℚ) ≤ 1 := by
    constructor <;> linarith [h1.1, h1.2, s1.1, s1.2]
  have hd1 : a - m ≤ 1 := by exact_mod_cast hd.1
  have hd2 : m - a ≤ 1 := by exact_mod_cast hd.2
  by_contra hne
  rcases (by omega : a = m + 1 ∨ m = a + 1) with e | e
  · have ea : (a : ℚ) = (m : ℚ) + 1 := by exact_mod_cast e
    have t1 : 2 * x - 2 * (a : ℚ) = -1 := by linarith [h1.2, s1.1]
    have t2 : 2 * x - 2 * (m : ℚ) = 1 := by linarith
    have p1 := s2 (by rw [t1]; norm_num)
    have p2 := h2 (by rw [t2]; norm_num)
    omega
  · have ea : (m : ℚ) = (a : ℚ) + 1 := by exact_mod_cast e
    have t1 : 2 * x - 2 * (m : ℚ) = -1 := by linarith [h1.1, s1.2]
    have t2 : 2 * x - 2 * (a : ℚ) = 1 := by linarith
    have p1 := s2 (by rw [t2]; norm_num)
    have p2 := h2 (by rw [t1]; norm_num)
    omega

/-- An integer rounds to itself. -/
theorem roundHalfEven_intCast (m : Int) : roundHalfEven (m : ℚ) = m :=
  roundHalfEven_unique _ m (by simp) (by simp)

/-- Rounding to nearest, ties to even, commutes with the change of sign. -/
theorem roundHalfEven_neg (x : ℚ) : roundHalfEven (-x) = -roundHalfEven x := by
  obtain ⟨s1, s2⟩ := roundHalfEven_spec x
  apply roundHalfEven_unique
  · have : 2 * -x - 2 * ((-roundHalfEven x : Int) : ℚ) = -(2 * x - 2 * (roundHalfEven x : ℚ)) := by
      push_cast
      ring
    rw [this, abs_neg]
    exact s1
  · have : 2 * -x - 2 * ((-roundHalfEven x : Int) : ℚ) = -(2 * x - 2 * (roundHalfEven x : ℚ)) := by
      push_cast
      ring
    rw [this, abs_neg]
    intro h
    have := s2 h
    omega

/-- Rounding to nearest, ties to even, is monotone. -/
theorem roundHalfEven_mono (x y : ℚ) (h : x ≤ y) : roundHalfEven x ≤ roundHalfEven y := by
  obtain ⟨s1, s2⟩ := roundHalfEven_spec x
  obtain ⟨t1, t2⟩ := roundHalfEven_spec y
  generalize roundHalfEven x = a at *
  generalize roundHalfEven y = b at *
  rw [abs_le] at s1 t1
  by_contra hlt
  have hab : b + 1 ≤ a := by omega
  have habq : (b : ℚ) + 1 ≤ (a : ℚ) := by exact_mod_cast hab
  have e1 : 2 * x - 2 * (a : ℚ) = -1 := by linarith [s1.1, t1.2]
  have e2 : 2 * y - 2 * (b : ℚ) = 1 := by linarith [s1.1, t1.2]
  have e3 : (a : ℚ) = (b : ℚ) + 1 := by linarith [s1.1, t1.2]
  have e3i : a = b + 1 := by exact_mod_cast e3
  have p1 := s2 (by rw [e1]; norm_num)
  have p2 := t2 (by rw [e2]; norm_num)
  omega

/-- A value at or above an integer rounds to an integer at or above it. -/
theorem roundHalfEven_ge (x : ℚ) (k : Int) (h : (k : ℚ) ≤ x) : k ≤ roundHalfEven x := by
  have := roundHalfEven_mono _ _ h
  rwa [roundHalfEven_intCast] at this

/-- A value at or below an integer rounds to an integer at or below it. -/
theorem roundHalfEven_le (x : ℚ) (k : Int) (h : x ≤ (k : ℚ)) : roundHalfEven x ≤ k := by
  have := roundHalfEven_mono _ _ h
  rwa [roundHalfEven_intCast] at this

/-- Zero rounds to zero. -/
theorem round53_zero : round53 0 = 0 := by
  simp [round53]

/-- Rounding to the grid, read in the rationals: scale, round to an integer, scale back. -/
theorem round53_eq (q : ℚ) (hq : q ≠ 0) :
    round53 q = (roundHalfEven (q * (2 : ℚ) ^ (-(max (floorLog2 q) (-1022) - 52))) : ℚ)
      * (2 : ℚ) ^ (max (floorLog2 q) (-1022) - 52) := by
  unfold round53
  rw [if_neg hq]
  simp only [scale2_eq, mkRat_one]

/-- Rounding to the grid commutes with the change of sign. -/
theorem round53_neg (q : ℚ) : round53 (-q) = -round53 q := by
  by_cases hq : q = 0
  · subst hq
    simp [round53_zero]
  · rw [round53_eq q hq, round53_eq (-q) (neg_ne_zero.mpr hq), floorLog2_neg, neg_mul,
      roundHalfEven_neg]
    push_cast
    ring

/-- A value that is at least 0 rounds to a value that is at least 0. -/
theorem round53_nonneg (q : ℚ) (h : 0 ≤ q) : 0 ≤ round53 q := by
  by_cases hq : q = 0
  · subst hq
    rw [round53_zero]
  · rw [round53_eq q hq]
    apply mul_nonneg _ (by positivity)
    have : (0 : Int) ≤ roundHalfEven (q * (2 : ℚ) ^ (-(max (floorLog2 q) (-1022) - 52))) :=
      roundHalfEven_ge _ 0 (by push_cast; positivity)
    exact_mod_cast this

/-- A value that is at most 0 rounds to a value that is at most 0. -/
theorem round53_nonpos (q : ℚ) (h : q ≤ 0) : round53 q ≤ 0 := by
  have := round53_nonneg (-q) (by linarith)
  rw [round53_neg] at this
  linarith

/-- A positive value rounds to at most the next power of two above its grid. -/
theorem round53_le_pow (q : ℚ) (h : 0 < q) :
    round53 q ≤ (2 : ℚ) ^ (max (floorLog2 q) (-1022) + 1) := by
  have hq : q ≠ 0 := ne_of_gt h
  obtain ⟨-, s2⟩ := floorLog2_spec q hq
  rw [abs_of_pos h] at s2
  have hE : floorLog2 q ≤ max (floorLog2 q) (-1022) := le_max_left _ _
  rw [round53_eq q hq]
  generalize max (floorLog2 q) (-1022) = E at *
  have hq2 : q < (2 : ℚ) ^ (E + 1) :=
    lt_of_lt_of_le s2 (zpow_le_zpow_right₀ (by norm_num) (by omega))
  have hs : q * (2 : ℚ) ^ (-(E - 52)) ≤ (((2 : Int) ^ 53 : Int) : ℚ) := by
    have e1 : (2 : ℚ) ^ (E + 1) * (2 : ℚ) ^ (-(E - 52)) = (((2 : Int) ^ 53 : Int) : ℚ) := by
      rw [← zpow_add₀ (by norm_num : (2 : ℚ) ≠ 0)]
      have : E + 1 + -(E - 52) = 53 := by ring
      rw [this]
      norm_num
    rw [← e1]
    exact mul_le_mul_of_nonneg_right (le_of_lt hq2) (by positivity)
  have hm := roundHalfEven_le _ _ hs
  have hmq : (roundHalfEven (q * (2 : ℚ) ^ (-(E - 52))) : ℚ) ≤ (((2 : Int) ^ 53 : Int) : ℚ) := by
    exact_mod_cast hm
  calc (roundHalfEven (q * (2 : ℚ) ^ (-(E - 52))) : ℚ) * (2 : ℚ) ^ (E - 52)
      ≤ (((2 : Int) ^ 53 : Int) : ℚ) * (2 : ℚ) ^ (E - 52) :=
        mul_le_mul_of_nonneg_right hmq (by positivity)
    _ = (2 : ℚ) ^ (E + 1) := by
        have : (((2 : Int) ^ 53 : Int) : ℚ) = (2 : ℚ) ^ (53 : Int) := by norm_num
        rw [this, ← zpow_add₀ (by norm_num : (2 : ℚ) ≠ 0)]
        congr 1
        ring

/-- A positive normal value rounds to at least the power of two below it. -/
theorem round53_ge_pow (q : ℚ) (h : 0 < q) (hn : -1022 ≤ floorLog2 q) :
    (2 : ℚ) ^ (floorLog2 q) ≤ round53 q := by
  have hq : q ≠ 0 := ne_of_gt h
  obtain ⟨s1, -⟩ := floorLog2_spec q hq
  rw [abs_of_pos h] at s1
  rw [round53_eq q hq, max_eq_left hn]
  generalize floorLog2 q = E at *
  have hs : (((2 : Int) ^ 52 : Int) : ℚ) ≤ q * (2 : ℚ) ^ (-(E - 52)) := by
    have e1 : (2 : ℚ) ^ E * (2 : ℚ) ^ (-(E - 52)) = (((2 : Int) ^ 52 : Int) : ℚ) := by
      rw [← zpow_add₀ (by norm_num : (2 : ℚ) ≠ 0)]
      have : E + -(E - 52) = 52 := by ring
      rw [this]
      norm_num
    rw [← e1]
    exact mul_le_mul_of_nonneg_right s1 (by positivity)
  have hm := roundHalfEven_ge _ _ hs
  have hmq : (((2 : Int) ^ 52 : Int) : ℚ) ≤ (roundHalfEven (q * (2 : ℚ) ^ (-(E - 52))) : ℚ) := by
    exact_mod_cast hm
  calc (2 : ℚ) ^ E = (((2 : Int) ^ 52 : Int) : ℚ) * (2 : ℚ) ^ (E - 52) := by
        have : (((2 : Int) ^ 52 : Int) : ℚ) = (2 : ℚ) ^ (52 : Int) := by norm_num
        rw [this, ← zpow_add₀ (by norm_num : (2 : ℚ) ≠ 0)]
        congr 1
        ring
    _ ≤ (roundHalfEven (q * (2 : ℚ) ^ (-(E - 52))) : ℚ) * (2 : ℚ) ^ (E - 52) :=
        mul_le_mul_of_nonneg_right hmq (by positivity)

/-- Rounding to the grid is monotone on positive values. -/
theorem round53_mono_pos (p q : ℚ) (hp : 0 < p) (h : p ≤ q) : round53 p ≤ round53 q := by
  have hq : 0 < q := lt_of_lt_of_le hp h
  have hfl : floorLog2 p ≤ floorLog2 q :=
    floorLog2_mono p q (ne_of_gt hp) (by rw [abs_of_pos hp, abs_of_pos hq]; exact h)
  have hE : max (floorLog2 p) (-1022) ≤ max (floorLog2 q) (-1022) :=
    max_le_max hfl (le_refl _)
  rcases eq_or_lt_of_le hE with he | hlt
  · rw [round53_eq p (ne_of_gt hp), round53_eq q (ne_of_gt hq), he]
    apply mul_le_mul_of_nonneg_right _ (by positivity)
    have := roundHalfEven_mono (p * (2 : ℚ) ^ (-(max (floorLog2 q) (-1022) - 52)))
      (q * (2 : ℚ) ^ (-(max (floorLog2 q) (-1022) - 52)))
      (mul_le_mul_of_nonneg_right h (by positivity))
    exact_mod_cast this
  · have hn : -1022 ≤ floorLog2 q := by
      by_contra hc
      rw [max_eq_right (le_of_lt (not_le.mp hc))] at hlt
      have := le_max_right (floorLog2 p) (-1022)
      omega
    rw [max_eq_left hn] at hlt
    calc round53 p ≤ (2 : ℚ) ^ (max (floorLog2 p) (-1022) + 1) := round53_le_pow p hp
      _ ≤ (2 : ℚ) ^ (floorLog2 q) := zpow_le_zpow_right₀ (by norm_num) (by omega)
      _ ≤ round53 q := round53_ge_pow q hq hn

/-- Rounding to the grid is monotone. -/
theorem round53_mono (p q : ℚ) (h : p ≤ q) : round53 p ≤ round53 q := by
  rcases lt_or_le 0 p with hp | hp
  · exact round53_mono_pos p q hp h
  · rcases le_or_lt 0 q with hq | hq
    · exact le_trans (round53_nonpos p hp) (round53_nonneg q hq)
    · have := round53_mono_pos (-q) (-p) (by linarith) (by linarith)
      rw [round53_neg, round53_neg] at this
      linarith

/-- A value that is an integer multiple of the spacing of its own grid rounds to itself. -/
theorem round53_fix (r : ℚ) (hr : r ≠ 0) (z : Int)
    (hz : r * (2 : ℚ) ^ (-(max (floorLog2 r) (-1022) - 52)) = (z : ℚ)) : round53 r = r := by
  rw [round53_eq r hr, hz, roundHalfEven_intCast, ← hz, mul_assoc,
    ← zpow_add₀ (by norm_num : (2 : ℚ) ≠ 0)]
  simp

/-- Rounding a positive value twice is rounding it once. -/
theorem round53_idem_pos (q : ℚ) (h : 0 < q) : round53 (round53 q) = round53 q := by
  have hq : q ≠ 0 := ne_of_gt h
  by_cases hr0 : round53 q = 0
  · rw [hr0, round53_zero]
  · have hrpos : 0 < round53 q := lt_of_le_of_ne (round53_nonneg q (le_of_lt h)) (Ne.symm hr0)
    have hle := round53_le_pow q h
    have hE : -1022 ≤ max (floorLog2 q) (-1022) := le_max_right _ _
    have hreq := round53_eq q hq
    generalize max (floorLog2 q) (-1022) = E at *
    generalize roundHalfEven (q * (2 : ℚ) ^ (-(E - 52))) = m at *
    obtain ⟨s1, s2⟩ := floorLog2_spec (round53 q) hr0
    rw [abs_of_pos hrpos] at s1 s2
    rcases lt_or_eq_of_le hle with hlt | heq
    · have hfl : floorLog2 (round53 q) < E + 1 :=
        (zpow_lt_zpow_iff_right₀ (by norm_num : (1 : ℚ) < 2)).mp (lt_of_le_of_lt s1 hlt)
      have hE2 : max (floorLog2 (round53 q)) (-1022) ≤ E := max_le (by omega) hE
      apply round53_fix (round53 q) hr0 (m * 2 ^ (E - max (floorLog2 (round53 q)) (-1022)).toNat)
      generalize max (floorLog2 (round53 q)) (-1022) = E2 at *
      obtain ⟨j, hj⟩ := Int.eq_ofNat_of_zero_le (by omega : 0 ≤ E - E2)
      rw [hj, Int.toNat_ofNat, hreq, mul_assoc, ← zpow_add₀ (by norm_num : (2 : ℚ) ≠ 0)]
      have : E - 52 + -(E2 - 52) = (j : Int) := by omega
      rw [this, zpow_natCast]
      push_cast
      ring
    · have hfl : floorLog2 (round53 q) = E + 1 := by
        apply floorLog2_unique
        · rw [abs_of_pos hrpos, heq]
        · rw [abs_of_pos hrpos, heq]
          exact zpow_lt_zpow_right₀ (by norm_num) (by omega)
      apply round53_fix (round53 q) hr0 ((2 : Int) ^ 52)
      rw [hfl, max_eq_left (by omega), heq, ← zpow_add₀ (by norm_num : (2 : ℚ) ≠ 0)]
      have : E + 1 + -(E + 1 - 52) = 52 := by ring
      rw [this]
      norm_num

/-- Rounding twice is rounding once: the rounded value is on the grid. -/
theorem round53_idem (q : ℚ) : round53 (round53 q) = round53 q := by
  rcases lt_trichotomy 0 q with h | h | h
  · exact round53_idem_pos q h
  · rw [← h, round53_zero, round53_zero]
  · have := round53_idem_pos (-q) (by linarith)
    rw [round53_neg, round53_neg] at this
    linarith

/-! ## Arithmetic and order of `double` -/

/-- A rational is a finite `double` when rounding leaves it fixed and it is below 2^1024 in
magnitude. -/
theorem isBinary64_iff (q : ℚ) :
    isBinary64 q = true ↔ round53 q = q ∧ (q = 0 ∨ floorLog2 q ≤ 1023) := by
  simp [isBinary64]

/-- Zero is a `double`. -/
theorem isBinary64_zero : isBinary64 0 = true := by decide

/-- The opposite of a `double` is a `double`. -/
theorem isBinary64_neg (q : ℚ) : isBinary64 (-q) = isBinary64 q := by
  rw [Bool.eq_iff_iff, isBinary64_iff, isBinary64_iff, round53_neg, floorLog2_neg]
  simp

/-- A rounded value that is not a finite `double` has magnitude 2^1024 or more. -/
theorem not_isBinary64_round53 (q : ℚ) (h : ¬ isBinary64 (round53 q) = true) :
    round53 q ≠ 0 ∧ 1023 < floorLog2 (round53 q) := by
  rw [isBinary64_iff, round53_idem] at h
  constructor
  · intro h0
    exact h ⟨rfl, Or.inl h0⟩
  · by_contra hc
    exact h ⟨rfl, Or.inr (not_lt.mp hc)⟩

/-- A rational that is a `double` is converted to itself. -/
theorem Money.ofRat_fin (q : ℚ) (h : isBinary64 q = true) : Money.ofRat q = Money.fin q h := by
  have e : round53 q = q := ((isBinary64_iff q).mp h).1
  have key : ∀ (r : ℚ), r = q →
      (if h2 : isBinary64 r = true then Money.fin r h2
        else if 0 < q then Money.posInf else Money.negInf) = Money.fin q h := by
    intro r hr
    subst hr
    rw [dif_pos h]
  exact key (round53 q) e

/-- The literal `0`. -/
theorem Money.zero_eq : (0 : Money) = Money.fin 0 isBinary64_zero := by decide

/-- `<=` on two finite values is `≤` on the rationals. -/
theorem Money.fin_le_fin (a b : ℚ) (ha : isBinary64 a = true) (hb : isBinary64 b = true) :
    Money.fin a ha ≤ Money.fin b hb ↔ a ≤ b := by
  show Money.le _ _ = true ↔ _
  simp [Money.le]

/-- `<` on two finite values is `<` on the rationals. -/
theorem Money.fin_lt_fin (a b : ℚ) (ha : isBinary64 a = true) (hb : isBinary64 b = true) :
    Money.fin a ha < Money.fin b hb ↔ a < b := by
  show Money.lt _ _ = true ↔ _
  simp [Money.lt]

/-- The sum of two finite values is the exact sum, rounded. -/
theorem Money.fin_add_fin (a b : ℚ) (ha : isBinary64 a = true) (hb : isBinary64 b = true) :
    Money.fin a ha + Money.fin b hb = Money.ofRat (a + b) := by
  show Money.add _ _ = _
  simp only [Money.add]
  rw [Rat.add_def']

/-- The difference of two finite values is the exact difference, rounded. -/
theorem Money.fin_sub_fin (a b : ℚ) (ha : isBinary64 a = true) (hb : isBinary64 b = true) :
    Money.fin a ha - Money.fin b hb = Money.ofRat (a - b) := by
  show Money.sub _ _ = _
  simp only [Money.sub]
  rw [Rat.sub_def']

/-- The product of two finite values is the exact product, rounded. -/
theorem Money.fin_mul_fin (a b : ℚ) (ha : isBinary64 a = true) (hb : isBinary64 b = true) :
    Money.fin a ha * Money.fin b hb = Money.ofRat (a * b) := by
  show Money.mul _ _ = _
  simp only [Money.mul]
  congr 1
  rw [Rat.mkRat_eq_div]
  push_cast
  rw [mul_div_mul_comm, Rat.num_div_den, Rat.num_div_den]

/-- The opposite of a finite value is exact. -/
theorem Money.neg_fin (a : ℚ) (ha : isBinary64 a = true) :
    -Money.fin a ha = Money.fin (-a) (by rw [isBinary64_neg]; exact ha) := by
  show Money.neg _ = _
  simp only [Money.neg]
  have e : mkRat (-a.num) a.den = -a := by
    rw [Rat.mkRat_eq_div]
    push_cast
    rw [neg_div, Rat.num_div_den]
  rw [e]
  exact Money.ofRat_fin _ _

/-- Adding zero changes no `double`, a NaN and the infinities included. -/
theorem Money.add_zero_eq (x : Money) : x + 0 = x := by
  rw [Money.zero_eq]
  cases x with
  | nan => rfl
  | posInf => rfl
  | negInf => rfl
  | fin q h =>
    rw [Money.fin_add_fin, add_zero]
    exact Money.ofRat_fin q h

/-- Conversion to `double` is monotone (overflow to the infinities included). -/
theorem Money.ofRat_mono (p q : ℚ) (h : p ≤ q) : Money.ofRat p ≤ Money.ofRat q := by
  have hr := round53_mono p q h
  unfold Money.ofRat
  by_cases hp : isBinary64 (round53 p) = true
  · rw [dif_pos hp]
    by_cases hq : isBinary64 (round53 q) = true
    · rw [dif_pos hq, Money.fin_le_fin]
      exact hr
    · rw [dif_neg hq]
      by_cases hq0 : 0 < q
      · rw [if_pos hq0]
        rfl
      · exfalso
        obtain ⟨n0, n1⟩ := not_isBinary64_round53 q hq
        have hqn : round53 q < 0 :=
          lt_of_le_of_ne (round53_nonpos q (not_lt.mp hq0)) n0
        have hpn : round53 p < 0 := lt_of_le_of_lt hr hqn
        have hfl := floorLog2_mono (round53 q) (round53 p) n0
          (by rw [abs_of_neg hqn, abs_of_neg hpn]; linarith)
        rcases ((isBinary64_iff _).mp hp).2 with h0 | h1
        · exact absurd h0 (ne_of_lt hpn)
        · omega
  · rw [dif_neg hp]
    by_cases hp0 : 0 < p
    · rw [if_pos hp0]
      have hq0 : 0 < q := lt_of_lt_of_le hp0 h
      obtain ⟨n0, n1⟩ := not_isBinary64_round53 p hp
      have hpp : 0 < round53 p :=
        lt_of_le_of_ne (round53_nonneg p (le_of_lt hp0)) (Ne.symm n0)
      have hqp : 0 < round53 q := lt_of_lt_of_le hpp hr
      have hfl := floorLog2_mono (round53 p) (round53 q) n0
        (by rw [abs_of_pos hpp, abs_of_pos hqp]; exact hr)
      have hq : ¬ isBinary64 (round53 q) = true := by
        intro hq
        rcases ((isBinary64_iff _).mp hq).2 with h0 | h1
        · exact absurd h0 (ne_of_gt hqp)
        · omega
      rw [dif_neg hq, if_pos hq0]
      rfl
    · rw [if_neg hp0]
      by_cases hq : isBinary64 (round53 q) = true
      · rw [dif_pos hq]
        rfl
      · rw [dif_neg hq]
        split_ifs <;> rfl

/-- Zero converts to zero. -/
theorem Money.ofRat_zero : Money.ofRat 0 = 0 := by decide

/-- A rational that is at least 0 converts to a `double` that is at least 0. -/
theorem Money.ofRat_nonneg (q : ℚ) (h : 0 ≤ q) : (0 : Money) ≤ Money.ofRat q := by
  have := Money.ofRat_mono 0 q h
  rwa [Money.ofRat_zero] at this

/-- The quotient of two finite values, the second not zero, is the exact quotient, rounded. -/
theorem Money.fin_div_fin (a b : ℚ) (ha : isBinary64 a = true) (hb : isBinary64 b = true)
    (h0 : b ≠ 0) : Money.fin a ha / Money.fin b hb = Money.ofRat (a / b) := by
  show Money.div _ _ = _
  simp only [Money.div]
  rw [if_neg h0]
  congr 1
  rw [Rat.divInt_eq_div]
  push_cast
  rw [← div_div_div_eq, Rat.num_div_den, Rat.num_div_den]


/-- `<=` is the Boolean comparison. -/
theorem Money.le_def (x y : Money) : x ≤ y ↔ Money.le x y = true := Iff.rfl

/-- `<` is the Boolean comparison. -/
theorem Money.lt_def (x y : Money) : x < y ↔ Money.lt x y = true := Iff.rfl

/-- Neither side of a true `<=` is a NaN. -/
theorem Money.ne_nan_of_le (x y : Money) (h : x ≤ y) : x ≠ Money.nan ∧ y ≠ Money.nan := by
  rw [Money.le_def] at h
  cases x <;> cases y <;> simp [Money.le] at h ⊢

/-- Neither side of a true `<` is a NaN. -/
theorem Money.ne_nan_of_lt (x y : Money) (h : x < y) : x ≠ Money.nan ∧ y ≠ Money.nan := by
  rw [Money.lt_def] at h
  cases x <;> cases y <;> simp [Money.lt] at h ⊢

/-- A value that is not a NaN is `<=` itself. -/
theorem Money.le_rfl_of_ne_nan (x : Money) (h : x ≠ Money.nan) : x ≤ x := by
  rw [Money.le_def]
  cases x <;> simp [Money.le] at h ⊢

/-- `<=` is transitive. -/
theorem Money.le_chain (x y z : Money) (h1 : x ≤ y) (h2 : y ≤ z) : x ≤ z := by
  rw [Money.le_def] at *
  cases x <;> cases y <;> cases z <;> simp [Money.le] at h1 h2 ⊢
  exact le_trans h1 h2

/-- If `x < y` then not `y <= x`. -/
theorem Money.lt_imp_not_le (x y : Money) (h : x < y) : ¬ y ≤ x := by
  rw [Money.lt_def] at h
  rw [Money.le_def]
  cases x <;> cases y <;> simp [Money.le, Money.lt] at h ⊢
  exact h

/-- If `x <= y` then not `y < x`. -/
theorem Money.le_imp_not_lt (x y : Money) (h : x ≤ y) : ¬ y < x := by
  rw [Money.le_def] at h
  rw [Money.lt_def]
  cases x <;> cases y <;> simp [Money.le, Money.lt] at h ⊢
  exact h

/-- For two values that are not NaN, not `y <= x` gives `x < y`. -/
theorem Money.not_le_imp_lt (x y : Money) (hx : x ≠ Money.nan) (hy : y ≠ Money.nan)
    (h : ¬ y ≤ x) : x < y := by
  rw [Money.le_def] at h
  rw [Money.lt_def]
  cases x <;> cases y <;> simp [Money.le, Money.lt] at h hx hy ⊢
  exact h

/-- For two values that are not NaN, not `x < y` gives `y <= x`. -/
theorem Money.not_lt_imp_le (x y : Money) (hx : x ≠ Money.nan) (hy : y ≠ Money.nan)
    (h : ¬ x < y) : y ≤ x := by
  rw [Money.lt_def] at h
  rw [Money.le_def]
  cases x <;> cases y <;> simp [Money.le, Money.lt] at h hx hy ⊢
  exact h

/-- A finite `double` is the finite value of its rational. -/
theorem Money.eq_fin_of_isFinite (x : Money) (h : x.isFinite = true) :
    ∃ hq : isBinary64 x.toRat = true, x = Money.fin x.toRat hq := by
  cases x with
  | fin q hq => exact ⟨hq, rfl⟩
  | nan => simp [Money.isFinite] at h
  | posInf => simp [Money.isFinite] at h
  | negInf => simp [Money.isFinite] at h

/-- A finite `double` is not a NaN. -/
theorem Money.ne_nan_of_isFinite (x : Money) (h : x.isFinite = true) : x ≠ Money.nan := by
  cases x <;> simp [Money.isFinite] at h ⊢

/-- The sum of two finite values is their exact sum when that is a `double`. -/
theorem Money.add_exact (x y : Money) (hx : x.isFinite = true) (hy : y.isFinite = true)
    (h : isBinary64 (x.toRat + y.toRat) = true) :
    x + y = Money.fin (x.toRat + y.toRat) h := by
  obtain ⟨h1, e1⟩ := Money.eq_fin_of_isFinite x hx
  obtain ⟨h2, e2⟩ := Money.eq_fin_of_isFinite y hy
  generalize x.toRat = a at *
  generalize y.toRat = b at *
  subst e1 e2
  rw [Money.fin_add_fin]
  exact Money.ofRat_fin _ h

/-- The difference of two finite values is their exact difference when that is a `double`. -/
theorem Money.sub_exact (x y : Money) (hx : x.isFinite = true) (hy : y.isFinite = true)
    (h : isBinary64 (x.toRat - y.toRat) = true) :
    x - y = Money.fin (x.toRat - y.toRat) h := by
  obtain ⟨h1, e1⟩ := Money.eq_fin_of_isFinite x hx
  obtain ⟨h2, e2⟩ := Money.eq_fin_of_isFinite y hy
  generalize x.toRat = a at *
  generalize y.toRat = b at *
  subst e1 e2
  rw [Money.fin_sub_fin]
  exact Money.ofRat_fin _ h

/-- The value of the literal `0`. -/
theorem Money.toRat_zero : (0 : Money).toRat = 0 := by decide

/-- The literal `0` is finite. -/
theorem Money.isFinite_zero : (0 : Money).isFinite = true := by decide

/-- `<` on finite values, read on their rationals. -/
theorem Money.lt_iff_toRat (x y : Money) (hx : x.isFinite = true) (hy : y.isFinite = true) :
    x < y ↔ x.toRat < y.toRat := by
  obtain ⟨h1, e1⟩ := Money.eq_fin_of_isFinite x hx
  obtain ⟨h2, e2⟩ := Money.eq_fin_of_isFinite y hy
  rw [e1, e2, Money.fin_lt_fin]
  rfl

/-- `<=` on finite values, read on their rationals. -/
theorem Money.le_iff_toRat (x y : Money) (hx : x.isFinite = true) (hy : y.isFinite = true) :
    x ≤ y ↔ x.toRat ≤ y.toRat := by
  obtain ⟨h1, e1⟩ := Money.eq_fin_of_isFinite x hx
  obtain ⟨h2, e2⟩ := Money.eq_fin_of_isFinite y hy
  rw [e1, e2, Money.fin_le_fin]
  rfl

/-- Positivity of a finite value, read on its rational. -/
theorem Money.pos_iff_toRat (x : Money) (hx : x.isFinite = true) :
    0 < x ↔ 0 < x.toRat := by
  rw [Money.lt_iff_toRat 0 x Money.isFinite_zero hx, Money.toRat_zero]

/-- A conversion gives the rounded value, or an infinity of the sign of the rational. -/
theorem Money.ofRat_cases (q : ℚ) :
    (∃ h, Money.ofRat q = Money.fin (round53 q) h) ∨
    (0 < q ∧ Money.ofRat q = Money.posInf) ∨ (q < 0 ∧ Money.ofRat q = Money.negInf) := by
  unfold Money.ofRat
  by_cases h : isBinary64 (round53 q) = true
  · left
    exact ⟨h, by rw [dif_pos h]⟩
  · right
    rw [dif_neg h]
    by_cases h0 : 0 < q
    · left
      exact ⟨h0, by rw [if_pos h0]⟩
    · right
      refine ⟨?_, by rw [if_neg h0]⟩
      rcases lt_or_eq_of_le (not_lt.mp h0) with h1 | h1
      · exact h1
      · exfalso
        rw [h1, round53_zero] at h
        exact h isBinary64_zero

/-- A conversion never gives a NaN. -/
theorem Money.ofRat_ne_nan (q : ℚ) : Money.ofRat q ≠ Money.nan := by
  rcases Money.ofRat_cases q with ⟨h, e⟩ | ⟨-, e⟩ | ⟨-, e⟩ <;> rw [e] <;> simp

/-- Subtracting a finite value that does not compare above leaves at least 0. -/
theorem Money.sub_nonneg_of (y x : Money) (hx : x.isFinite = true) (hy : y ≠ Money.nan)
    (h : ¬ y < x) : 0 ≤ y - x := by
  obtain ⟨h1, e1⟩ := Money.eq_fin_of_isFinite x hx
  generalize x.toRat = a at *
  subst e1
  cases y with
  | nan => exact absurd rfl hy
  | posInf =>
    rw [Money.zero_eq]
    rfl
  | negInf =>
    exfalso
    apply h
    rw [Money.lt_def]
    rfl
  | fin b hb =>
    rw [Money.fin_lt_fin] at h
    rw [Money.fin_sub_fin]
    exact Money.ofRat_nonneg _ (by linarith)

/-- Adding a finite value that does not compare `<= 0` does not lower a value. -/
theorem Money.le_add_of_pos (y x : Money) (hx : x.isFinite = true) (hy : y ≠ Money.nan)
    (h : ¬ x ≤ 0) : y ≤ y + x := by
  obtain ⟨h1, e1⟩ := Money.eq_fin_of_isFinite x hx
  generalize x.toRat = a at *
  subst e1
  rw [Money.zero_eq, Money.fin_le_fin] at h
  cases y with
  | nan => exact absurd rfl hy
  | posInf => rfl
  | negInf => rfl
  | fin b hb =>
    rw [Money.fin_add_fin]
    have := Money.ofRat_mono b (b + a) (by linarith)
    rwa [Money.ofRat_fin b hb] at this

/-- The rendering of a finite value: round to six decimals, then to the nearest `double`. -/
theorem Money.to_string_stod_fin (q : ℚ) (h : isBinary64 q = true) :
    (Money.fin q h).to_string_stod
      = Money.ofRat ((roundHalfEven (q * 1000000) : ℚ) / 1000000) := by
  show Money.ofRat _ = _
  congr 1
  have e : mkRat (q.num * 1000000) q.den = q * 1000000 := by
    rw [Rat.mkRat_eq_div]
    push_cast
    rw [mul_div_right_comm, Rat.num_div_den]
  rw [e, Rat.mkRat_eq_div]
  push_cast
  rfl

/-- The rendering of a value that is not a NaN is not a NaN. -/
theorem Money.to_string_stod_ne_nan (x : Money) (h : x ≠ Money.nan) :
    x.to_string_stod ≠ Money.nan := by
  cases x with
  | nan => exact absurd rfl h
  | posInf => simp [Money.to_string_stod]
  | negInf => simp [Money.to_string_stod]
  | fin q hq =>
    rw [Money.to_string_stod_fin]
    exact Money.ofRat_ne_nan _

/-- The product of two finite values is their exact product when that is a `double`. -/
theorem Money.mul_exact (x y : Money) (hx : x.isFinite = true) (hy : y.isFinite = true)
    (h : isBinary64 (x.toRat * y.toRat) = true) :
    x * y = Money.fin (x.toRat * y.toRat) h := by
  obtain ⟨h1, e1⟩ := Money.eq_fin_of_isFinite x hx
  obtain ⟨h2, e2⟩ := Money.eq_fin_of_isFinite y hy
  generalize x.toRat = a at *
  generalize y.toRat = b at *
  subst e1 e2
  rw [Money.fin_mul_fin]
  exact Money.ofRat_fin _ h

/-- 100 is a `double`. -/
theorem isBinary64_hundred : isBinary64 100 = true := by decide

/-- The literal `100`. -/
theorem Money.hundred_eq : (100 : Money) = Money.fin 100 isBinary64_hundred := by decide

/-- A finite value over 100 is the exact quotient when that is a `double`. -/
theorem Money.div_hundred_exact (x : Money) (hx : x.isFinite = true)
    (h : isBinary64 (x.toRat / 100) = true) :
    x / 100 = Money.fin (x.toRat / 100) h := by
  obtain ⟨h1, e1⟩ := Money.eq_fin_of_isFinite x hx
  generalize x.toRat = a at *
  subst e1
  rw [Money.hundred_eq, Money.fin_div_fin _ _ _ _ (by norm_num)]
  exact Money.ofRat_fin _ h

/-- The product of two finite values that are at least 0 is at least 0. -/
theorem Money.mul_nonneg_of (x y : Money) (hx : x.isFinite = true) (hy : y.isFinite = true)
    (h1 : 0 ≤ x) (h2 : 0 ≤ y) : 0 ≤ x * y := by
  obtain ⟨q1, e1⟩ := Money.eq_fin_of_isFinite x hx
  obtain ⟨q2, e2⟩ := Money.eq_fin_of_isFinite y hy
  generalize x.toRat = a at *
  generalize y.toRat = b at *
  subst e1 e2
  rw [Money.zero_eq, Money.fin_le_fin] at h1 h2
  rw [Money.fin_mul_fin]
  exact Money.ofRat_nonneg _ (mul_nonneg h1 h2)

/-- A value that is at least 0, over 100, is at least 0. -/
theorem Money.div_hundred_nonneg (x : Money) (h : 0 ≤ x) : 0 ≤ x / 100 := by
  rw [Money.hundred_eq]
  cases x with
  | nan => exact absurd rfl (Money.ne_nan_of_le _ _ h).2
  | posInf =>
    rw [Money.zero_eq]
    rfl
  | negInf =>
    rw [Money.zero_eq] at h
    exact absurd h (by decide)
  | fin a ha =>
    rw [Money.zero_eq, Money.fin_le_fin] at h
    rw [Money.fin_div_fin _ _ _ _ (by norm_num)]
    exact Money.ofRat_nonneg _ (div_nonneg h (by norm_num))

/-- The sum of two values that are at least 0 is at least 0. -/
theorem Money.add_nonneg_of (x y : Money) (h1 : 0 ≤ x) (h2 : 0 ≤ y) : 0 ≤ x + y := by
  cases x with
  | nan => exact absurd rfl (Money.ne_nan_of_le _ _ h1).2
  | negInf =>
    rw [Money.zero_eq] at h1
    exact absurd h1 (by decide)
  | posInf =>
    cases y with
    | nan => exact absurd rfl (Money.ne_nan_of_le _ _ h2).2
    | negInf =>
      rw [Money.zero_eq] at h2
      exact absurd h2 (by decide)
    | posInf =>
      rw [Money.zero_eq]
      rfl
    | fin b hb =>
      rw [Money.zero_eq]
      rfl
  | fin a ha =>
    cases y with
    | nan => exact absurd rfl (Money.ne_nan_of_le _ _ h2).2
    | negInf =>
      rw [Money.zero_eq] at h2
      exact absurd h2 (by decide)
    | posInf =>
      rw [Money.zero_eq]
      rfl
    | fin b hb =>
      rw [Money.zero_eq, Money.fin_le_fin] at h1 h2
      rw [Money.fin_add_fin]
      exact Money.ofRat_nonneg _ (add_nonneg h1 h2)

/-- A finite value times zero is zero. -/
theorem Money.mul_zero_eq (x : Money) (hx : x.isFinite = true) : x * 0 = 0 := by
  obtain ⟨q1, e1⟩ := Money.eq_fin_of_isFinite x hx
  generalize x.toRat = a at *
  subst e1
  rw [Money.zero_eq, Money.fin_mul_fin, mul_zero, Money.ofRat_zero, Money.zero_eq]

/-- Zero over 100 is zero. -/
theorem Money.zero_div_hundred : (0 : Money) / 100 = 0 := by decide!

/-- A value whose opposite is finite is finite. -/
theorem Money.isFinite_of_neg (x : Money) (h : (-x).isFinite = true) : x.isFinite = true := by
  cases x with
  | fin a ha => rfl
  | nan => exact absurd h (by decide)
  | posInf => exact absurd h (by decide)
  | negInf => exact absurd h (by decide)

/-- The rational of the opposite of a finite value. -/
theorem Money.toRat_neg (x : Money) (hx : x.isFinite = true) : (-x).toRat = -x.toRat := by
  obtain ⟨q1, e1⟩ := Money.eq_fin_of_isFinite x hx
  generalize x.toRat = a at *
  subst e1
  rw [Money.neg_fin]
  rfl

/-- The opposite of a finite value is finite. -/
theorem Money.isFinite_neg (x : Money) (hx : x.isFinite = true) : (-x).isFinite = true := by
  obtain ⟨q1, e1⟩ := Money.eq_fin_of_isFinite x hx
  generalize x.toRat = a at *
  subst e1
  rw [Money.neg_fin]
  rfl

/-- A finite value is `<=` the conversion of every rational at or above it. -/
theorem Money.le_ofRat_of (x : Money) (hx : x.isFinite = true) (q : ℚ) (h : x.toRat ≤ q) :
    x ≤ Money.ofRat q := by
  obtain ⟨q1, e1⟩ := Money.eq_fin_of_isFinite x hx
  generalize x.toRat = a at *
  subst e1
  have := Money.ofRat_mono a q h
  rwa [Money.ofRat_fin a q1] at this


/-! ## Account operations -/

/-- A deposit of an amount that does not compare `<= 0` is accepted and adds the amount to
the balance, in `double` arithmetic. -/
theorem Account.deposit_accepted (a : Account) (amount : Money) (h : ¬ amount ≤ 0) :
    (a.deposit amount).1 = true ∧ (a.deposit amount).2.balance = a.balance + amount := by
  simp [Account.deposit, h]

/-- Counterexample to C1 as stated: on a Standard account with balance 2^53, `deposit(1)`
returns true and leaves the balance at 2^53: the sum 2^53 + 1 is not a `double` and rounds
back to 2^53, so the balance has not grown by the amount. -/
theorem Account.deposit_spec_counterexample :
    (0 : Money) < 1 ∧ (sampleLarge.deposit 1).1 = true ∧
    (sampleLarge.deposit 1).2.balance = sampleLarge.balance ∧
    sampleLarge.balance.toRat + (1 : Money).toRat = 9007199254740993 ∧
    (sampleLarge.deposit 1).2.balance.toRat = 9007199254740992 := by
  decide!

/-- C1, amended: `Account::deposit`, for every account variant and amount: an amount that
compares `<= 0` is refused and the object is untouched; every other amount (a positive
one, or a NaN) is accepted and the balance becomes the `double` sum `balance + amount`,
with no upper bound; that sum is the exact sum of the two values whenever the exact sum is
itself a `double`. -/
theorem Account.deposit_spec (a : Account) (amount : Money) :
    (amount ≤ 0 → a.deposit amount = (false, a)) ∧
    (¬ amount ≤ 0 → (a.deposit amount).1 = true ∧
      (a.deposit amount).2.balance = a.balance + amount) ∧
    (0 < amount → (a.deposit amount).1 = true) ∧
    (0 < amount → a.balance.isFinite = true → amount.isFinite = true →
      ∀ h : isBinary64 (a.balance.toRat + amount.toRat) = true,
        (a.deposit amount).2.balance = Money.fin (a.balance.toRat + amount.toRat) h) := by
  refine ⟨?_, ?_, ?_, ?_⟩
  · intro h
    simp [Account.deposit, h]
  · intro h
    exact Account.deposit_accepted a amount h
  · intro h
    exact (Account.deposit_accepted a amount (Money.lt_imp_not_le 0 amount h)).1
  · intro h hb hx hs
    rw [(Account.deposit_accepted a amount (Money.lt_imp_not_le 0 amount h)).2]
    exact Money.add_exact _ _ hb hx hs

/-- Witness of C1, amended: depositing 50 into the Standard sample account (balance 100)
leaves exactly 150. -/
theorem Account.deposit_spec_witness :
    (0 : Money) < 50 ∧ sampleStandard.balance.isFinite = true ∧
    (50 : Money).isFinite = true ∧
    (sampleStandard.deposit 50).1 = true ∧
    (sampleStandard.deposit 50).2.balance = 150 :=
  ⟨by decide, by decide, by decide,
   (Account.deposit_spec sampleStandard 50).2.2.1 (by decide),
   ((Account.deposit_spec sampleStandard 50).2.2.2 (by decide) (by decide) (by decide)
     (by decide!)).trans (by decide!)⟩

/-- The flag `Account::withdraw` returns, whatever the values. -/
theorem Account.withdraw_flag (a : Account) (amount : Money) :
    (Account.withdraw a amount).1 = true ↔ (¬ amount ≤ 0 ∧ ¬ a.balance < amount) := by
  unfold Account.withdraw
  by_cases h1 : amount ≤ 0
  · simp [h1]
  · by_cases h2 : a.balance < amount
    · simp [h1, h2]
    · simp [h1, h2]

/-- What `Account::withdraw` leaves, by the flag it returned. -/
theorem Account.withdraw_result (a : Account) (amount : Money) :
    ((Account.withdraw a amount).1 = true →
      (Account.withdraw a amount).2 = { a with balance := a.balance - amount }) ∧
    ((Account.withdraw a amount).1 = false → (Account.withdraw a amount).2 = a) := by
  unfold Account.withdraw
  by_cases h1 : amount ≤ 0
  · simp [h1]
  · by_cases h2 : a.balance < amount
    · simp [h1, h2]
    · simp [h1, h2]

/-- The flag `CheckingAccount::withdraw` returns, whatever the values. -/
theorem CheckingAccount.overdraft_withdraw_flag (a : Account) (overdraftLimit amount : Money) :
    (CheckingAccount.withdraw a overdraftLimit amount).1 = true ↔
      (¬ amount ≤ 0 ∧ ¬ a.balance + overdraftLimit < amount) := by
  unfold CheckingAccount.withdraw
  by_cases h1 : amount ≤ 0
  · simp [h1]
  · by_cases h2 : a.balance + overdraftLimit < amount
    · simp [h1, h2]
    · simp [h1, h2]

/-- What `CheckingAccount::withdraw` leaves, by the flag it returned. -/
theorem CheckingAccount.overdraft_withdraw_result (a : Account) (overdraftLimit amount : Money) :
    ((CheckingAccount.withdraw a overdraftLimit amount).1 = true →
      (CheckingAccount.withdraw a overdraftLimit amount).2
        = { a with balance := a.balance - amount }) ∧
    ((CheckingAccount.withdraw a overdraftLimit amount).1 = false →
      (CheckingAccount.withdraw a overdraftLimit amount).2 = a) := by
  unfold CheckingAccount.withdraw
  by_cases h1 : amount ≤ 0
  · simp [h1]
  · by_cases h2 : a.balance + overdraftLimit < amount
    · simp [h1, h2]
    · simp [h1, h2]

/-- For two values that are not NaN, "not `<= 0` and not above" reads `0 < x <= y`. -/
theorem Money.guards_iff (x y : Money) (hx : x ≠ Money.nan) (hy : y ≠ Money.nan) :
    (¬ x ≤ 0 ∧ ¬ y < x) ↔ (0 < x ∧ x ≤ y) := by
  have h0 : (0 : Money) ≠ Money.nan := by decide
  constructor
  · rintro ⟨h1, h2⟩
    exact ⟨Money.not_le_imp_lt 0 x h0 hx h1, Money.not_lt_imp_le y x hy hx h2⟩
  · rintro ⟨h1, h2⟩
    exact ⟨Money.lt_imp_not_le 0 x h1, Money.le_imp_not_lt x y h2⟩

/-- A finite value minus itself is zero. -/
theorem Money.sub_self_eq (x : Money) (h : x.isFinite = true) : x - x = 0 := by
  obtain ⟨hq, e⟩ := Money.eq_fin_of_isFinite x h
  generalize x.toRat = q at *
  subst e
  rw [Money.fin_sub_fin, sub_self, Money.ofRat_zero]

/-- Counterexample to C2 as stated: the Standard sample account (balance 100) accepts a
withdrawal of NaN, which is not `> 0`; and a Standard account with balance 2^53 + 2 that
gives up 1 is left with 2^53, not with 2^53 + 1. -/
theorem Account.withdraw_spec_counterexample :
    (sampleStandard.virtualWithdraw Money.nan).1 = true ∧
    ¬ ((0 : Money) < Money.nan ∧ Money.nan ≤ sampleStandard.balance) ∧
    (sampleLargePlusTwo.virtualWithdraw 1).1 = true ∧
    sampleLargePlusTwo.balance.toRat - (1 : Money).toRat = 9007199254740993 ∧
    (sampleLargePlusTwo.virtualWithdraw 1).2.balance.toRat = 9007199254740992 := by
  decide!

/-- C2, amended: `Account::withdraw` on a Standard or Savings account returns true exactly
when the amount does not compare `<= 0` and does not compare above the balance, which for
values that are not NaN reads `0 < amount ≤ balance`; on true the balance becomes the
`double` difference `balance - amount`, which is the exact difference whenever that is a
`double`; on false the object is untouched; withdrawing the whole of a finite positive
balance succeeds and leaves 0. -/
theorem Account.withdraw_spec (a : Account) (amount : Money)
    (hv : a.variant = Variant.Standard ∨ ∃ r, a.variant = Variant.Savings r) :
    ((a.virtualWithdraw amount).1 = true ↔ (¬ amount ≤ 0 ∧ ¬ a.balance < amount)) ∧
    (amount ≠ Money.nan → a.balance ≠ Money.nan →
      ((a.virtualWithdraw amount).1 = true ↔ (0 < amount ∧ amount ≤ a.balance))) ∧
    ((a.virtualWithdraw amount).1 = true →
      (a.virtualWithdraw amount).2.balance = a.balance - amount) ∧
    ((a.virtualWithdraw amount).1 = true → a.balance.isFinite = true →
      amount.isFinite = true →
      ∀ h : isBinary64 (a.balance.toRat - amount.toRat) = true,
        (a.virtualWithdraw amount).2.balance
          = Money.fin (a.balance.toRat - amount.toRat) h) ∧
    ((a.virtualWithdraw amount).1 = false → (a.virtualWithdraw amount).2 = a) ∧
    (a.balance.isFinite = true → 0 < a.balance →
      (a.virtualWithdraw a.balance).1 = true ∧
      (a.virtualWithdraw a.balance).2.balance = 0) := by
  have hw : ∀ x, a.virtualWithdraw x = Account.withdraw a x := by
    intro x
    rcases hv with h | ⟨r, h⟩ <;> simp [Account.virtualWithdraw, h]
  simp only [hw]
  have hb : (Account.withdraw a amount).1 = true →
      (Account.withdraw a amount).2.balance = a.balance - amount := by
    intro h
    rw [(Account.withdraw_result a amount).1 h]
  refine ⟨Account.withdraw_flag a amount, ?_, hb, ?_, (Account.withdraw_result a amount).2, ?_⟩
  · intro hx hy
    rw [Account.withdraw_flag, Money.guards_iff amount a.balance hx hy]
  · intro h hfb hfx hs
    rw [hb h]
    exact Money.sub_exact _ _ hfb hfx hs
  · intro hfb hpos
    have hacc : (Account.withdraw a a.balance).1 = true := by
      rw [Account.withdraw_flag]
      exact ⟨Money.lt_imp_not_le 0 a.balance hpos,
        Money.le_imp_not_lt a.balance a.balance
          (Money.le_rfl_of_ne_nan _ (Money.ne_nan_of_isFinite _ hfb))⟩
    refine ⟨hacc, ?_⟩
    rw [(Account.withdraw_result a a.balance).1 hacc]
    exact Money.sub_self_eq a.balance hfb

/-- Witness of C2, amended: the Standard sample account (balance 100), asked for 100. -/
theorem Account.withdraw_spec_witness :
    (sampleStandard.variant = Variant.Standard ∨
      ∃ r, sampleStandard.variant = Variant.Savings r) ∧
    sampleStandard.balance.isFinite = true ∧ 0 < sampleStandard.balance ∧
    (sampleStandard.virtualWithdraw sampleStandard.balance).1 = true ∧
    (sampleStandard.virtualWithdraw sampleStandard.balance).2.balance = 0 :=
  ⟨Or.inl rfl, by decide, by decide,
   (Account.withdraw_spec sampleStandard 100 (Or.inl rfl)).2.2.2.2.2 (by decide) (by decide)⟩

/-- Counterexample to C3 as stated: a Checking account with balance 0.03 and overdraft
limit 0.01 accepts a withdrawal of 0.04, although the amount is above balance plus limit:
the sum of the two `double`s is below the `double` 0.04 and rounds up to it. -/
theorem CheckingAccount.overdraft_withdraw_spec_counterexample :
    sampleCentsChecking.variant = Variant.Checking (1 / 100) ∧
    (sampleCentsChecking.virtualWithdraw (4 / 100)).1 = true ∧
    sampleCentsChecking.balance.toRat + ((1 : Money) / 100).toRat
      < ((4 : Money) / 100).toRat := by
  decide!

/-- C3, amended: `CheckingAccount::withdraw` returns true exactly when the amount does not
compare `<= 0` and does not compare above the `double` sum `balance + overdraftLimit`,
which for values that are not NaN reads `0 < amount ≤ balance + overdraftLimit` with the
rounded sum, and with the exact sum whenever the exact sum is a `double`; on true the
balance becomes the `double` difference `balance - amount`, on false the object is
untouched. Balance 0 with limit 100 gives up 80 and is left at -80; balance -80 with limit
100 refuses 50 and stays at -80. -/
theorem CheckingAccount.overdraft_withdraw_spec :
    (∀ (a : Account) (overdraftLimit amount : Money),
      a.variant = Variant.Checking overdraftLimit →
        ((a.virtualWithdraw amount).1 = true ↔
          (¬ amount ≤ 0 ∧ ¬ a.balance + overdraftLimit < amount)) ∧
        (amount ≠ Money.nan → a.balance + overdraftLimit ≠ Money.nan →
          ((a.virtualWithdraw amount).1 = true ↔
            (0 < amount ∧ amount ≤ a.balance + overdraftLimit))) ∧
        (a.balance.isFinite = true → overdraftLimit.isFinite = true →
          amount.isFinite = true →
          isBinary64 (a.balance.toRat + overdraftLimit.toRat) = true →
          ((a.virtualWithdraw amount).1 = true ↔
            (0 < amount.toRat ∧ amount.toRat ≤ a.balance.toRat + overdraftLimit.toRat))) ∧
        ((a.virtualWithdraw amount).1 = true →
          (a.virtualWithdraw amount).2.balance = a.balance - amount) ∧
        ((a.virtualWithdraw amount).1 = false → (a.virtualWithdraw amount).2 = a)) ∧
    ((sampleChecking.virtualWithdraw 80).1 = true ∧
      (sampleChecking.virtualWithdraw 80).2.balance = -80) ∧
    ((sampleOverdrawn.virtualWithdraw 50).1 = false ∧
      (sampleOverdrawn.virtualWithdraw 50).2.balance = -80) := by
  refine ⟨?_, by decide!, by decide!⟩
  intro a l amount hv
  have hw : a.virtualWithdraw amount = CheckingAccount.withdraw a l amount := by
    simp [Account.virtualWithdraw, hv]
  rw [hw]
  refine ⟨CheckingAccount.overdraft_withdraw_flag a l amount, ?_, ?_, ?_,
    (CheckingAccount.overdraft_withdraw_result a l amount).2⟩
  · intro hx hy
    rw [CheckingAccount.overdraft_withdraw_flag, Money.guards_iff amount _ hx hy]
  · intro hfb hfl hfx hs
    have hsum := Money.add_exact a.balance l hfb hfl hs
    rw [CheckingAccount.overdraft_withdraw_flag,
      Money.guards_iff amount _ (Money.ne_nan_of_isFinite _ hfx) (by rw [hsum]; simp),
      Money.pos_iff_toRat amount hfx, hsum,
      Money.le_iff_toRat amount (Money.fin _ hs) hfx rfl]
    rfl
  · intro h
    rw [(CheckingAccount.overdraft_withdraw_result a l amount).1 h]

/-- Witness of C3, amended: the Checking sample account (balance 0, limit 100) accepts
80. -/
theorem CheckingAccount.overdraft_withdraw_spec_witness :
    sampleChecking.variant = Variant.Checking 100 ∧
    sampleChecking.balance.isFinite = true ∧ (100 : Money).isFinite = true ∧
    (80 : Money).isFinite = true ∧
    isBinary64 (sampleChecking.balance.toRat + (100 : Money).toRat) = true ∧
    ((sampleChecking.virtualWithdraw 80).1 = true ↔
      (0 < (80 : Money).toRat ∧
        (80 : Money).toRat ≤ sampleChecking.balance.toRat + (100 : Money).toRat)) :=
  ⟨rfl, by decide, by decide, by decide, by decide!,
   (CheckingAccount.overdraft_withdraw_spec.1 sampleChecking 100 80 rfl).2.2.1
     (by decide) (by decide) (by decide) (by decide!)⟩

/-- What the virtual `withdraw` leaves, by the flag it returned. -/
theorem Account.virtualWithdraw_result (a : Account) (amount : Money) :
    ((a.virtualWithdraw amount).1 = true →
      (a.virtualWithdraw amount).2 = { a with balance := a.balance - amount }) ∧
    ((a.virtualWithdraw amount).1 = false → (a.virtualWithdraw amount).2 = a) := by
  have hc : a.virtualWithdraw amount = Account.withdraw a amount ∨
      ∃ l, a.virtualWithdraw amount = CheckingAccount.withdraw a l amount := by
    unfold Account.virtualWithdraw
    cases a.variant with
    | Standard => exact Or.inl rfl
    | Savings r => exact Or.inl rfl
    | Checking l => exact Or.inr ⟨l, rfl⟩
  rcases hc with hw | ⟨l, hw⟩
  · rw [hw]
    exact Account.withdraw_result a amount
  · rw [hw]
    exact CheckingAccount.overdraft_withdraw_result a l amount

/-- What `deposit` leaves, by the flag it returned. -/
theorem Account.deposit_result (a : Account) (amount : Money) :
    ((a.deposit amount).1 = true →
      (¬ amount ≤ 0) ∧ (a.deposit amount).2 = { a with balance := a.balance + amount }) ∧
    ((a.deposit amount).1 = false → (a.deposit amount).2 = a) := by
  unfold Account.deposit
  by_cases h1 : amount ≤ 0 <;> simp [h1]

/-- A rejected call leaves the object as it was. -/
theorem Account.perform_rejected (a : Account) (c : Call)
    (h : (a.perform c).1 = false) : (a.perform c).2 = a := by
  cases c with
  | deposit amount => exact (Account.deposit_result a amount).2 h
  | withdraw amount => exact (Account.virtualWithdraw_result a amount).2 h

/-- A call changes no member of the object but its balance. -/
theorem Account.perform_frame (a : Account) (c : Call) :
    (a.perform c).2 = { a with balance := (a.perform c).2.balance } := by
  cases hf : (a.perform c).1 with
  | false => rw [Account.perform_rejected a c hf]
  | true =>
    cases c with
    | deposit amount =>
      simp only [Account.perform] at hf ⊢
      rw [((Account.deposit_result a amount).1 hf).2]
    | withdraw amount =>
      simp only [Account.perform] at hf ⊢
      rw [(Account.virtualWithdraw_result a amount).1 hf]

/-- No call changes the dynamic class, hence the floor, of the object. -/
theorem Account.perform_variant (a : Account) (c : Call) :
    (a.perform c).2.variant = a.variant := by
  rw [Account.perform_frame a c]

/-- A call changes none of the members that `AccountRepository::update` writes besides
the balance. -/
theorem Account.perform_fields (a : Account) (c : Call) :
    (a.perform c).2.id = a.id ∧ (a.perform c).2.customerId = a.customerId ∧
    (a.perform c).2.accountNumber = a.accountNumber ∧
    (a.perform c).2.accountType = a.accountType ∧
    (a.perform c).2.dateOpened = a.dateOpened := by
  rw [Account.perform_frame a c]
  exact ⟨rfl, rfl, rfl, rfl, rfl⟩

/-- A run of calls keeps the dynamic class of the object. -/
theorem Account.runLog_variant (cs : List Call) :
    ∀ a : Account, (a.runLog cs).2.variant = a.variant := by
  induction cs with
  | nil => intro a; rfl
  | cons c cs ih =>
    intro a
    simp only [Account.runLog]
    rw [ih, Account.perform_variant]

/-- An accepted withdrawal of a finite amount from a Standard or Savings account whose
balance is not a NaN leaves a balance that is at least 0. -/
theorem Account.withdraw_nonneg (a : Account) (amount : Money)
    (hv : a.variant = Variant.Standard ∨ ∃ r, a.variant = Variant.Savings r)
    (h : (a.virtualWithdraw amount).1 = true) (hx : amount.isFinite = true)
    (hb : a.balance ≠ Money.nan) : 0 ≤ (a.virtualWithdraw amount).2.balance := by
  have hw : a.virtualWithdraw amount = Account.withdraw a amount := by
    rcases hv with h | ⟨r, h⟩ <;> simp [Account.virtualWithdraw, h]
  rw [hw] at h ⊢
  rw [(Account.withdraw_result a amount).1 h]
  exact Money.sub_nonneg_of a.balance amount hx hb ((Account.withdraw_flag a amount).mp h).2

/-- A deposit of a finite amount never lowers a balance that is not a NaN. -/
theorem Account.deposit_mono (a : Account) (amount : Money) (hx : amount.isFinite = true)
    (hb : a.balance ≠ Money.nan) : a.balance ≤ (a.deposit amount).2.balance := by
  cases hf : (a.deposit amount).1 with
  | false =>
    rw [(Account.deposit_result a amount).2 hf]
    exact Money.le_rfl_of_ne_nan _ hb
  | true =>
    obtain ⟨h1, h2⟩ := (Account.deposit_result a amount).1 hf
    rw [h2]
    exact Money.le_add_of_pos a.balance amount hx hb h1

/-- One call with a finite amount keeps the balance of a Standard or Savings account at
least 0. -/
theorem Account.perform_nonneg (a : Account) (c : Call)
    (hv : a.variant = Variant.Standard ∨ ∃ r, a.variant = Variant.Savings r)
    (hx : c.amount.isFinite = true) (h : 0 ≤ a.balance) : 0 ≤ (a.perform c).2.balance := by
  have hb := (Money.ne_nan_of_le 0 a.balance h).2
  cases c with
  | deposit amount =>
    exact Money.le_chain _ _ _ h (Account.deposit_mono a amount hx hb)
  | withdraw amount =>
    cases hf : (a.virtualWithdraw amount).1 with
    | true => exact Account.withdraw_nonneg a amount hv hf hx hb
    | false =>
      simp only [Account.perform]
      rw [(Account.virtualWithdraw_result a amount).2 hf]
      exact h

/-- Counterexample to C4 as stated: a Checking account with balance 2^53 and overdraft
limit 3 accepts a withdrawal of 2^53 + 4 (the sum 2^53 + 3 is not a `double` and rounds up
to 2^53 + 4) and is left at -4, below `-overdraftLimit = -3`. -/
theorem Account.balance_floor_counterexample :
    sampleLargeChecking.variant = Variant.Checking 3 ∧
    (sampleLargeChecking.virtualWithdraw 9007199254740996).1 = true ∧
    (sampleLargeChecking.virtualWithdraw 9007199254740996).2.balance = -4 ∧
    ¬ (-3 : Money) ≤ (sampleLargeChecking.virtualWithdraw 9007199254740996).2.balance := by
  decide!

/-- C4, amended: balance floor, for finite amounts. An accepted withdrawal leaves the
balance at least 0 on a Standard or Savings account whatever the balance was before (a
NaN apart); on a Checking account it leaves the balance at least `-overdraftLimit`
whenever the sum `balance + overdraftLimit` that the guard compares with is exact; a deposit
never lowers the balance; a Standard or Savings account whose balance is at least 0 still
has a balance at least 0 after every sequence of deposit and withdraw calls. -/
theorem Account.balance_floor :
    (∀ (a : Account) (amount : Money), (a.virtualWithdraw amount).1 = true →
      amount.isFinite = true → a.balance ≠ Money.nan →
      (a.variant = Variant.Standard ∨ ∃ r, a.variant = Variant.Savings r) →
        0 ≤ (a.virtualWithdraw amount).2.balance) ∧
    (∀ (a : Account) (l amount : Money), a.variant = Variant.Checking l →
      (a.virtualWithdraw amount).1 = true →
      a.balance.isFinite = true → l.isFinite = true → amount.isFinite = true →
      isBinary64 (a.balance.toRat + l.toRat) = true →
        -l ≤ (a.virtualWithdraw amount).2.balance) ∧
    (∀ (a : Account) (amount : Money), amount.isFinite = true → a.balance ≠ Money.nan →
      a.balance ≤ (a.deposit amount).2.balance) ∧
    (∀ (a : Account) (cs : List Call),
      (a.variant = Variant.Standard ∨ ∃ r, a.variant = Variant.Savings r) →
      (∀ c ∈ cs, c.amount.isFinite = true) → 0 ≤ a.balance →
      0 ≤ (a.runLog cs).2.balance) := by
  refine ⟨?_, ?_, Account.deposit_mono, ?_⟩
  · intro a amount h hx hb hv
    exact Account.withdraw_nonneg a amount hv h hx hb
  · intro a l amount hv h hfb hfl hfx hs
    have hw : a.virtualWithdraw amount = CheckingAccount.withdraw a l amount := by
      simp [Account.virtualWithdraw, hv]
    rw [hw] at h ⊢
    have hg := ((CheckingAccount.overdraft_withdraw_flag a l amount).mp h).2
    rw [(CheckingAccount.overdraft_withdraw_result a l amount).1 h]
    have hsum := Money.add_exact a.balance l hfb hfl hs
    obtain ⟨h1, e1⟩ := Money.eq_fin_of_isFinite a.balance hfb
    obtain ⟨h2, e2⟩ := Money.eq_fin_of_isFinite l hfl
    obtain ⟨h3, e3⟩ := Money.eq_fin_of_isFinite amount hfx
    rw [hsum, e3, Money.fin_lt_fin] at hg
    show -l ≤ a.balance - amount
    rw [e1, e2, e3, Money.neg_fin, Money.fin_sub_fin]
    have := Money.ofRat_mono (-l.toRat) (a.balance.toRat - amount.toRat) (by linarith)
    rwa [Money.ofRat_fin (-l.toRat) (by rw [isBinary64_neg]; exact h2)] at this
  · intro a cs
    induction cs generalizing a with
    | nil => intro _ _ h; exact h
    | cons c cs ih =>
      intro hv hx h
      simp only [Account.runLog]
      apply ih
      · rw [Account.perform_variant]
        exact hv
      · intro c2 hc2
        exact hx c2 (List.mem_cons_of_mem _ hc2)
      · exact Account.perform_nonneg a c hv (hx c (List.mem_cons_self _ _)) h

/-- Witness of C4, amended: the Checking sample account (balance 0, limit 100) gives up 80
and is left at -80, not below -100. -/
theorem Account.balance_floor_witness :
    sampleChecking.variant = Variant.Checking 100 ∧
    (sampleChecking.virtualWithdraw 80).1 = true ∧
    isBinary64 (sampleChecking.balance.toRat + (100 : Money).toRat) = true ∧
    (-100 : Money) ≤ (sampleChecking.virtualWithdraw 80).2.balance :=
  ⟨rfl, by decide!, by decide!,
   Account.balance_floor.2.1 sampleChecking 100 80 rfl (by decide!) (by decide) (by decide)
     (by decide) (by decide!)⟩

/-- The exact total of a log splits at its head. -/
theorem exactTotal_cons (e : Call × Bool) (l : List (Call × Bool)) :
    exactTotal (e :: l) = exactTotal [e] + exactTotal l := by
  rcases e with ⟨c, b⟩
  cases c <;> cases b <;> simp [exactTotal]

/-- The effect of one call on the balance, by the flag it returned, in `double`
arithmetic. -/
theorem Account.perform_balance (a : Account) (c : Call) :
    ((a.perform c).1 = true → (a.perform c).2.balance =
      match c with
      | Call.deposit amount => a.balance + amount
      | Call.withdraw amount => a.balance - amount) ∧
    ((a.perform c).1 = false → (a.perform c).2.balance = a.balance) := by
  constructor
  · intro hf
    cases c with
    | deposit amount =>
      simp only [Account.perform] at hf ⊢
      rw [((Account.deposit_result a amount).1 hf).2]
    | withdraw amount =>
      simp only [Account.perform] at hf ⊢
      rw [(Account.virtualWithdraw_result a amount).1 hf]
  · intro hf
    rw [Account.perform_rejected a c hf]

/-- One call with a finite amount on a finite balance, when the exact result is a
`double`: the new balance is that exact result. -/
theorem Account.perform_exact (a : Account) (c : Call) (hb : a.balance.isFinite = true)
    (hx : c.amount.isFinite = true)
    (hs : isBinary64 (a.balance.toRat + exactTotal [(c, (a.perform c).1)]) = true) :
    (a.perform c).2.balance.isFinite = true ∧
    (a.perform c).2.balance.toRat
      = a.balance.toRat + exactTotal [(c, (a.perform c).1)] := by
  cases hf : (a.perform c).1 with
  | false =>
    rw [(Account.perform_balance a c).2 hf]
    cases c <;> simp [exactTotal, hb]
  | true =>
    rw [hf] at hs
    rw [(Account.perform_balance a c).1 hf]
    cases c with
    | deposit amount =>
      simp only [exactTotal, add_zero] at hs ⊢
      rw [Money.add_exact a.balance amount hb hx hs]
      exact ⟨rfl, rfl⟩
    | withdraw amount =>
      simp only [exactTotal, add_zero] at hs ⊢
      rw [← sub_eq_add_neg] at hs ⊢
      rw [Money.sub_exact a.balance amount hb hx hs]
      exact ⟨rfl, rfl⟩

/-- A run of calls with finite amounts on a finite balance, when every intermediate exact
result is a `double`: the final balance is the exact total. -/
theorem Account.runLog_exact (cs : List Call) :
    ∀ a : Account, a.balance.isFinite = true → (∀ c ∈ cs, c.amount.isFinite = true) →
      (∀ n : Nat,
        isBinary64 (a.balance.toRat + exactTotal ((a.runLog cs).1.take n)) = true) →
      (a.runLog cs).2.balance.isFinite = true ∧
      (a.runLog cs).2.balance.toRat = a.balance.toRat + exactTotal (a.runLog cs).1 := by
  induction cs with
  | nil =>
    intro a hb _ _
    simp [Account.runLog, exactTotal, hb]
  | cons c cs ih =>
    intro a hb hx hs
    simp only [Account.runLog] at hs ⊢
    have h1 := hs 1
    simp only [List.take_succ_cons, List.take_zero] at h1
    obtain ⟨p1, p2⟩ := Account.perform_exact a c hb (hx c (List.mem_cons_self _ _)) h1
    have hrest : ∀ n : Nat, isBinary64 ((a.perform c).2.balance.toRat
        + exactTotal (((a.perform c).2.runLog cs).1.take n)) = true := by
      intro n
      have h2 := hs (n + 1)
      simp only [List.take_succ_cons] at h2
      rw [exactTotal_cons, ← add_assoc, ← p2] at h2
      exact h2
    obtain ⟨q1, q2⟩ := ih (a.perform c).2 p1
      (fun c2 hc2 => hx c2 (List.mem_cons_of_mem _ hc2)) hrest
    refine ⟨q1, ?_⟩
    rw [q2, p2, add_assoc, ← exactTotal_cons]

/-- Counterexample to C5 as stated: on a Standard account with balance 2^53, two
`deposit(1)` calls both return true and the balance is still 2^53, while the initial
balance plus the sum of the accepted deposits is 2^53 + 2 (itself a `double`). -/
theorem Account.runLog_balance_counterexample :
    (sampleLarge.runLog [Call.deposit 1, Call.deposit 1]).1
      = [(Call.deposit 1, true), (Call.deposit 1, true)] ∧
    (sampleLarge.runLog [Call.deposit 1, Call.deposit 1]).2.balance.toRat
      = 9007199254740992 ∧
    sampleLarge.balance.toRat
      + exactTotal (sampleLarge.runLog [Call.deposit 1, Call.deposit 1]).1
      = 9007199254740994 ∧
    (sampleLarge.runLog [Call.deposit 1, Call.deposit 1]).2.balance
      ≠ sampleLarge.balance
          + depositedTotal (sampleLarge.runLog [Call.deposit 1, Call.deposit 1]).1
          - withdrawnTotal (sampleLarge.runLog [Call.deposit 1, Call.deposit 1]).1 := by
  decide!

/-- C5, amended: in a sequence of deposit and withdraw calls on an account of any class,
each call that returns true replaces the balance by the `double` sum (deposit) or
difference (withdraw) of the balance and the amount, and a call that returns false leaves
the object as it was. For a finite initial balance and finite amounts, when the exact
running total after every call is a `double`, the final balance is the initial balance
plus the amounts of the deposits that returned true minus the amounts of the withdrawals
that returned true. -/
theorem Account.runLog_balance :
    (∀ (a : Account) (cs : List Call), a.balance.isFinite = true →
      (∀ c ∈ cs, c.amount.isFinite = true) →
      (∀ n : Nat,
        isBinary64 (a.balance.toRat + exactTotal ((a.runLog cs).1.take n)) = true) →
      (a.runLog cs).2.balance.isFinite = true ∧
      (a.runLog cs).2.balance.toRat = a.balance.toRat + exactTotal (a.runLog cs).1) ∧
    (∀ (a : Account) (cs : List Call), (a.runLog cs).1.map Prod.fst = cs) ∧
    (∀ (a : Account) (c : Call), (a.perform c).1 = false → (a.perform c).2 = a) ∧
    (∀ (a : Account) (amount : Money), (a.perform (Call.deposit amount)).1 = true →
      (a.perform (Call.deposit amount)).2.balance = a.balance + amount) ∧
    (∀ (a : Account) (amount : Money), (a.perform (Call.withdraw amount)).1 = true →
      (a.perform (Call.withdraw amount)).2.balance = a.balance - amount) := by
  refine ⟨fun a cs => Account.runLog_exact cs a, ?_, Account.perform_rejected, ?_, ?_⟩
  · intro a cs
    induction cs generalizing a with
    | nil => rfl
    | cons c cs ih => simp [Account.runLog, ih]
  · intro a amount h
    exact (Account.perform_balance a (Call.deposit amount)).1 h
  · intro a amount h
    exact (Account.perform_balance a (Call.withdraw amount)).1 h

/-- On the Standard sample account, the running totals of deposit 50, withdraw 500 and
withdraw 30 are all `double`s. -/
theorem sampleRun_exact (n : Nat) :
    isBinary64 (sampleStandard.balance.toRat + exactTotal ((sampleStandard.runLog
      [Call.deposit 50, Call.withdraw 500, Call.withdraw 30]).1.take n)) = true := by
  have hl : (sampleStandard.runLog [Call.deposit 50, Call.withdraw 500, Call.withdraw 30]).1
      = [(Call.deposit 50, true), (Call.withdraw 500, false), (Call.withdraw 30, true)] := by
    decide!
  rw [hl]
  rcases n with _ | _ | _ | _ | n
  · decide!
  · decide!
  · decide!
  · decide!
  · simp only [List.take_succ_cons, List.take_nil]
    decide!

/-- Witness of C5, amended: on the Standard sample account (balance 100), deposit 50, a
refused withdrawal of 500 and a withdrawal of 30 leave exactly 120. -/
theorem Account.runLog_balance_witness :
    sampleStandard.balance.isFinite = true ∧
    (sampleStandard.runLog
      [Call.deposit 50, Call.withdraw 500, Call.withdraw 30]).2.balance.isFinite = true ∧
    (sampleStandard.runLog
      [Call.deposit 50, Call.withdraw 500, Call.withdraw 30]).2.balance.toRat
      = sampleStandard.balance.toRat + exactTotal (sampleStandard.runLog
          [Call.deposit 50, Call.withdraw 500, Call.withdraw 30]).1 ∧
    (sampleStandard.runLog
      [Call.deposit 50, Call.withdraw 500, Call.withdraw 30]).2.balance = 120 :=
  ⟨by decide,
   (Account.runLog_balance.1 sampleStandard
     [Call.deposit 50, Call.withdraw 500, Call.withdraw 30] (by decide) (by decide)
     sampleRun_exact).1,
   (Account.runLog_balance.1 sampleStandard
     [Call.deposit 50, Call.withdraw 500, Call.withdraw 30] (by decide) (by decide)
     sampleRun_exact).2,
   by decide!⟩


/-! ## The repositories -/

/-- Loading an account never writes to the database. -/
theorem AccountRepository.getById_db (ok : StoreBehaviour) (c : Conn) (id : Int) :
    (AccountRepository.getById ok c id).2.db = c.db := by
  unfold AccountRepository.getById
  by_cases h0 : ok c.calls = true
  · simp only [h0, if_true]
    cases c.db.selectAccount id with
    | none => rfl
    | some row =>
      by_cases h1 : row.account_type = "Savings"
      · simp only [h1, if_true]
        rfl
      · by_cases h2 : row.account_type = "Checking"
        · simp only [h1, h2, if_true, if_false]
          rfl
        · simp only [h1, h2, if_false]
          rfl
  · simp only [h0]
    rfl

/-- The first row with a given id has that id. -/
theorem Database.selectAccount_id (db : Database) (id : Int) (row : AccountRow)
    (h : db.selectAccount id = some row) : row.account_id = id := by
  have := List.find?_some h
  simpa using this

/-- A loaded account carries the columns of the first row with its id. -/
theorem AccountRepository.getById_some (ok : StoreBehaviour) (c : Conn) (id : Int)
    (a : Account) (h : (AccountRepository.getById ok c id).1 = some a) :
    ∃ row, c.db.selectAccount id = some row ∧ a.id = id ∧
      a.customerId = row.customer_id ∧ a.balance = row.balance ∧
      a.accountNumber = row.account_number ∧ a.accountType = row.account_type ∧
      a.dateOpened = row.date_opened := by
  unfold AccountRepository.getById at h
  by_cases h0 : ok c.calls = true
  · simp only [h0, if_true] at h
    cases hrow : c.db.selectAccount id with
    | none => simp [hrow] at h
    | some row =>
      have hid := Database.selectAccount_id c.db id row hrow
      refine ⟨row, rfl, ?_⟩
      simp only [hrow] at h
      by_cases h1 : row.account_type = "Savings"
      · rw [if_pos h1] at h
        simp only [Option.some.injEq] at h
        subst h
        simp [SavingsAccount.ctor, hid, h1]
      · by_cases h2 : row.account_type = "Checking"
        · rw [if_neg h1, if_pos h2] at h
          simp only [Option.some.injEq] at h
          subst h
          simp [CheckingAccount.ctor, hid, h2]
        · rw [if_neg h1, if_neg h2] at h
          simp only [Option.some.injEq] at h
          subst h
          simp [Account.ctor, hid]
  · simp [h0] at h

/-- With a store that answers, an existing account is loaded. -/
theorem AccountRepository.getById_isSome (ok : StoreBehaviour) (c : Conn) (id : Int)
    (row : AccountRow) (hok : ∀ k, ok k = true) (h : c.db.selectAccount id = some row) :
    ∃ a, (AccountRepository.getById ok c id).1 = some a := by
  unfold AccountRepository.getById
  simp only [hok, if_true, h]
  split_ifs <;> exact ⟨_, rfl⟩

/-- Reading back after `UPDATE accounts`: the row with the updated id carries the new
columns, every other row is as before. -/
theorem Database.selectAccount_updateAccount (db : Database) (account : Account) (id : Int) :
    (db.updateAccount account).selectAccount id =
      (db.selectAccount id).map (fun r =>
        if r.account_id = account.id then r.assign account else r) := by
  have hp : ((fun r : AccountRow => decide (r.account_id = id)) ∘
      (fun r : AccountRow => if r.account_id = account.id then r.assign account else r))
      = (fun r : AccountRow => decide (r.account_id = id)) := by
    funext r
    simp only [Function.comp]
    split_ifs <;> rfl
  simp only [Database.selectAccount, Database.updateAccount, List.find?_map, hp]

/-! ## AccountService: deposit and withdraw -/

/-- The database after an accepted deposit on a store that answers: one row appended to
`transactions`, then the account row overwritten. -/
theorem AccountService.deposit_run (ok : StoreBehaviour) (now : String) (c : Conn)
    (accountId : Int) (amount : Money) (a : Account) (hok : ∀ k, ok k = true)
    (ha : (AccountRepository.getById ok c accountId).1 = some a)
    (hacc : (a.deposit amount).1 = true) :
    (AccountService.deposit ok now c accountId amount).1 = true ∧
    (AccountService.deposit ok now c accountId amount).2.db =
      (c.db.insertTransaction
        { id := 0, accountId := accountId, type := "Deposit", amount := amount,
          dateTime := now, description := "Deposit to account" }).updateAccount
        (a.deposit amount).2 := by
  simp only [AccountService.deposit, ha, hacc, if_true, TransactionRepository.add,
    AccountRepository.update, hok, AccountRepository.getById_db, and_self]

/-- An accepted withdrawal has an amount that does not compare `<= 0`. -/
theorem Account.virtualWithdraw_not_le (a : Account) (amount : Money)
    (h : (a.virtualWithdraw amount).1 = true) : ¬ amount ≤ 0 := by
  intro hle
  have hc : a.virtualWithdraw amount = Account.withdraw a amount ∨
      ∃ l, a.virtualWithdraw amount = CheckingAccount.withdraw a l amount := by
    unfold Account.virtualWithdraw
    cases a.variant with
    | Standard => exact Or.inl rfl
    | Savings r => exact Or.inl rfl
    | Checking l => exact Or.inr ⟨l, rfl⟩
  rcases hc with hw | ⟨l, hw⟩
  · rw [hw] at h
    exact ((Account.withdraw_flag a amount).mp h).1 hle
  · rw [hw] at h
    exact ((CheckingAccount.overdraft_withdraw_flag a l amount).mp h).1 hle

/-- A transfer returns true only when both accounts were loaded and the source accepted the
withdrawal; otherwise it returns false and has written nothing. This holds for every
behaviour of the store. -/
theorem AccountService.transfer_cases (ok : StoreBehaviour) (now : String) (c : Conn)
    (fromAccountId toAccountId : Int) (amount : Money) :
    ((AccountService.transfer ok now c fromAccountId toAccountId amount).1 = true ∧
      ∃ a b, (AccountRepository.getById ok c fromAccountId).1 = some a ∧
        (AccountRepository.getById ok (AccountRepository.getById ok c fromAccountId).2
          toAccountId).1 = some b ∧
        (a.virtualWithdraw amount).1 = true) ∨
    ((AccountService.transfer ok now c fromAccountId toAccountId amount).1 = false ∧
      (AccountService.transfer ok now c fromAccountId toAccountId amount).2.db = c.db ∧
      ∀ a, (AccountRepository.getById ok c fromAccountId).1 = some a →
        (AccountRepository.getById ok (AccountRepository.getById ok c fromAccountId).2
          toAccountId).1 ≠ none → (a.virtualWithdraw amount).1 = false) := by
  cases ha : (AccountRepository.getById ok c fromAccountId).1 with
  | none =>
    right
    simp only [AccountService.transfer, ha, AccountRepository.getById_db]
    simp
  | some a =>
    cases hb : (AccountRepository.getById ok (AccountRepository.getById ok c
        fromAccountId).2 toAccountId).1 with
    | none =>
      right
      simp only [AccountService.transfer, ha, hb, AccountRepository.getById_db]
      simp
    | some b =>
      cases hacc : (a.virtualWithdraw amount).1 with
      | true =>
        left
        refine ⟨?_, a, b, rfl, rfl, hacc⟩
        simp only [AccountService.transfer, ha, hb, hacc, if_true]
      | false =>
        right
        simp only [AccountService.transfer, ha, hb, hacc]
        simp [AccountRepository.getById_db, hacc]

/-- C10: when the source account rejects the withdrawal, `AccountService::transfer` returns
false and writes nothing: the stored rows of both accounts (hence their balances) and the
table `transactions` are as before. This holds for every behaviour of the store. -/
theorem AccountService.transfer_rejected (ok : StoreBehaviour) (now : String) (c : Conn)
    (fromAccountId toAccountId : Int) (amount : Money) (a : Account)
    (ha : (AccountRepository.getById ok c fromAccountId).1 = some a)
    (hrej : (a.virtualWithdraw amount).1 = false) :
    (AccountService.transfer ok now c fromAccountId toAccountId amount).1 = false ∧
    (AccountService.transfer ok now c fromAccountId toAccountId amount).2.db = c.db ∧
    (AccountService.transfer ok now c fromAccountId toAccountId amount).2.db.selectAccount
      fromAccountId = c.db.selectAccount fromAccountId ∧
    (AccountService.transfer ok now c fromAccountId toAccountId amount).2.db.selectAccount
      toAccountId = c.db.selectAccount toAccountId ∧
    (AccountService.transfer ok now c fromAccountId toAccountId amount).2.db.transactions
      = c.db.transactions := by
  rcases AccountService.transfer_cases ok now c fromAccountId toAccountId amount with
    ⟨-, a2, b, ha2, -, hacc⟩ | ⟨hf, hdb, -⟩
  · rw [ha] at ha2
    cases Option.some.inj ha2
    rw [hrej] at hacc
    exact absurd hacc (by decide)
  · exact ⟨hf, hdb, by rw [hdb], by rw [hdb], by rw [hdb]⟩

/-- Witness of C10: account 1 of the sample database (Standard, balance 100) is asked to
send 150 to account 2. -/
theorem AccountService.transfer_rejected_witness :
    (AccountRepository.getById allOk sampleConn 1).1 = some sampleStandard ∧
    (sampleStandard.virtualWithdraw 150).1 = false ∧
    (AccountService.transfer allOk "2024-05-01 10:00:00" sampleConn 1 2 150).1 = false ∧
    (AccountService.transfer allOk "2024-05-01 10:00:00" sampleConn 1 2 150).2.db
      = sampleDb :=
  have hrej : (sampleStandard.virtualWithdraw 150).1 = false := by decide
  have h := AccountService.transfer_rejected allOk "2024-05-01 10:00:00" sampleConn 1 2 150
    sampleStandard rfl hrej
  ⟨rfl, hrej, h.1, h.2.1⟩


/-! ## AccountService under a store that may fail -/

/-- The four outcomes of appending a row and then overwriting an account row, by the
answers of the store to the two calls. -/
theorem AccountRepository.record_then_update (ok : StoreBehaviour) (c : Conn)
    (t : Transaction) (account : Account) :
    (AccountRepository.update ok (TransactionRepository.add ok c t).2 account).1
      = ok (c.calls + 1) ∧
    (AccountRepository.update ok (TransactionRepository.add ok c t).2 account).2.db =
      (if ok (c.calls + 1) then
        (if ok c.calls then c.db.insertTransaction t else c.db).updateAccount account
      else
        (if ok c.calls then c.db.insertTransaction t else c.db)) := by
  cases h0 : ok c.calls <;> cases h1 : ok (c.calls + 1) <;>
    simp [AccountRepository.update, TransactionRepository.add, Conn.tick, h0, h1]

/-- A deposit that finds no account, or whose amount the account refuses, returns false
and has written nothing. -/
theorem AccountService.deposit_not_accepted (ok : StoreBehaviour) (now : String) (c : Conn)
    (accountId : Int) (amount : Money)
    (h : ∀ a, (AccountRepository.getById ok c accountId).1 = some a →
      (a.deposit amount).1 = false) :
    (AccountService.deposit ok now c accountId amount).1 = false ∧
    (AccountService.deposit ok now c accountId amount).2.db = c.db := by
  cases ha : (AccountRepository.getById ok c accountId).1 with
  | none => simp [AccountService.deposit, ha, AccountRepository.getById_db]
  | some a => simp [AccountService.deposit, ha, h a ha, AccountRepository.getById_db]

/-- A withdrawal that finds no account, or whose amount the account refuses, returns false
and has written nothing. -/
theorem AccountService.withdraw_not_accepted (ok : StoreBehaviour) (now : String) (c : Conn)
    (accountId : Int) (amount : Money)
    (h : ∀ a, (AccountRepository.getById ok c accountId).1 = some a →
      (a.virtualWithdraw amount).1 = false) :
    (AccountService.withdraw ok now c accountId amount).1 = false ∧
    (AccountService.withdraw ok now c accountId amount).2.db = c.db := by
  cases ha : (AccountRepository.getById ok c accountId).1 with
  | none => simp [AccountService.withdraw, ha, AccountRepository.getById_db]
  | some a => simp [AccountService.withdraw, ha, h a ha, AccountRepository.getById_db]

/-- An accepted deposit goes on to append the row and overwrite the account. -/
theorem AccountService.deposit_accepted_eq (ok : StoreBehaviour) (now : String) (c : Conn)
    (accountId : Int) (amount : Money) (a : Account)
    (ha : (AccountRepository.getById ok c accountId).1 = some a)
    (hacc : (a.deposit amount).1 = true) :
    AccountService.deposit ok now c accountId amount =
      AccountRepository.update ok
        (TransactionRepository.add ok (AccountRepository.getById ok c accountId).2
          { id := 0, accountId := accountId, type := "Deposit", amount := amount,
            dateTime := now, description := "Deposit to account" }).2
        (a.deposit amount).2 := by
  simp [AccountService.deposit, ha, hacc]

/-- An accepted withdrawal goes on to append the row and overwrite the account. -/
theorem AccountService.withdraw_accepted_eq (ok : StoreBehaviour) (now : String) (c : Conn)
    (accountId : Int) (amount : Money) (a : Account)
    (ha : (AccountRepository.getById ok c accountId).1 = some a)
    (hacc : (a.virtualWithdraw amount).1 = true) :
    AccountService.withdraw ok now c accountId amount =
      AccountRepository.update ok
        (TransactionRepository.add ok (AccountRepository.getById ok c accountId).2
          { id := 0, accountId := accountId, type := "Withdrawal", amount := amount,
            dateTime := now, description := "Withdrawal from account" }).2
        (a.virtualWithdraw amount).2 := by
  simp [AccountService.withdraw, ha, hacc]

/-- Overwriting an account row leaves the other tables alone. -/
theorem Database.updateAccount_transactions (db : Database) (account : Account) :
    (db.updateAccount account).transactions = db.transactions := rfl

/-- When the append and the update that follow an accepted operation end with a failed
update that does not come after a successful append, table `transactions` is as before. -/
theorem AccountRepository.failed_tail_transactions (ok : StoreBehaviour) (c : Conn)
    (t : Transaction) (account : Account)
    (hseq : ok c.calls = true → ok (c.calls + 1) = true)
    (h : (AccountRepository.update ok (TransactionRepository.add ok c t).2 account).1
      = false) :
    (AccountRepository.update ok (TransactionRepository.add ok c t).2
      account).2.db.transactions = c.db.transactions := by
  obtain ⟨h1, h2⟩ := AccountRepository.record_then_update ok c t account
  rw [h1] at h
  rw [h2]
  cases h0 : ok c.calls with
  | true =>
    rw [hseq h0] at h
    exact absurd h (by decide)
  | false => simp [h]

/-- Counterexample to C11 as stated: on the sample database, with a store in which only the
account update (call number 2) fails, the deposit of 50 into account 1 returns false and
yet its "Deposit" row has been appended. -/
theorem AccountService.failure_appends_nothing_counterexample :
    (AccountService.deposit (failAt 2) "2024-05-01 10:00:00" sampleConn 1 50).1 = false ∧
    (AccountService.deposit (failAt 2) "2024-05-01 10:00:00" sampleConn 1
      50).2.db.transactions =
      sampleConn.db.transactions ++
        [{ id := 1, accountId := 1, type := "Deposit", amount := 50,
           dateTime := "2024-05-01 10:00:00", description := "Deposit to account" }] := by
  decide!

/-- C11, amended: for every behaviour of the store in which the account update does not
fail right after a successful append of the transaction row, whenever
`AccountService::deposit` or `AccountService::withdraw` returns false, table `transactions`
is as before the call. The two calls in question are the first two after the load. -/
theorem AccountService.failure_appends_nothing (ok : StoreBehaviour) (now : String)
    (c : Conn) (accountId : Int) (amount : Money)
    (hseq : ok (AccountRepository.getById ok c accountId).2.calls = true →
      ok ((AccountRepository.getById ok c accountId).2.calls + 1) = true) :
    ((AccountService.deposit ok now c accountId amount).1 = false →
      (AccountService.deposit ok now c accountId amount).2.db.transactions
        = c.db.transactions) ∧
    ((AccountService.withdraw ok now c accountId amount).1 = false →
      (AccountService.withdraw ok now c accountId amount).2.db.transactions
        = c.db.transactions) := by
  constructor
  · intro h
    by_cases hr : ∀ a, (AccountRepository.getById ok c accountId).1 = some a →
        (a.deposit amount).1 = false
    · rw [(AccountService.deposit_not_accepted ok now c accountId amount hr).2]
    · push_neg at hr
      obtain ⟨a, ha, hacc⟩ := hr
      have hacc2 : (a.deposit amount).1 = true := by simpa using hacc
      rw [AccountService.deposit_accepted_eq ok now c accountId amount a ha hacc2] at h ⊢
      rw [AccountRepository.failed_tail_transactions ok _ _ _ hseq h,
        AccountRepository.getById_db]
  · intro h
    by_cases hr : ∀ a, (AccountRepository.getById ok c accountId).1 = some a →
        (a.virtualWithdraw amount).1 = false
    · rw [(AccountService.withdraw_not_accepted ok now c accountId amount hr).2]
    · push_neg at hr
      obtain ⟨a, ha, hacc⟩ := hr
      have hacc2 : (a.virtualWithdraw amount).1 = true := by simpa using hacc
      rw [AccountService.withdraw_accepted_eq ok now c accountId amount a ha hacc2] at h ⊢
      rw [AccountRepository.failed_tail_transactions ok _ _ _ hseq h,
        AccountRepository.getById_db]

/-- Witness of C11, amended: with a store in which only the append (call number 1) fails and
an overdrawing request, the withdrawal of 500 from account 1 of the sample database returns
false and table `transactions` is as before. -/
theorem AccountService.failure_appends_nothing_witness :
    ((failAt 1) (AccountRepository.getById (failAt 1) sampleConn 1).2.calls = true →
      (failAt 1) ((AccountRepository.getById (failAt 1) sampleConn 1).2.calls + 1) = true) ∧
    (AccountService.withdraw (failAt 1) "2024-05-01 10:00:00" sampleConn 1 500).1 = false ∧
    (AccountService.withdraw (failAt 1) "2024-05-01 10:00:00" sampleConn 1
      500).2.db.transactions = sampleConn.db.transactions :=
  have hrej : ∀ a, (AccountRepository.getById (failAt 1) sampleConn 1).1 = some a →
      (a.virtualWithdraw 500).1 = false := by
    intro a ha
    have e : a = sampleStandard := (Option.some.inj ha).symm
    subst e
    decide
  have hfalse := (AccountService.withdraw_not_accepted (failAt 1) "2024-05-01 10:00:00"
    sampleConn 1 500 hrej).1
  ⟨fun _ => rfl, hfalse,
   (AccountService.failure_appends_nothing (failAt 1) "2024-05-01 10:00:00" sampleConn 1 500
     (fun _ => rfl)).2 hfalse⟩

/-- C12, the code at the failing input: on the sample database, with a store in which only
the append of the transaction row (call number 1) fails, the deposit of 50 into account 1
returns true and the stored balance becomes 150, but no row has been appended to
`transactions`. -/
theorem AccountService.deposit_unrecorded :
    (AccountService.deposit (failAt 1) "2024-05-01 10:00:00" sampleConn 1 50).1 = true ∧
    ((AccountService.deposit (failAt 1) "2024-05-01 10:00:00" sampleConn 1
      50).2.db.selectAccount 1).map AccountRow.balance = some 150 ∧
    (AccountService.deposit (failAt 1) "2024-05-01 10:00:00" sampleConn 1
      50).2.db.transactions = sampleConn.db.transactions := by
  decide!

/-- C13, the code at the failing input: on the sample database, with a store that answers
the four loading queries and fails every later call, the transfer of 200 from account 2 to
account 3 returns true although nothing has been written: both balances and table
`transactions` are as before. -/
theorem AccountService.transfer_unpersisted :
    (AccountService.transfer (failFrom 4) "2024-05-01 10:00:00" sampleConn 2 3 200).1 = true ∧
    (AccountService.transfer (failFrom 4) "2024-05-01 10:00:00" sampleConn 2 3 200).2.db
      = sampleDb := by
  decide!

/-- What `getById` returns depends only on the three account tables and on the answers of
the store. -/
theorem AccountRepository.getById_congr (ok : StoreBehaviour) (db1 db2 : Database) (n : Nat)
    (id : Int) (h1 : db1.accounts = db2.accounts)
    (h2 : db1.savings_accounts = db2.savings_accounts)
    (h3 : db1.checking_accounts = db2.checking_accounts) :
    (AccountRepository.getById ok { db := db1, calls := n } id).1 =
      (AccountRepository.getById ok { db := db2, calls := n } id).1 := by
  simp only [AccountRepository.getById, Database.selectAccount, Database.selectSavings,
    Database.selectChecking, h1, h2, h3]
  split_ifs
  all_goals first
    | rfl
    | (cases List.find? (fun r : AccountRow => decide (r.account_id = id)) db2.accounts with
       | none => rfl
       | some row =>
         simp only
         split_ifs <;> rfl)

/-- After an accepted operation whose account update fails, the three account tables are as
they were before the append. -/
theorem AccountRepository.failed_tail_accounts (ok : StoreBehaviour) (c : Conn)
    (t : Transaction) (account : Account)
    (h : (AccountRepository.update ok (TransactionRepository.add ok c t).2 account).1
      = false) :
    (AccountRepository.update ok (TransactionRepository.add ok c t).2
        account).2.db.accounts = c.db.accounts ∧
    (AccountRepository.update ok (TransactionRepository.add ok c t).2
        account).2.db.savings_accounts = c.db.savings_accounts ∧
    (AccountRepository.update ok (TransactionRepository.add ok c t).2
        account).2.db.checking_accounts = c.db.checking_accounts := by
  obtain ⟨h1, h2⟩ := AccountRepository.record_then_update ok c t account
  rw [h1] at h
  rw [h2, h]
  cases ok c.calls <;> simp [Database.insertTransaction]

/-- A deposit that returns false leaves the three account tables as they were. -/
theorem AccountService.deposit_false_accounts (ok : StoreBehaviour) (now : String)
    (c : Conn) (accountId : Int) (amount : Money)
    (h : (AccountService.deposit ok now c accountId amount).1 = false) :
    (AccountService.deposit ok now c accountId amount).2.db.accounts = c.db.accounts ∧
    (AccountService.deposit ok now c accountId amount).2.db.savings_accounts
      = c.db.savings_accounts ∧
    (AccountService.deposit ok now c accountId amount).2.db.checking_accounts
      = c.db.checking_accounts := by
  by_cases hr : ∀ a, (AccountRepository.getById ok c accountId).1 = some a →
      (a.deposit amount).1 = false
  · rw [(AccountService.deposit_not_accepted ok now c accountId amount hr).2]
    exact ⟨rfl, rfl, rfl⟩
  · push_neg at hr
    obtain ⟨a, ha, hacc⟩ := hr
    have hacc2 : (a.deposit amount).1 = true := by simpa using hacc
    rw [AccountService.deposit_accepted_eq ok now c accountId amount a ha hacc2] at h ⊢
    have := AccountRepository.failed_tail_accounts ok _ _ _ h
    rw [AccountRepository.getById_db] at this
    exact this

/-- A withdrawal that returns false leaves the three account tables as they were. -/
theorem AccountService.withdraw_false_accounts (ok : StoreBehaviour) (now : String)
    (c : Conn) (accountId : Int) (amount : Money)
    (h : (AccountService.withdraw ok now c accountId amount).1 = false) :
    (AccountService.withdraw ok now c accountId amount).2.db.accounts = c.db.accounts ∧
    (AccountService.withdraw ok now c accountId amount).2.db.savings_accounts
      = c.db.savings_accounts ∧
    (AccountService.withdraw ok now c accountId amount).2.db.checking_accounts
      = c.db.checking_accounts := by
  by_cases hr : ∀ a, (AccountRepository.getById ok c accountId).1 = some a →
      (a.virtualWithdraw amount).1 = false
  · rw [(AccountService.withdraw_not_accepted ok now c accountId amount hr).2]
    exact ⟨rfl, rfl, rfl⟩
  · push_neg at hr
    obtain ⟨a, ha, hacc⟩ := hr
    have hacc2 : (a.virtualWithdraw amount).1 = true := by simpa using hacc
    rw [AccountService.withdraw_accepted_eq ok now c accountId amount a ha hacc2] at h ⊢
    have := AccountRepository.failed_tail_accounts ok _ _ _ h
    rw [AccountRepository.getById_db] at this
    exact this

/-- A transfer that returns false has written nothing. -/
theorem AccountService.transfer_false_db (ok : StoreBehaviour) (now : String) (c : Conn)
    (fromAccountId toAccountId : Int) (amount : Money)
    (h : (AccountService.transfer ok now c fromAccountId toAccountId amount).1 = false) :
    (AccountService.transfer ok now c fromAccountId toAccountId amount).2.db = c.db := by
  rcases AccountService.transfer_cases ok now c fromAccountId toAccountId amount with
    ⟨ht, -⟩ | ⟨-, hdb, -⟩
  · rw [h] at ht
    exact absurd ht (by decide)
  · exact hdb

/-- C14: for every store state and every behaviour of the store (a failed call changing
nothing), whenever `AccountService::deposit`, `withdraw` or `transfer` returns false,
`getAccount` returns for every account id, and under every behaviour of the store during the
read, exactly what it returns on the database as it was before the call. -/
theorem AccountService.failed_operation_getAccount (ok : StoreBehaviour) (now : String)
    (c : Conn) :
    (∀ (accountId : Int) (amount : Money),
      (AccountService.deposit ok now c accountId amount).1 = false →
      ∀ (ok2 : StoreBehaviour) (n : Nat) (id : Int),
        (AccountService.getAccount ok2
          { db := (AccountService.deposit ok now c accountId amount).2.db, calls := n } id).1
        = (AccountService.getAccount ok2 { db := c.db, calls := n } id).1) ∧
    (∀ (accountId : Int) (amount : Money),
      (AccountService.withdraw ok now c accountId amount).1 = false →
      ∀ (ok2 : StoreBehaviour) (n : Nat) (id : Int),
        (AccountService.getAccount ok2
          { db := (AccountService.withdraw ok now c accountId amount).2.db, calls := n } id).1
        = (AccountService.getAccount ok2 { db := c.db, calls := n } id).1) ∧
    (∀ (fromAccountId toAccountId : Int) (amount : Money),
      (AccountService.transfer ok now c fromAccountId toAccountId amount).1 = false →
      ∀ (ok2 : StoreBehaviour) (n : Nat) (id : Int),
        (AccountService.getAccount ok2
          { db := (AccountService.transfer ok now c fromAccountId toAccountId amount).2.db,
            calls := n } id).1
        = (AccountService.getAccount ok2 { db := c.db, calls := n } id).1) := by
  refine ⟨?_, ?_, ?_⟩
  · intro accountId amount h ok2 n id
    obtain ⟨h1, h2, h3⟩ := AccountService.deposit_false_accounts ok now c accountId amount h
    exact AccountRepository.getById_congr ok2 _ _ n id h1 h2 h3
  · intro accountId amount h ok2 n id
    obtain ⟨h1, h2, h3⟩ := AccountService.withdraw_false_accounts ok now c accountId amount h
    exact AccountRepository.getById_congr ok2 _ _ n id h1 h2 h3
  · intro fromAccountId toAccountId amount h ok2 n id
    rw [AccountService.transfer_false_db ok now c fromAccountId toAccountId amount h]

/-- Witness of C14: the deposit of 50 into account 1 of the sample database, with a store in
which only the account update fails, returns false; account 1 is then read back as before. -/
theorem AccountService.failed_operation_getAccount_witness :
    (AccountService.deposit (failAt 2) "2024-05-01 10:00:00" sampleConn 1 50).1 = false ∧
    (AccountService.getAccount allOk
      { db := (AccountService.deposit (failAt 2) "2024-05-01 10:00:00" sampleConn 1 50).2.db,
        calls := 0 } 1).1
      = (AccountService.getAccount allOk { db := sampleConn.db, calls := 0 } 1).1 :=
  have hf : (AccountService.deposit (failAt 2) "2024-05-01 10:00:00" sampleConn 1 50).1
      = false := by
    have hacc : (sampleStandard.deposit 50).1 = true :=
      (Account.deposit_accepted sampleStandard 50 (by decide)).1
    rw [AccountService.deposit_accepted_eq (failAt 2) _ sampleConn 1 50 sampleStandard rfl
      hacc, (AccountRepository.record_then_update (failAt 2) _ _ _).1]
    rfl
  ⟨hf, (AccountService.failed_operation_getAccount (failAt 2) "2024-05-01 10:00:00"
    sampleConn).1 1 50 hf allOk 0 1⟩

/-- An id with no row in `accounts` loads as the null pointer, whatever the store answers. -/
theorem AccountRepository.getById_none (ok : StoreBehaviour) (c : Conn) (id : Int)
    (h : c.db.selectAccount id = none) : (AccountRepository.getById ok c id).1 = none := by
  cases hg : (AccountRepository.getById ok c id).1 with
  | none => rfl
  | some a =>
    obtain ⟨row, hrow, -⟩ := AccountRepository.getById_some ok c id a hg
    rw [h] at hrow
    exact absurd hrow (by simp)

/-- C15: unknown account. For every behaviour of the store, `AccountService::deposit` and
`withdraw` return false when no account has the id, and `AccountService::transfer` returns
false when either id has no account, whatever the other account holds; in each case the
database (accounts and transactions) is as before. -/
theorem AccountService.unknown_account (ok : StoreBehaviour) (now : String) (c : Conn) :
    (∀ (accountId : Int) (amount : Money), c.db.selectAccount accountId = none →
      (AccountService.deposit ok now c accountId amount).1 = false ∧
      (AccountService.deposit ok now c accountId amount).2.db = c.db) ∧
    (∀ (accountId : Int) (amount : Money), c.db.selectAccount accountId = none →
      (AccountService.withdraw ok now c accountId amount).1 = false ∧
      (AccountService.withdraw ok now c accountId amount).2.db = c.db) ∧
    (∀ (fromAccountId toAccountId : Int) (amount : Money),
      (c.db.selectAccount fromAccountId = none ∨ c.db.selectAccount toAccountId = none) →
      (AccountService.transfer ok now c fromAccountId toAccountId amount).1 = false ∧
      (AccountService.transfer ok now c fromAccountId toAccountId amount).2.db = c.db) := by
  refine ⟨?_, ?_, ?_⟩
  · intro accountId amount h
    apply AccountService.deposit_not_accepted
    intro a ha
    rw [AccountRepository.getById_none ok c accountId h] at ha
    exact absurd ha (by simp)
  · intro accountId amount h
    apply AccountService.withdraw_not_accepted
    intro a ha
    rw [AccountRepository.getById_none ok c accountId h] at ha
    exact absurd ha (by simp)
  · intro fromAccountId toAccountId amount h
    rcases AccountService.transfer_cases ok now c fromAccountId toAccountId amount with
      ⟨-, a, b, ha, hb, -⟩ | ⟨hf, hdb, -⟩
    · rcases h with h | h
      · rw [AccountRepository.getById_none ok c fromAccountId h] at ha
        exact absurd ha (by simp)
      · have h2 : (AccountRepository.getById ok c fromAccountId).2.db.selectAccount
            toAccountId = none := by
          rw [AccountRepository.getById_db]
          exact h
        rw [AccountRepository.getById_none ok _ toAccountId h2] at hb
        exact absurd hb (by simp)
    · exact ⟨hf, hdb⟩

/-- Witness of C15: on the sample database no account has id 9; account 2 holds 200. -/
theorem AccountService.unknown_account_witness :
    (sampleConn.db.selectAccount 2 = none ∨ sampleConn.db.selectAccount 9 = none) ∧
    (AccountService.transfer allOk "2024-05-01 10:00:00" sampleConn 2 9 50).1 = false ∧
    (AccountService.transfer allOk "2024-05-01 10:00:00" sampleConn 2 9 50).2.db
      = sampleConn.db :=
  ⟨Or.inr rfl,
   (AccountService.unknown_account allOk "2024-05-01 10:00:00" sampleConn).2.2 2 9 50
     (Or.inr rfl)⟩


/-! ## AccountService: closing and opening accounts -/

/-- After `DELETE FROM accounts WHERE account_id=id` no row has that id. -/
theorem Database.selectAccount_deleteAccount (db : Database) (id : Int) :
    (db.deleteAccount id).selectAccount id = none := by
  simp [Database.selectAccount, Database.deleteAccount, List.find?_eq_none]

/-- Closing an account whose load fails or whose balance is not zero returns false and
writes nothing. -/
theorem AccountService.closeAccount_refused (ok : StoreBehaviour) (c : Conn)
    (accountId : Int)
    (h : ∀ a, (AccountRepository.getById ok c accountId).1 = some a → a.balance ≠ 0) :
    (AccountService.closeAccount ok c accountId).1 = false ∧
    (AccountService.closeAccount ok c accountId).2.db = c.db := by
  cases ha : (AccountRepository.getById ok c accountId).1 with
  | none => simp [AccountService.closeAccount, ha, AccountRepository.getById_db]
  | some a => simp [AccountService.closeAccount, ha, h a ha, AccountRepository.getById_db]

/-- C16: `AccountService::closeAccount` returns false and leaves the database as it was when
the account is missing or its stored balance is not exactly 0 (for every behaviour of the
store); for an existing account with balance exactly 0 and a store whose calls succeed it
returns true and the account can no longer be loaded. An account holding 0.01 is refused. -/
theorem AccountService.closeAccount_spec :
    (∀ (ok : StoreBehaviour) (c : Conn) (accountId : Int),
      c.db.selectAccount accountId = none →
      (AccountService.closeAccount ok c accountId).1 = false ∧
      (AccountService.closeAccount ok c accountId).2.db = c.db) ∧
    (∀ (ok : StoreBehaviour) (c : Conn) (accountId : Int) (row : AccountRow),
      c.db.selectAccount accountId = some row → row.balance ≠ 0 →
      (AccountService.closeAccount ok c accountId).1 = false ∧
      (AccountService.closeAccount ok c accountId).2.db = c.db) ∧
    (∀ (ok : StoreBehaviour) (c : Conn) (accountId : Int) (row : AccountRow),
      (∀ k, ok k = true) → c.db.selectAccount accountId = some row → row.balance = 0 →
      (AccountService.closeAccount ok c accountId).1 = true ∧
      (AccountService.closeAccount ok c accountId).2.db.selectAccount accountId = none ∧
      ∀ (ok2 : StoreBehaviour) (n : Nat),
        (AccountService.getAccount ok2
          { db := (AccountService.closeAccount ok c accountId).2.db, calls := n }
          accountId).1 = none) ∧
    ((AccountService.closeAccount allOk sampleCentConn 5).1 = false ∧
      (AccountService.closeAccount allOk sampleCentConn 5).2.db = sampleCentConn.db) := by
  have part2 : ∀ (ok : StoreBehaviour) (c : Conn) (accountId : Int) (row : AccountRow),
      c.db.selectAccount accountId = some row → row.balance ≠ 0 →
      (AccountService.closeAccount ok c accountId).1 = false ∧
      (AccountService.closeAccount ok c accountId).2.db = c.db := by
    intro ok c accountId row hrow hne
    apply AccountService.closeAccount_refused
    intro a ha
    obtain ⟨row2, hrow2, -, -, hbal, -⟩ := AccountRepository.getById_some ok c accountId a ha
    rw [hrow] at hrow2
    cases Option.some.inj hrow2
    rw [hbal]
    exact hne
  refine ⟨?_, part2, ?_, ?_⟩
  · intro ok c accountId h
    apply AccountService.closeAccount_refused
    intro a ha
    rw [AccountRepository.getById_none ok c accountId h] at ha
    exact absurd ha (by simp)
  · intro ok c accountId row hok hrow hzero
    obtain ⟨a, ha⟩ := AccountRepository.getById_isSome ok c accountId row hok hrow
    obtain ⟨row2, hrow2, -, -, hbal, -⟩ := AccountRepository.getById_some ok c accountId a ha
    rw [hrow] at hrow2
    cases Option.some.inj hrow2
    have hb : a.balance = 0 := by rw [hbal, hzero]
    have hdb : (AccountService.closeAccount ok c accountId).2.db
        = c.db.deleteAccount accountId := by
      simp [AccountService.closeAccount, ha, hb, AccountRepository.remove, hok,
        AccountRepository.getById_db]
    refine ⟨?_, ?_, ?_⟩
    · simp [AccountService.closeAccount, ha, hb, AccountRepository.remove, hok]
    · rw [hdb]
      exact Database.selectAccount_deleteAccount c.db accountId
    · intro ok2 n
      apply AccountRepository.getById_none
      show (AccountService.closeAccount ok c accountId).2.db.selectAccount accountId = none
      rw [hdb]
      exact Database.selectAccount_deleteAccount c.db accountId
  · exact part2 allOk sampleCentConn 5
      { account_id := 5, customer_id := 7, balance := 1 / 100,
        account_number := "71700000005", account_type := "Standard",
        date_opened := "2024-01-01" } rfl (by decide!)

/-- Witness of C16: account 3 of the sample database holds exactly 0 and is closed. -/
theorem AccountService.closeAccount_spec_witness :
    (∀ k, allOk k = true) ∧
    (sampleConn.db.selectAccount 3).map AccountRow.balance = some 0 ∧
    (AccountService.closeAccount allOk sampleConn 3).1 = true ∧
    (AccountService.closeAccount allOk sampleConn 3).2.db.selectAccount 3 = none :=
  have h := AccountService.closeAccount_spec.2.2.1 allOk sampleConn 3
    { account_id := 3, customer_id := 8, balance := 0,
      account_number := "81700000002", account_type := "Checking",
      date_opened := "2024-01-01" } (fun _ => rfl) rfl rfl
  ⟨fun _ => rfl, rfl, h.1, h.2.1⟩

/-- Looking a customer up never writes to the database. -/
theorem CustomerService.getCustomer_db (ok : StoreBehaviour) (c : Conn) (customerId : Int) :
    (CustomerService.getCustomer ok c customerId).2.db = c.db := by
  simp only [CustomerService.getCustomer, CustomerRepository.getById]
  split_ifs <;> rfl

/-- Counterexample to C17 as stated: handed a Checking object whose balance is -5, with a
store that answers, `AccountService::openAccount` returns true and the row is stored. -/
theorem AccountService.openAccount_guard_counterexample :
    (CheckingAccount.ctor 0 7 (-5) "71714550000" "2024-05-01" 0).balance ≤ 0 ∧
    (AccountService.openAccount allOk sampleConn
      (CheckingAccount.ctor 0 7 (-5) "71714550000" "2024-05-01" 0)).1 = true ∧
    (AccountService.openAccount allOk sampleConn
      (CheckingAccount.ctor 0 7 (-5) "71714550000" "2024-05-01" 0)).2.db.accounts =
      sampleConn.db.accounts ++
        [{ account_id := 4, customer_id := 7, balance := -5,
           account_number := "71714550000", account_type := "Checking",
           date_opened := "2024-05-01" }] :=
  ⟨by decide!, by decide!, by decide!⟩

/-- C17, amended: the check on the initial deposit is made by `ConsoleUI::openAccount`,
which returns without calling the service and writes nothing whenever the amount typed is
not positive (for every behaviour of the store); `AccountService::openAccount` itself does
not look at the balance and stores the account it is given whenever the store call
succeeds. -/
theorem ConsoleUI.openAccount_guard :
    (∀ (ok : StoreBehaviour) (c : Conn) (customerId accountType : Int)
      (initialDeposit extra : Money) (now : Int) (dateOpened : String),
      initialDeposit ≤ 0 →
      (ConsoleUI.openAccount ok c customerId accountType initialDeposit extra now
        dateOpened).1 = none ∧
      (ConsoleUI.openAccount ok c customerId accountType initialDeposit extra now
        dateOpened).2.db = c.db) ∧
    (∀ (ok : StoreBehaviour) (c : Conn) (account : Account), ok c.calls = true →
      (AccountService.openAccount ok c account).1 = true ∧
      (AccountService.openAccount ok c account).2.db = c.db.insertAccount account) := by
  constructor
  · intro ok c customerId accountType initialDeposit extra now dateOpened h
    cases hc : (CustomerService.getCustomer ok c customerId).1 with
    | none => simp [ConsoleUI.openAccount, hc, CustomerService.getCustomer_db]
    | some cust => simp [ConsoleUI.openAccount, hc, h, CustomerService.getCustomer_db]
  · intro ok c account h
    simp [AccountService.openAccount, AccountRepository.add, h]

/-- Witness of C17, amended: customer 7 asks for a Checking account with initial deposit 0. -/
theorem ConsoleUI.openAccount_guard_witness :
    (0 : Money) ≤ 0 ∧
    (ConsoleUI.openAccount allOk sampleCustomerConn 7 2 0 250 1714550000 "2024-05-01").1
      = none ∧
    (ConsoleUI.openAccount allOk sampleCustomerConn 7 2 0 250 1714550000 "2024-05-01").2.db
      = sampleCustomerConn.db :=
  ⟨by decide,
   ConsoleUI.openAccount_guard.1 allOk sampleCustomerConn 7 2 0 250 1714550000 "2024-05-01"
     (by decide)⟩

/-- C18, the code at the failing input: a Checking object with overdraft limit 250 is opened
on the sample database with a store that answers; `openAccount` returns true, and loading
account 4 afterwards gives a Checking account with the same customer id, balance, account
number and date, but overdraft limit 0. The same happens through `ConsoleUI::openAccount`,
and to the interest rate 3 of a Savings object. -/
theorem AccountService.openAccount_drops_variant_member :
    (AccountService.openAccount allOk sampleConn sampleNewChecking).1 = true ∧
    (AccountService.getAccount allOk
      { db := (AccountService.openAccount allOk sampleConn sampleNewChecking).2.db,
        calls := 0 } 4).1
      = some (CheckingAccount.ctor 4 7 500 "71714550000" "2024-05-01" 0) ∧
    (ConsoleUI.openAccount allOk sampleCustomerConn 7 2 500 250 1714550000 "2024-05-01").1
      = some true ∧
    (AccountService.getAccount allOk
      { db := (ConsoleUI.openAccount allOk sampleCustomerConn 7 2 500 250 1714550000
          "2024-05-01").2.db, calls := 0 } 4).1
      = some (CheckingAccount.ctor 4 7 500 "71714550000" "2024-05-01" 0) ∧
    (AccountService.openAccount allOk sampleConn
      (SavingsAccount.ctor 0 7 500 "71714550000" "2024-05-01" 3)).1 = true ∧
    (AccountService.getAccount allOk
      { db := (AccountService.openAccount allOk sampleConn
          (SavingsAccount.ctor 0 7 500 "71714550000" "2024-05-01" 3)).2.db,
        calls := 0 } 4).1
      = some (SavingsAccount.ctor 4 7 500 "71714550000" "2024-05-01" 0) := by
  decide!

/-- C19: `AccountService::openAccount` appends no transaction record: for every account,
every store state and every behaviour of the store, table `transactions` after the call is
the table before it. -/
theorem AccountService.openAccount_no_transaction (ok : StoreBehaviour) (c : Conn)
    (account : Account) :
    (AccountService.openAccount ok c account).2.db.transactions = c.db.transactions := by
  simp only [AccountService.openAccount, AccountRepository.add]
  split_ifs <;> rfl

/-- Counterexample to C20 as stated: on a Savings account with balance 0.07 (the nearest
`double`) and interest rate 3, `calculateInterest` leaves the `double`
0.07210000000000001, which is not the old balance plus the old balance times the rate
over 100: each of the three operations rounds. -/
theorem SavingsAccount.calculateInterest_spec_counterexample :
    sampleSmallSavings.variant = Variant.Savings 3 ∧
    (SavingsAccount.calculateInterest sampleSmallSavings).balance.isFinite = true ∧
    (SavingsAccount.calculateInterest sampleSmallSavings).balance.toRat
      = 5195352530134605 / 72057594037927936 ∧
    sampleSmallSavings.balance.toRat + sampleSmallSavings.balance.toRat * 3 / 100
      = 129883813253365117 / 1801439850948198400 ∧
    (SavingsAccount.calculateInterest sampleSmallSavings).balance.toRat
      ≠ sampleSmallSavings.balance.toRat + sampleSmallSavings.balance.toRat * 3 / 100 := by
  decide!

/-- C20, amended: on a Savings object, `SavingsAccount::calculateInterest` sets the balance
to `balance + balance * interestRate / 100` evaluated in `double` arithmetic (the product,
the quotient and the sum are each rounded), with the interest rate the object holds, and
changes nothing else. The result is the exact value of that expression whenever the exact
product, quotient and sum are `double`s; with interest rate 0 and a finite balance the
object is left as it was. -/
theorem SavingsAccount.calculateInterest_spec (a : Account) (interestRate : Money)
    (hv : a.variant = Variant.Savings interestRate) :
    (SavingsAccount.calculateInterest a).balance
      = a.balance + a.balance * interestRate / 100 ∧
    (SavingsAccount.calculateInterest a).id = a.id ∧
    (SavingsAccount.calculateInterest a).customerId = a.customerId ∧
    (SavingsAccount.calculateInterest a).accountNumber = a.accountNumber ∧
    (SavingsAccount.calculateInterest a).accountType = a.accountType ∧
    (SavingsAccount.calculateInterest a).dateOpened = a.dateOpened ∧
    (SavingsAccount.calculateInterest a).variant = a.variant ∧
    (a.balance.isFinite = true → interestRate.isFinite = true →
      isBinary64 (a.balance.toRat * interestRate.toRat) = true →
      isBinary64 (a.balance.toRat * interestRate.toRat / 100) = true →
      ∀ h3 : isBinary64
          (a.balance.toRat + a.balance.toRat * interestRate.toRat / 100) = true,
        (SavingsAccount.calculateInterest a).balance
          = Money.fin (a.balance.toRat + a.balance.toRat * interestRate.toRat / 100) h3) ∧
    (interestRate = 0 → a.balance.isFinite = true →
      SavingsAccount.calculateInterest a = a) := by
  have hc : SavingsAccount.calculateInterest a
      = { a with balance := a.balance + a.balance * interestRate / 100 } := by
    unfold SavingsAccount.calculateInterest
    rw [hv]
  rw [hc]
  refine ⟨rfl, rfl, rfl, rfl, rfl, rfl, rfl, ?_, ?_⟩
  · intro hb hr h1 h2 h3
    show a.balance + a.balance * interestRate / 100 = _
    rw [Money.mul_exact a.balance interestRate hb hr h1,
      Money.div_hundred_exact (Money.fin _ h1) rfl h2]
    exact Money.add_exact a.balance (Money.fin _ h2) hb rfl h3
  · intro h0 hb
    subst h0
    rw [Money.mul_zero_eq a.balance hb, Money.zero_div_hundred, Money.add_zero_eq]

/-- Witness of C20, amended: the Savings sample account (balance 100, rate 2) is left
with exactly 102. -/
theorem SavingsAccount.calculateInterest_spec_witness :
    sampleSavings.variant = Variant.Savings 2 ∧
    sampleSavings.balance.isFinite = true ∧ (2 : Money).isFinite = true ∧
    (SavingsAccount.calculateInterest sampleSavings).balance
      = sampleSavings.balance + sampleSavings.balance * 2 / 100 ∧
    (SavingsAccount.calculateInterest sampleSavings).balance = 102 :=
  ⟨rfl, by decide, by decide,
   (SavingsAccount.calculateInterest_spec sampleSavings 2 rfl).1,
   ((SavingsAccount.calculateInterest_spec sampleSavings 2 rfl).2.2.2.2.2.2.2.1
     (by decide) (by decide) (by decide!) (by decide!) (by decide!)).trans (by decide!)⟩

/-! ## Savings and Checking accounts -/

/-- Counterexample to C22 as stated: a Savings account with balance 100 and interest rate
-200 has balance -100 after `calculateInterest`; and with the interest rate -100 a
Savings account with balance 763.7746189766141 is left below 0 as well, at -2^-43,
because the product with -100 is rounded. -/
theorem SavingsAccount.balance_nonneg_counterexample :
    (SavingsAccount.ctor 2 7 100 "71700000001" "2024-01-01" (-200)).variant
      = Variant.Savings (-200) ∧
    0 ≤ (SavingsAccount.ctor 2 7 100 "71700000001" "2024-01-01" (-200)).balance ∧
    (SavingsAccount.calculateInterest
      (SavingsAccount.ctor 2 7 100 "71700000001" "2024-01-01" (-200))).balance = -100 ∧
    ¬ (0 : Money) ≤ -100 ∧
    0 ≤ (SavingsAccount.ctor 2 7 (Money.ofRat (6718232596519769 / 8796093022208))
      "71700000001" "2024-01-01" (-100)).balance ∧
    (SavingsAccount.calculateInterest
      (SavingsAccount.ctor 2 7 (Money.ofRat (6718232596519769 / 8796093022208))
        "71700000001" "2024-01-01" (-100))).balance.toRat = -1 / 8796093022208 := by
  decide!

/-- C22, amended: for every Savings account with balance at least 0, `deposit` and
`withdraw` of a finite amount leave the balance at least 0 whatever the interest rate, and
`calculateInterest` leaves it at least 0 whenever the balance and the interest rate are
finite and the interest rate is at least 0. -/
theorem SavingsAccount.balance_nonneg (a : Account) (interestRate : Money)
    (hv : a.variant = Variant.Savings interestRate) (h0 : 0 ≤ a.balance) :
    (∀ amount : Money, amount.isFinite = true → 0 ≤ (a.deposit amount).2.balance) ∧
    (∀ amount : Money, amount.isFinite = true →
      0 ≤ (a.virtualWithdraw amount).2.balance) ∧
    (a.balance.isFinite = true → interestRate.isFinite = true → 0 ≤ interestRate →
      0 ≤ (SavingsAccount.calculateInterest a).balance) := by
  have hvs : a.variant = Variant.Standard ∨ ∃ r, a.variant = Variant.Savings r :=
    Or.inr ⟨interestRate, hv⟩
  refine ⟨?_, ?_, ?_⟩
  · intro amount hx
    exact Account.perform_nonneg a (Call.deposit amount) hvs hx h0
  · intro amount hx
    exact Account.perform_nonneg a (Call.withdraw amount) hvs hx h0
  · intro hb hr hr0
    have hc : SavingsAccount.calculateInterest a
        = { a with balance := a.balance + a.balance * interestRate / 100 } := by
      unfold SavingsAccount.calculateInterest
      rw [hv]
    rw [hc]
    exact Money.add_nonneg_of _ _ h0
      (Money.div_hundred_nonneg _ (Money.mul_nonneg_of _ _ hb hr h0 hr0))

/-- Witness of C22, amended: the Savings sample account (balance 100, rate 2). -/
theorem SavingsAccount.balance_nonneg_witness :
    sampleSavings.variant = Variant.Savings 2 ∧ 0 ≤ sampleSavings.balance ∧
    sampleSavings.balance.isFinite = true ∧ (2 : Money).isFinite = true ∧
    (0 : Money) ≤ 2 ∧
    0 ≤ (SavingsAccount.calculateInterest sampleSavings).balance ∧
    0 ≤ (sampleSavings.virtualWithdraw 100).2.balance :=
  have h0 : 0 ≤ sampleSavings.balance := by decide
  ⟨rfl, h0, by decide, by decide, by decide,
   (SavingsAccount.balance_nonneg sampleSavings 2 rfl h0).2.2 (by decide) (by decide)
     (by decide),
   (SavingsAccount.balance_nonneg sampleSavings 2 rfl h0).2.1 100 (by decide)⟩

/-- C28: a Checking account with overdraft limit 0 withdraws exactly like a Standard
account: `CheckingAccount::withdraw` with limit 0 and `Account::withdraw` return the same
flag and leave the same object, for every balance and amount; and a row of type "Checking"
with no row in `checking_accounts` is loaded as a Checking account with limit 0. -/
theorem CheckingAccount.zero_limit_refines_standard :
    (∀ (a : Account) (amount : Money),
      CheckingAccount.withdraw a 0 amount = Account.withdraw a amount) ∧
    (∀ (a : Account) (amount : Money), a.variant = Variant.Checking 0 →
      a.virtualWithdraw amount = Account.withdraw a amount) ∧
    (∀ (ok : StoreBehaviour) (c : Conn) (id : Int) (row : AccountRow),
      ok c.calls = true → c.db.selectAccount id = some row →
      row.account_type = "Checking" → c.db.selectChecking row.account_id = none →
      (AccountRepository.getById ok c id).1 =
        some (CheckingAccount.ctor row.account_id row.customer_id row.balance
          row.account_number row.date_opened 0)) := by
  refine ⟨?_, ?_, ?_⟩
  · intro a amount
    simp [CheckingAccount.withdraw, Account.withdraw, Money.add_zero_eq]
  · intro a amount hv
    simp [Account.virtualWithdraw, hv, CheckingAccount.withdraw, Account.withdraw,
      Money.add_zero_eq]
  · intro ok c id row hok hrow hty hnone
    have hns : ¬ row.account_type = "Savings" := by
      rw [hty]
      decide
    unfold AccountRepository.getById
    rw [if_pos hok, hrow]
    simp only
    rw [if_neg hns, if_pos hty, hnone]
    simp

/-- Witness of C28: a "Checking" row without a `checking_accounts` row. -/
theorem CheckingAccount.zero_limit_refines_standard_witness :
    (AccountRepository.getById allOk
      { db := { sampleDb with checking_accounts := [] }, calls := 0 } 3).1 =
      some (CheckingAccount.ctor 3 8 0 "81700000002" "2024-01-01" 0) ∧
    (CheckingAccount.ctor 3 8 0 "81700000002" "2024-01-01" 0).virtualWithdraw 10 =
      Account.withdraw (CheckingAccount.ctor 3 8 0 "81700000002" "2024-01-01" 0) 10 :=
  ⟨CheckingAccount.zero_limit_refines_standard.2.2 allOk
     { db := { sampleDb with checking_accounts := [] }, calls := 0 } 3
     { account_id := 3, customer_id := 8, balance := 0,
       account_number := "81700000002", account_type := "Checking",
       date_opened := "2024-01-01" } rfl rfl rfl rfl,
   CheckingAccount.zero_limit_refines_standard.2.1 _ 10 rfl⟩

/-- Counterexample to C30 as stated: a Checking account at its floor (balance -100,
overdraft limit 100) accepts `deposit(0.02)`, and the `withdraw(0.02)` that follows is
refused: the balance after the deposit is the `double` nearest to -99.98, and adding the
limit to it gives a `double` below 0.02. -/
theorem Account.deposit_withdraw_roundtrip_counterexample :
    sampleFloorChecking.floor ≤ sampleFloorChecking.balance ∧
    (0 : Money) < 2 / 100 ∧
    (sampleFloorChecking.deposit (2 / 100)).1 = true ∧
    ((sampleFloorChecking.deposit (2 / 100)).2.virtualWithdraw (2 / 100)).1 = false := by
  decide!

/-- C30, amended: deposit then withdraw, for a finite balance and a finite positive
amount. `deposit(amount)` returns true. On a Standard or Savings account with balance at
least 0 the following `withdraw(amount)` returns true. On an account of any class that is
at or above its finite floor, when the exact sum of the balance and the amount is a
`double`, the following `withdraw(amount)` returns true and the object is then as it was
at the start. -/
theorem Account.deposit_withdraw_roundtrip (a : Account) (amount : Money)
    (hb : a.balance.isFinite = true) (hx : amount.isFinite = true) (hpos : 0 < amount) :
    (a.deposit amount).1 = true ∧
    ((a.variant = Variant.Standard ∨ ∃ r, a.variant = Variant.Savings r) →
      0 ≤ a.balance → ((a.deposit amount).2.virtualWithdraw amount).1 = true) ∧
    (isBinary64 (a.balance.toRat + amount.toRat) = true → a.floor.isFinite = true →
      a.floor ≤ a.balance →
      ((a.deposit amount).2.virtualWithdraw amount).1 = true ∧
      ((a.deposit amount).2.virtualWithdraw amount).2 = a) := by
  have hn : ¬ amount ≤ 0 := Money.lt_imp_not_le 0 amount hpos
  have hxpos : 0 < amount.toRat := (Money.pos_iff_toRat amount hx).mp hpos
  obtain ⟨id, customerId, balance, accountNumber, accountType, dateOpened, variant⟩ := a
  obtain ⟨q1, e1⟩ := Money.eq_fin_of_isFinite balance hb
  obtain ⟨q2, e2⟩ := Money.eq_fin_of_isFinite amount hx
  generalize balance.toRat = b at *
  generalize amount.toRat = x at *
  subst e1 e2
  refine ⟨by simp [Account.deposit, hn], ?_, ?_⟩
  · intro hv h0
    have h0q : 0 ≤ b := by
      rw [Money.zero_eq] at h0
      exact (Money.fin_le_fin _ _ _ _).mp h0
    have hg : ¬ (Money.fin b q1 + Money.fin x q2 < Money.fin x q2) := by
      apply Money.le_imp_not_lt
      rw [Money.fin_add_fin]
      exact Money.le_ofRat_of (Money.fin x q2) rfl _
        (by simp only [Money.toRat]; linarith only [h0q])
    rcases hv with h | ⟨r, h⟩
    · simp only at h
      subst h
      simp [Account.deposit, hn, Account.virtualWithdraw, Account.withdraw, hg]
    · simp only at h
      subst h
      simp [Account.deposit, hn, Account.virtualWithdraw, Account.withdraw, hg]
  · intro hs hfl hfloor
    have hsum : Money.fin b q1 + Money.fin x q2 = Money.fin (b + x) hs := by
      rw [Money.fin_add_fin]
      exact Money.ofRat_fin _ hs
    have hback : Money.fin (b + x) hs - Money.fin x q2 = Money.fin b q1 := by
      rw [Money.fin_sub_fin, add_sub_cancel_right]
      exact Money.ofRat_fin _ q1
    cases variant with
    | Standard =>
      have h0q : 0 ≤ b := by
        have h0 : (0 : Money) ≤ Money.fin b q1 := by simpa [Account.floor] using hfloor
        rw [Money.zero_eq] at h0
        exact (Money.fin_le_fin _ _ _ _).mp h0
      have hg : ¬ (Money.fin (b + x) hs < Money.fin x q2) := by
        rw [Money.fin_lt_fin]
        linarith only [h0q]
      simp [Account.deposit, hn, Account.virtualWithdraw, Account.withdraw, hsum, hg, hback]
    | Savings r =>
      have h0q : 0 ≤ b := by
        have h0 : (0 : Money) ≤ Money.fin b q1 := by simpa [Account.floor] using hfloor
        rw [Money.zero_eq] at h0
        exact (Money.fin_le_fin _ _ _ _).mp h0
      have hg : ¬ (Money.fin (b + x) hs < Money.fin x q2) := by
        rw [Money.fin_lt_fin]
        linarith only [h0q]
      simp [Account.deposit, hn, Account.virtualWithdraw, Account.withdraw, hsum, hg, hback]
    | Checking l =>
      have hfl2 : (-l).isFinite = true := by simpa [Account.floor] using hfl
      have hl : l.isFinite = true := Money.isFinite_of_neg l hfl2
      obtain ⟨q3, e3⟩ := Money.eq_fin_of_isFinite l hl
      generalize l.toRat = lq at *
      subst e3
      have hlq : -lq ≤ b := by
        have h0 : -Money.fin lq q3 ≤ Money.fin b q1 := by simpa [Account.floor] using hfloor
        rw [Money.neg_fin] at h0
        exact (Money.fin_le_fin _ _ _ _).mp h0
      have hg : ¬ (Money.fin (b + x) hs + Money.fin lq q3 < Money.fin x q2) := by
        apply Money.le_imp_not_lt
        rw [Money.fin_add_fin]
        exact Money.le_ofRat_of (Money.fin x q2) rfl _
          (by simp only [Money.toRat]; linarith only [hlq])
      simp [Account.deposit, hn, Account.virtualWithdraw, CheckingAccount.withdraw, hsum, hg,
        hback]

/-- Witness of C30, amended: the overdrawn Checking sample account (balance -80, limit
100) and the amount 30. -/
theorem Account.deposit_withdraw_roundtrip_witness :
    sampleOverdrawn.balance.isFinite = true ∧ (30 : Money).isFinite = true ∧
    (0 : Money) < 30 ∧
    isBinary64 (sampleOverdrawn.balance.toRat + (30 : Money).toRat) = true ∧
    sampleOverdrawn.floor.isFinite = true ∧
    sampleOverdrawn.floor ≤ sampleOverdrawn.balance ∧
    (sampleOverdrawn.deposit 30).1 = true ∧
    ((sampleOverdrawn.deposit 30).2.virtualWithdraw 30).1 = true ∧
    ((sampleOverdrawn.deposit 30).2.virtualWithdraw 30).2 = sampleOverdrawn :=
  ⟨by decide, by decide, by decide, by decide!, by decide!, by decide!,
   (Account.deposit_withdraw_roundtrip sampleOverdrawn 30 (by decide) (by decide)
     (by decide)).1,
   (Account.deposit_withdraw_roundtrip sampleOverdrawn 30 (by decide) (by decide)
     (by decide)).2.2 (by decide!) (by decide!) (by decide!)⟩


/-! ## Login -/

/-- The hard-coded user accepts exactly the pair ("admin", "password123"). -/
theorem User.authenticate_admin (entry : String × String) :
    (User.mk "admin" "password123").authenticate entry.1 entry.2 = true ↔
      entry = ("admin", "password123") := by
  obtain ⟨u, p⟩ := entry
  simp only [User.authenticate, Bool.and_eq_true, decide_eq_true_eq, Prod.mk.injEq]
  constructor
  · rintro ⟨h1, h2⟩
    exact ⟨h1.symm, h2.symm⟩
  · rintro ⟨h1, h2⟩
    exact ⟨h1.symm, h2.symm⟩

/-- The loop entered with `attempts` in {0, 1, 2}: the counter stays in that range at every
evaluation of the condition, the exit is not reached, and the loop returns exactly when the
right pair is among the entries. -/
theorem ConsoleUI.loginLoop_inv (entries : List (String × String)) :
    ∀ attempts : Int, 0 ≤ attempts → attempts < 3 →
      (∀ a ∈ (ConsoleUI.loginLoop attempts entries).1, 0 ≤ a ∧ a < 3) ∧
      (ConsoleUI.loginLoop attempts entries).2 ≠ LoginOutcome.accessDenied ∧
      ((ConsoleUI.loginLoop attempts entries).2 = LoginOutcome.loggedIn ↔
        ("admin", "password123") ∈ entries) ∧
      (("admin", "password123") ∉ entries →
        ∃ k : Int, 0 ≤ k ∧ k < 3 ∧
          (ConsoleUI.loginLoop attempts entries).2 = LoginOutcome.prompting k) := by
  induction entries with
  | nil =>
    intro attempts h0 h3
    simp only [ConsoleUI.loginLoop, if_pos h3]
    refine ⟨?_, by simp, by simp, fun _ => ⟨attempts, h0, h3, rfl⟩⟩
    intro a ha
    simp only [List.mem_singleton] at ha
    subst ha
    exact ⟨h0, h3⟩
  | cons entry rest ih =>
    intro attempts h0 h3
    simp only [ConsoleUI.loginLoop, if_pos h3]
    by_cases hauth : (User.mk "admin" "password123").authenticate entry.1 entry.2 = true
    · have he := (User.authenticate_admin entry).mp hauth
      simp only [hauth, if_true]
      refine ⟨?_, by simp, by simp [he], ?_⟩
      · intro a ha
        simp only [List.mem_singleton] at ha
        subst ha
        exact ⟨h0, h3⟩
      · intro hnot
        exact absurd (by simp [he]) hnot
    · have hne : entry ≠ ("admin", "password123") := fun h =>
        hauth ((User.authenticate_admin entry).mpr h)
      simp only [hauth, Bool.false_eq_true, if_false]
      have hnext0 : 0 ≤ (if attempts + 1 = 3 then (0 : Int) else attempts + 1) := by
        split_ifs <;> omega
      have hnext3 : (if attempts + 1 = 3 then (0 : Int) else attempts + 1) < 3 := by
        split_ifs <;> omega
      obtain ⟨i1, i2, i3, i4⟩ := ih _ hnext0 hnext3
      refine ⟨?_, i2, ?_, ?_⟩
      · intro a ha
        rcases List.mem_cons.mp ha with h | h
        · subst h
          exact ⟨h0, h3⟩
        · exact i1 a h
      · rw [i3]
        simp [Ne.symm hne]
      · intro hnot
        apply i4
        intro hmem
        exact hnot (List.mem_cons_of_mem _ hmem)

/-- C27: `ConsoleUI::login` never reaches its "Access denied" exit. For every sequence of
typed credentials, the counter `attempts` is 0, 1 or 2 at every evaluation of the loop
condition; `login` returns exactly when one of the entries is ("admin", "password123"); and
otherwise it is at the prompt again. -/
theorem ConsoleUI.login_never_denied (entries : List (String × String)) :
    (∀ a ∈ (ConsoleUI.login entries).1, a = 0 ∨ a = 1 ∨ a = 2) ∧
    (ConsoleUI.login entries).2 ≠ LoginOutcome.accessDenied ∧
    ((ConsoleUI.login entries).2 = LoginOutcome.loggedIn ↔
      ("admin", "password123") ∈ entries) ∧
    (("admin", "password123") ∉ entries →
      ∃ k : Int, (k = 0 ∨ k = 1 ∨ k = 2) ∧
        (ConsoleUI.login entries).2 = LoginOutcome.prompting k) := by
  obtain ⟨h1, h2, h3, h4⟩ := ConsoleUI.loginLoop_inv entries 0 (le_refl 0) (by norm_num)
  refine ⟨?_, h2, h3, ?_⟩
  · intro a ha
    have := h1 a ha
    omega
  · intro hnot
    obtain ⟨k, k0, k3, hk⟩ := h4 hnot
    exact ⟨k, by omega, hk⟩

/-- Witness of C27: four wrong entries in a row. After the third the counter is back at 0,
and after the fourth the loop is at the prompt with `attempts = 1`. -/
theorem ConsoleUI.login_never_denied_witness :
    ("admin", "password123") ∉
      [("admin", "x"), ("root", "password123"), ("a", "b"), ("c", "d")] ∧
    ConsoleUI.login [("admin", "x"), ("root", "password123"), ("a", "b"), ("c", "d")]
      = ([0, 1, 2, 0, 1], LoginOutcome.prompting 1) ∧
    ∃ k : Int, (k = 0 ∨ k = 1 ∨ k = 2) ∧
      (ConsoleUI.login [("admin", "x"), ("root", "password123"), ("a", "b"),
        ("c", "d")]).2 = LoginOutcome.prompting k :=
  ⟨by decide, by decide,
   (ConsoleUI.login_never_denied
     [("admin", "x"), ("root", "password123"), ("a", "b"), ("c", "d")]).2.2.2 (by decide)⟩

/-! ## The rows appended to `transactions` -/

/-- What `TransactionRepository::add` does to table `transactions`. -/
theorem TransactionRepository.add_transactions (ok : StoreBehaviour) (c : Conn)
    (t : Transaction) :
    (TransactionRepository.add ok c t).2.db.transactions =
      c.db.transactions ++
        (if ok c.calls then
          [{ t with id := c.db.nextTransactionId, amount := t.amount.to_string_stod }]
        else []) ∧
    (TransactionRepository.add ok c t).2.calls = c.calls + 1 := by
  cases h : ok c.calls <;>
    simp [TransactionRepository.add, h, Conn.tick, Database.insertTransaction]

/-- `AccountRepository::update` leaves table `transactions` alone. -/
theorem AccountRepository.update_transactions (ok : StoreBehaviour) (c : Conn)
    (account : Account) :
    (AccountRepository.update ok c account).2.db.transactions = c.db.transactions := by
  cases h : ok c.calls <;>
    simp [AccountRepository.update, h, Conn.tick, Database.updateAccount]

/-- The rows a deposit appends, for every behaviour of the store: none, or one "Deposit"
row on the account with the requested amount as `std::to_string` renders it, and then the
amount does not compare `<= 0`. -/
theorem AccountService.deposit_appended (ok : StoreBehaviour) (now : String) (c : Conn)
    (accountId : Int) (amount : Money) :
    ∃ new : List Transaction,
      (AccountService.deposit ok now c accountId amount).2.db.transactions
        = c.db.transactions ++ new ∧
      ∀ t ∈ new, t.accountId = accountId ∧ t.type = "Deposit" ∧
        t.amount = amount.to_string_stod ∧ ¬ amount ≤ 0 := by
  by_cases hr : ∀ a, (AccountRepository.getById ok c accountId).1 = some a →
      (a.deposit amount).1 = false
  · refine ⟨[], ?_, by simp⟩
    rw [(AccountService.deposit_not_accepted ok now c accountId amount hr).2]
    simp
  · push_neg at hr
    obtain ⟨a, ha, hacc⟩ := hr
    have hacc2 : (a.deposit amount).1 = true := by simpa using hacc
    have hpos := ((Account.deposit_result a amount).1 hacc2).1
    rw [AccountService.deposit_accepted_eq ok now c accountId amount a ha hacc2,
      AccountRepository.update_transactions,
      (TransactionRepository.add_transactions ok _ _).1, AccountRepository.getById_db]
    refine ⟨_, rfl, ?_⟩
    intro t ht
    split_ifs at ht
    · simp only [List.mem_singleton] at ht
      subst ht
      exact ⟨rfl, rfl, rfl, hpos⟩
    · simp at ht

/-- The rows a withdrawal appends, for every behaviour of the store: none, or one
"Withdrawal" row on the account with the requested amount as `std::to_string` renders it,
and then the amount does not compare `<= 0`. -/
theorem AccountService.withdraw_appended (ok : StoreBehaviour) (now : String) (c : Conn)
    (accountId : Int) (amount : Money) :
    ∃ new : List Transaction,
      (AccountService.withdraw ok now c accountId amount).2.db.transactions
        = c.db.transactions ++ new ∧
      ∀ t ∈ new, t.accountId = accountId ∧ t.type = "Withdrawal" ∧
        t.amount = amount.to_string_stod ∧ ¬ amount ≤ 0 := by
  by_cases hr : ∀ a, (AccountRepository.getById ok c accountId).1 = some a →
      (a.virtualWithdraw amount).1 = false
  · refine ⟨[], ?_, by simp⟩
    rw [(AccountService.withdraw_not_accepted ok now c accountId amount hr).2]
    simp
  · push_neg at hr
    obtain ⟨a, ha, hacc⟩ := hr
    have hacc2 : (a.virtualWithdraw amount).1 = true := by simpa using hacc
    have hpos := Account.virtualWithdraw_not_le a amount hacc2
    rw [AccountService.withdraw_accepted_eq ok now c accountId amount a ha hacc2,
      AccountRepository.update_transactions,
      (TransactionRepository.add_transactions ok _ _).1, AccountRepository.getById_db]
    refine ⟨_, rfl, ?_⟩
    intro t ht
    split_ifs at ht
    · simp only [List.mem_singleton] at ht
      subst ht
      exact ⟨rfl, rfl, rfl, hpos⟩
    · simp at ht

/-- The rows a transfer appends, for every behaviour of the store: each is a
"Transfer Out" or a "Transfer In" row with the requested amount as `std::to_string`
renders it, and then the amount does not compare `<= 0`. -/
theorem AccountService.transfer_appended (ok : StoreBehaviour) (now : String) (c : Conn)
    (fromAccountId toAccountId : Int) (amount : Money) :
    ∃ new : List Transaction,
      (AccountService.transfer ok now c fromAccountId toAccountId amount).2.db.transactions
        = c.db.transactions ++ new ∧
      ∀ t ∈ new, (t.type = "Transfer Out" ∨ t.type = "Transfer In") ∧
        t.amount = amount.to_string_stod ∧ ¬ amount ≤ 0 := by
  rcases AccountService.transfer_cases ok now c fromAccountId toAccountId amount with
    ⟨-, a, b, ha, hb, hacc⟩ | ⟨-, hdb, -⟩
  · have hpos := Account.virtualWithdraw_not_le a amount hacc
    simp only [AccountService.transfer, ha, hb, hacc, if_true,
      AccountRepository.update_transactions,
      (TransactionRepository.add_transactions ok _ _).1, AccountRepository.getById_db,
      List.append_assoc]
    refine ⟨_, rfl, ?_⟩
    intro t ht
    rcases List.mem_append.mp ht with h | h
    · split_ifs at h
      · simp only [List.mem_singleton] at h
        subst h
        exact ⟨Or.inl rfl, rfl, hpos⟩
      · simp at h
    · split_ifs at h
      · simp only [List.mem_singleton] at h
        subst h
        exact ⟨Or.inr rfl, rfl, hpos⟩
      · simp at h
  · exact ⟨[], by rw [hdb]; simp, by simp⟩

/-- Counterexample to C23 as stated: in the sample database with history, account 3 has
balance 0 and two stored records; `closeAccount(3)` on a store that answers returns true,
and afterwards only the record of account 1 is left in `transactions`. -/
theorem AccountService.transactions_append_only_counterexample :
    (AccountService.closeAccount allOk sampleHistoryConn 3).1 = true ∧
    sampleHistoryConn.db.transactions.length = 3 ∧
    (AccountService.closeAccount allOk sampleHistoryConn 3).2.db.transactions =
      [{ id := 2, accountId := 1, type := "Deposit", amount := 100,
         dateTime := "2024-04-01 09:30:00", description := "Deposit to account" }] ∧
    ¬ sampleHistoryConn.db.transactions <+:
      (AccountService.closeAccount allOk sampleHistoryConn 3).2.db.transactions := by
  decide!

/-- What `closeAccount` does to table `transactions`, for every behaviour of the store:
nothing when it returns false; when it returns true, the rows of the closed account are
gone and the others are left, in order. -/
theorem AccountService.closeAccount_transactions (ok : StoreBehaviour) (c : Conn)
    (accountId : Int) :
    ((AccountService.closeAccount ok c accountId).1 = false →
      (AccountService.closeAccount ok c accountId).2.db.transactions = c.db.transactions) ∧
    ((AccountService.closeAccount ok c accountId).1 = true →
      (AccountService.closeAccount ok c accountId).2.db.transactions =
        c.db.transactions.filter (fun t => decide (t.accountId ≠ accountId))) := by
  by_cases hr : ∀ a, (AccountRepository.getById ok c accountId).1 = some a → a.balance ≠ 0
  · obtain ⟨h1, h2⟩ := AccountService.closeAccount_refused ok c accountId hr
    constructor
    · intro _
      rw [h2]
    · intro h
      rw [h1] at h
      exact absurd h (by decide)
  · push_neg at hr
    obtain ⟨a, ha, hb⟩ := hr
    have he : AccountService.closeAccount ok c accountId =
        AccountRepository.remove ok (AccountRepository.getById ok c accountId).2
          accountId := by
      simp [AccountService.closeAccount, ha, hb]
    rw [he]
    cases hk : ok (AccountRepository.getById ok c accountId).2.calls <;>
      simp [AccountRepository.remove, hk, Conn.tick, Database.deleteAccount,
        AccountRepository.getById_db]

/-- C23, amended: no operation of `AccountService` or `TransactionService` other than
`closeAccount` changes or removes a stored transaction record: `deposit`, `withdraw`,
`transfer` and `recordTransaction` only append to table `transactions`, and `openAccount`,
`getAccount`, `getBalance`, `getAccountTransactions` and `getTransaction` leave it as it is.
A `closeAccount` that returns false leaves it as it is; one that returns true removes the
records of the closed account and keeps every record of another account, in order. This
holds for every behaviour of the store. -/
theorem AccountService.transactions_append_only (ok : StoreBehaviour) (now : String)
    (c : Conn) :
    (∀ account : Account,
      (AccountService.openAccount ok c account).2.db.transactions = c.db.transactions) ∧
    (∀ accountId : Int,
      (AccountService.getAccount ok c accountId).2.db.transactions = c.db.transactions) ∧
    (∀ accountId : Int,
      (AccountService.getBalance ok c accountId).2.db.transactions = c.db.transactions) ∧
    (∀ (accountId : Int) (amount : Money),
      c.db.transactions <+:
        (AccountService.deposit ok now c accountId amount).2.db.transactions) ∧
    (∀ (accountId : Int) (amount : Money),
      c.db.transactions <+:
        (AccountService.withdraw ok now c accountId amount).2.db.transactions) ∧
    (∀ (fromAccountId toAccountId : Int) (amount : Money),
      c.db.transactions <+:
        (AccountService.transfer ok now c fromAccountId toAccountId
          amount).2.db.transactions) ∧
    (∀ transaction : Transaction,
      c.db.transactions <+:
        (TransactionService.recordTransaction ok c transaction).2.db.transactions) ∧
    (∀ accountId : Int,
      (TransactionService.getAccountTransactions ok c accountId).2.db.transactions
        = c.db.transactions) ∧
    (∀ transactionId : Int,
      (TransactionService.getTransaction ok c transactionId).2.db.transactions
        = c.db.transactions) ∧
    (∀ accountId : Int,
      ((AccountService.closeAccount ok c accountId).1 = false →
        (AccountService.closeAccount ok c accountId).2.db.transactions
          = c.db.transactions) ∧
      ((AccountService.closeAccount ok c accountId).1 = true →
        (AccountService.closeAccount ok c accountId).2.db.transactions =
          c.db.transactions.filter (fun t => decide (t.accountId ≠ accountId)))) := by
  refine ⟨?_, ?_, ?_, ?_, ?_, ?_, ?_, ?_, ?_, ?_⟩
  · intro account
    simp only [AccountService.openAccount, AccountRepository.add]
    split_ifs <;> rfl
  · intro accountId
    simp only [AccountService.getAccount, AccountRepository.getById_db]
  · intro accountId
    simp only [AccountService.getBalance]
    split <;> simp only [AccountRepository.getById_db]
  · intro accountId amount
    obtain ⟨new, h, -⟩ := AccountService.deposit_appended ok now c accountId amount
    exact ⟨new, h.symm⟩
  · intro accountId amount
    obtain ⟨new, h, -⟩ := AccountService.withdraw_appended ok now c accountId amount
    exact ⟨new, h.symm⟩
  · intro fromAccountId toAccountId amount
    obtain ⟨new, h, -⟩ :=
      AccountService.transfer_appended ok now c fromAccountId toAccountId amount
    exact ⟨new, h.symm⟩
  · intro transaction
    exact ⟨_, ((TransactionRepository.add_transactions ok c transaction).1).symm⟩
  · intro accountId
    simp only [TransactionService.getAccountTransactions,
      TransactionRepository.getByAccountId]
    split_ifs <;> rfl
  · intro transactionId
    simp only [TransactionService.getTransaction, TransactionRepository.getById]
    split_ifs <;> rfl
  · intro accountId
    exact AccountService.closeAccount_transactions ok c accountId

/-- Witness of C23, amended: closing account 1 of the sample database with history is
refused (its balance is 100) and the three stored records are all still there. -/
theorem AccountService.transactions_append_only_witness :
    (AccountService.closeAccount allOk sampleHistoryConn 1).1 = false ∧
    (AccountService.closeAccount allOk sampleHistoryConn 1).2.db.transactions
      = sampleHistoryConn.db.transactions :=
  have hf : (AccountService.closeAccount allOk sampleHistoryConn 1).1 = false := by
    apply (AccountService.closeAccount_refused allOk sampleHistoryConn 1 _).1
    intro a ha
    have e : a = sampleStandard := (Option.some.inj ha).symm
    subst e
    decide
  ⟨hf, ((AccountService.transactions_append_only allOk "2024-05-01 10:00:00"
    sampleHistoryConn).2.2.2.2.2.2.2.2.2 1).1 hf⟩

/-! ## Transfer to the same account, and the error value of `getBalance` -/

/-- C25, the code at the failing input: on the sample database with a store that answers,
`transfer(1, 1, 50)` returns true and the stored balance of account 1 goes from 100 to 150;
the sum of all stored balances goes from 300 to 350. The source and the destination are
loaded as two objects, and the second update overwrites the first. -/
theorem AccountService.transfer_same_account_credits :
    (AccountService.transfer allOk "2024-05-01 10:00:00" sampleConn 1 1 50).1 = true ∧
    (sampleConn.db.selectAccount 1).map AccountRow.balance = some 100 ∧
    ((AccountService.transfer allOk "2024-05-01 10:00:00" sampleConn 1 1
      50).2.db.selectAccount 1).map AccountRow.balance = some 150 ∧
    (sampleConn.db.accounts.map AccountRow.balance).sum = 300 ∧
    ((AccountService.transfer allOk "2024-05-01 10:00:00" sampleConn 1 1
      50).2.db.accounts.map AccountRow.balance).sum = 350 := by
  decide!

/-- C26, the code at the failing input: on the sample database with a store that answers,
withdrawing 1 from Checking account 3 (balance 0, overdraft limit 100) returns true and
stores the balance -1; `getBalance(3)` then returns -1 although account 3 exists. -/
theorem AccountService.getBalance_minus_one_exists :
    (AccountService.withdraw allOk "2024-05-01 10:00:00" sampleConn 3 1).1 = true ∧
    ((AccountService.withdraw allOk "2024-05-01 10:00:00" sampleConn 3
      1).2.db.selectAccount 3).map AccountRow.balance = some (-1) ∧
    (AccountService.getBalance allOk
      { db := (AccountService.withdraw allOk "2024-05-01 10:00:00" sampleConn 3 1).2.db,
        calls := 0 } 3).1 = -1 := by
  decide!

/-! ## What a successful deposit or withdrawal leaves alone -/

/-- After the append and a successful update of an object that carries the columns of its
row, the row differs from before in its balance only, the rows of the other ids are as
before, and so are the two subclass tables. -/
theorem AccountRepository.updated_tail_frame (ok : StoreBehaviour) (c : Conn)
    (t : Transaction) (account : Account) (row : AccountRow) (id : Int)
    (hrow : c.db.selectAccount id = some row) (hid : account.id = id)
    (h1 : account.customerId = row.customer_id)
    (h2 : account.accountNumber = row.account_number)
    (h3 : account.accountType = row.account_type)
    (h4 : account.dateOpened = row.date_opened)
    (h : (AccountRepository.update ok (TransactionRepository.add ok c t).2 account).1
      = true) :
    (AccountRepository.update ok (TransactionRepository.add ok c t).2
        account).2.db.selectAccount id
          = some { row with balance := account.balance.to_string_stod } ∧
    (∀ other : Int, other ≠ id →
      (AccountRepository.update ok (TransactionRepository.add ok c t).2
        account).2.db.selectAccount other = c.db.selectAccount other) ∧
    (AccountRepository.update ok (TransactionRepository.add ok c t).2
        account).2.db.savings_accounts = c.db.savings_accounts ∧
    (AccountRepository.update ok (TransactionRepository.add ok c t).2
        account).2.db.checking_accounts = c.db.checking_accounts := by
  obtain ⟨e1, e2⟩ := AccountRepository.record_then_update ok c t account
  rw [e1] at h
  rw [e2, h]
  simp only [if_true]
  have hX : ∀ j, (if ok c.calls = true then c.db.insertTransaction t else c.db).selectAccount j
      = c.db.selectAccount j := by
    intro j
    split_ifs <;> rfl
  have hr := Database.selectAccount_id c.db id row hrow
  refine ⟨?_, ?_, ?_, ?_⟩
  · rw [Database.selectAccount_updateAccount, hX, hrow]
    simp [hr, hid, AccountRow.assign, h1, h2, h3, h4]
  · intro other hne
    rw [Database.selectAccount_updateAccount, hX]
    cases hsel : c.db.selectAccount other with
    | none => rfl
    | some r =>
      have hro := Database.selectAccount_id c.db other r hsel
      have : ¬ r.account_id = account.id := by
        rw [hro, hid]
        exact hne
      simp [this]
  · split_ifs <;> rfl
  · split_ifs <;> rfl

/-- C29: a successful `AccountService::deposit` or `withdraw` on an account changes nothing
but the balance of that account: its row keeps its id, customer id, account number, account
type and date opened, the row of every other account id is as before, and so are the tables
of the subclass members. This holds for every behaviour of the store. -/
theorem AccountService.success_frame (ok : StoreBehaviour) (now : String) (c : Conn)
    (accountId : Int) (amount : Money) :
    ((AccountService.deposit ok now c accountId amount).1 = true →
      ∃ (row : AccountRow) (newBalance : Money),
        c.db.selectAccount accountId = some row ∧
        (AccountService.deposit ok now c accountId amount).2.db.selectAccount accountId
          = some { row with balance := newBalance } ∧
        (∀ other : Int, other ≠ accountId →
          (AccountService.deposit ok now c accountId amount).2.db.selectAccount other
            = c.db.selectAccount other) ∧
        (AccountService.deposit ok now c accountId amount).2.db.savings_accounts
          = c.db.savings_accounts ∧
        (AccountService.deposit ok now c accountId amount).2.db.checking_accounts
          = c.db.checking_accounts) ∧
    ((AccountService.withdraw ok now c accountId amount).1 = true →
      ∃ (row : AccountRow) (newBalance : Money),
        c.db.selectAccount accountId = some row ∧
        (AccountService.withdraw ok now c accountId amount).2.db.selectAccount accountId
          = some { row with balance := newBalance } ∧
        (∀ other : Int, other ≠ accountId →
          (AccountService.withdraw ok now c accountId amount).2.db.selectAccount other
            = c.db.selectAccount other) ∧
        (AccountService.withdraw ok now c accountId amount).2.db.savings_accounts
          = c.db.savings_accounts ∧
        (AccountService.withdraw ok now c accountId amount).2.db.checking_accounts
          = c.db.checking_accounts) := by
  constructor
  · intro h
    by_cases hr : ∀ a, (AccountRepository.getById ok c accountId).1 = some a →
        (a.deposit amount).1 = false
    · rw [(AccountService.deposit_not_accepted ok now c accountId amount hr).1] at h
      exact absurd h (by decide)
    · push_neg at hr
      obtain ⟨a, ha, hacc⟩ := hr
      have hacc2 : (a.deposit amount).1 = true := by simpa using hacc
      obtain ⟨row, hrow, hid, f1, -, f2, f3, f4⟩ :=
        AccountRepository.getById_some ok c accountId a ha
      obtain ⟨g0, g1, g2, g3, g4⟩ := Account.perform_fields a (Call.deposit amount)
      simp only [Account.perform] at g0 g1 g2 g3 g4
      have hrow2 : (AccountRepository.getById ok c accountId).2.db.selectAccount accountId
          = some row := by
        rw [AccountRepository.getById_db]
        exact hrow
      rw [AccountService.deposit_accepted_eq ok now c accountId amount a ha hacc2] at h ⊢
      have key := AccountRepository.updated_tail_frame ok _ _ (a.deposit amount).2 row
        accountId hrow2 (g0.trans hid) (g1.trans f1) (g2.trans f2) (g3.trans f3)
        (g4.trans f4) h
      rw [AccountRepository.getById_db] at key
      exact ⟨row, (a.deposit amount).2.balance.to_string_stod, hrow, key⟩
  · intro h
    by_cases hr : ∀ a, (AccountRepository.getById ok c accountId).1 = some a →
        (a.virtualWithdraw amount).1 = false
    · rw [(AccountService.withdraw_not_accepted ok now c accountId amount hr).1] at h
      exact absurd h (by decide)
    · push_neg at hr
      obtain ⟨a, ha, hacc⟩ := hr
      have hacc2 : (a.virtualWithdraw amount).1 = true := by simpa using hacc
      obtain ⟨row, hrow, hid, f1, -, f2, f3, f4⟩ :=
        AccountRepository.getById_some ok c accountId a ha
      obtain ⟨g0, g1, g2, g3, g4⟩ := Account.perform_fields a (Call.withdraw amount)
      simp only [Account.perform] at g0 g1 g2 g3 g4
      have hrow2 : (AccountRepository.getById ok c accountId).2.db.selectAccount accountId
          = some row := by
        rw [AccountRepository.getById_db]
        exact hrow
      rw [AccountService.withdraw_accepted_eq ok now c accountId amount a ha hacc2] at h ⊢
      have key := AccountRepository.updated_tail_frame ok _ _ (a.virtualWithdraw amount).2
        row accountId hrow2 (g0.trans hid) (g1.trans f1) (g2.trans f2) (g3.trans f3)
        (g4.trans f4) h
      rw [AccountRepository.getById_db] at key
      exact ⟨row, (a.virtualWithdraw amount).2.balance.to_string_stod, hrow, key⟩

/-- On the sample database the deposit of 50 into Savings account 2 returns true. -/
theorem sampleDeposit_true :
    (AccountService.deposit allOk "2024-05-01 10:00:00" sampleConn 2 50).1 = true :=
  (AccountService.deposit_run allOk "2024-05-01 10:00:00" sampleConn 2 50
    (SavingsAccount.ctor 2 7 200 "71700000001" "2024-01-01" 2) (fun _ => rfl) rfl
    (Account.deposit_accepted _ 50 (by decide)).1).1

/-- Witness of C29: the deposit of 50 into Savings account 2 of the sample database. -/
theorem AccountService.success_frame_witness :
    (AccountService.deposit allOk "2024-05-01 10:00:00" sampleConn 2 50).1 = true ∧
    ∃ (row : AccountRow) (newBalance : Money),
      sampleConn.db.selectAccount 2 = some row ∧
      (AccountService.deposit allOk "2024-05-01 10:00:00" sampleConn 2
        50).2.db.selectAccount 2 = some { row with balance := newBalance } ∧
      (∀ other : Int, other ≠ 2 →
        (AccountService.deposit allOk "2024-05-01 10:00:00" sampleConn 2
          50).2.db.selectAccount other = sampleConn.db.selectAccount other) ∧
      (AccountService.deposit allOk "2024-05-01 10:00:00" sampleConn 2
        50).2.db.savings_accounts = sampleConn.db.savings_accounts ∧
      (AccountService.deposit allOk "2024-05-01 10:00:00" sampleConn 2
        50).2.db.checking_accounts = sampleConn.db.checking_accounts :=
  ⟨sampleDeposit_true,
   (AccountService.success_frame allOk "2024-05-01 10:00:00" sampleConn 2 50).1
     sampleDeposit_true⟩

/-! ## Generated account numbers -/

/-- The character of a decimal digit has the code of that digit past '0'. -/
theorem digitChar_value (d : Nat) (h : d < 10) : (Nat.digitChar d).toNat - 48 = d := by
  interval_cases d <;> rfl

/-- The character of a decimal digit is not the minus sign. -/
theorem digitChar_ne_minus (d : Nat) (h : d < 10) : Nat.digitChar d ≠ '-' := by
  interval_cases d <;> decide

/-- Reading the digits produced for `n` back as a decimal number gives `n`. -/
theorem toDigitsCore_value : ∀ (f n : Nat) (ds : List Char), n < f →
    List.foldl (fun acc c => 10 * acc + (c.toNat - 48)) 0 (Nat.toDigitsCore 10 f n ds) =
      List.foldl (fun acc c => 10 * acc + (c.toNat - 48)) n ds := by
  intro f
  induction f with
  | zero => intro n ds h; omega
  | succ f ih =>
    intro n ds h
    simp only [Nat.toDigitsCore]
    have hd := digitChar_value (n % 10) (Nat.mod_lt n (by norm_num))
    split_ifs with h0
    · simp only [List.foldl_cons, hd]
      have : n % 10 = n := by omega
      rw [this]
      simp
    · rw [ih (n / 10) _ (by omega)]
      simp only [List.foldl_cons, hd]
      have : 10 * (n / 10) + n % 10 = n := Nat.div_add_mod n 10
      rw [this]

/-- The digits produced for a number contain a minus sign only if it was there before. -/
theorem toDigitsCore_minus : ∀ (f n : Nat) (ds : List Char),
    '-' ∈ Nat.toDigitsCore 10 f n ds → '-' ∈ ds := by
  intro f
  induction f with
  | zero => intro n ds h; exact h
  | succ f ih =>
    intro n ds h
    simp only [Nat.toDigitsCore] at h
    have hd := digitChar_ne_minus (n % 10) (Nat.mod_lt n (by norm_num))
    split_ifs at h with h0
    · rcases List.mem_cons.mp h with h | h
      · exact absurd h.symm hd
      · exact h
    · rcases List.mem_cons.mp (ih _ _ h) with h | h
      · exact absurd h.symm hd
      · exact h

/-- Different natural numbers have different decimal renderings. -/
theorem natRepr_inj (a b : Nat) (h : Nat.repr a = Nat.repr b) : a = b := by
  have hdata : Nat.toDigits 10 a = Nat.toDigits 10 b := by
    have := congrArg String.data h
    simpa [Nat.repr, List.asString] using this
  have ha := toDigitsCore_value (a + 1) a [] (by omega)
  have hb := toDigitsCore_value (b + 1) b [] (by omega)
  simp only [List.foldl_nil] at ha hb
  rw [← ha, ← hb]
  exact congrArg _ hdata

/-- Different integers have different decimal renderings. -/
theorem to_string_inj (a b : Int) (h : to_string a = to_string b) : a = b := by
  have hnat : ∀ m : Nat, to_string (Int.ofNat m) = Nat.repr m := fun _ => rfl
  have hneg : ∀ m : Nat, to_string (Int.negSucc m) = "-" ++ Nat.repr (m + 1) := fun _ => rfl
  have hmix : ∀ m k : Nat, Nat.repr m ≠ "-" ++ Nat.repr (k + 1) := by
    intro m k he
    have := congrArg String.data he
    simp only [Nat.repr, List.asString, String.data_append] at this
    have hmem : '-' ∈ Nat.toDigits 10 m := by
      rw [this]
      exact List.mem_append_left _ (List.mem_singleton.mpr rfl)
    exact absurd (toDigitsCore_minus _ _ _ hmem) (by simp)
  cases a with
  | ofNat m =>
    cases b with
    | ofNat k =>
      rw [hnat, hnat] at h
      rw [natRepr_inj m k h]
    | negSucc k =>
      rw [hnat, hneg] at h
      exact absurd h (hmix m k)
  | negSucc m =>
    cases b with
    | ofNat k =>
      rw [hnat, hneg] at h
      exact absurd h.symm (hmix k m)
    | negSucc k =>
      rw [hneg, hneg] at h
      have hd := congrArg String.data h
      simp only [String.data_append] at hd
      have hrepr : Nat.repr (m + 1) = Nat.repr (k + 1) :=
        String.ext (List.append_cancel_left hd)
      have := natRepr_inj _ _ hrepr
      have hmk : m = k := by omega
      rw [hmk]

/-- When `ConsoleUI::openAccount` reports success, one row has been appended to `accounts`
and its account number is the customer id followed by the clock reading. -/
theorem ConsoleUI.openAccount_row (ok : StoreBehaviour) (c : Conn)
    (customerId accountType : Int) (initialDeposit extra : Money) (now : Int)
    (dateOpened : String)
    (h : (ConsoleUI.openAccount ok c customerId accountType initialDeposit extra now
      dateOpened).1 = some true) :
    ∃ row : AccountRow,
      (ConsoleUI.openAccount ok c customerId accountType initialDeposit extra now
        dateOpened).2.db.accounts = c.db.accounts ++ [row] ∧
      row.account_number = to_string customerId ++ to_string now := by
  unfold ConsoleUI.openAccount at h ⊢
  cases hc : (CustomerService.getCustomer ok c customerId).1 with
  | none => simp [hc] at h
  | some cust =>
    simp only [hc] at h ⊢
    by_cases hd : initialDeposit ≤ 0
    · simp [hd] at h
    · rw [if_neg hd] at h ⊢
      by_cases h1 : accountType = 1
      · rw [if_pos h1] at h ⊢
        by_cases hk : ok (CustomerService.getCustomer ok c customerId).2.calls = true
        · refine ⟨{ account_id := c.db.nextAccountId, customer_id := customerId,
                    balance := initialDeposit.to_string_stod,
                    account_number := to_string customerId ++ to_string now,
                    account_type := "Savings", date_opened := dateOpened }, ?_, rfl⟩
          simp [AccountService.openAccount, AccountRepository.add, hk,
            Database.insertAccount, CustomerService.getCustomer_db, SavingsAccount.ctor]
        · simp [AccountService.openAccount, AccountRepository.add, hk] at h
      · rw [if_neg h1] at h ⊢
        by_cases h2 : accountType = 2
        · rw [if_pos h2] at h ⊢
          by_cases hk : ok (CustomerService.getCustomer ok c customerId).2.calls = true
          · refine ⟨{ account_id := c.db.nextAccountId, customer_id := customerId,
                      balance := initialDeposit.to_string_stod,
                      account_number := to_string customerId ++ to_string now,
                      account_type := "Checking", date_opened := dateOpened }, ?_, rfl⟩
            simp [AccountService.openAccount, AccountRepository.add, hk,
              Database.insertAccount, CustomerService.getCustomer_db, CheckingAccount.ctor]
          · simp [AccountService.openAccount, AccountRepository.add, hk] at h
        · simp [h2] at h

/-- On the database with customers 1 and 11 and a store that answers, opening a Checking
account for a registered customer with a positive deposit reports success. -/
theorem sampleOpen_true (customerId now : Int) (h : customerId = 1 ∨ customerId = 11) :
    (ConsoleUI.openAccount allOk sampleTwoCustomersConn customerId 2 500 0 now
      "2023-11-14").1 = some true := by
  have h500 : ¬ (500 : Money) ≤ 0 := by decide
  rcases h with h | h <;> subst h <;>
    simp [ConsoleUI.openAccount, CustomerService.getCustomer, CustomerRepository.getById,
      allOk, sampleTwoCustomersConn, Database.selectCustomer, AccountService.openAccount,
      AccountRepository.add, h500]

/-- Counterexample to C24 as stated: customer 1 opening an account at clock second
1700000000 and customer 11 opening one at clock second 700000000 differ in customer id and
in clock second, both openings succeed, and both rows carry the account number
"11700000000". -/
theorem ConsoleUI.accountNumber_distinct_counterexample :
    (1 : Int) ≠ 11 ∧ (1700000000 : Int) ≠ 700000000 ∧
    (ConsoleUI.openAccount allOk sampleTwoCustomersConn 1 2 500 0 1700000000
      "2023-11-14").1 = some true ∧
    (ConsoleUI.openAccount allOk sampleTwoCustomersConn 11 2 500 0 700000000
      "2023-11-14").1 = some true ∧
    ∃ r1 r2 : AccountRow,
      (ConsoleUI.openAccount allOk sampleTwoCustomersConn 1 2 500 0 1700000000
        "2023-11-14").2.db.accounts = sampleTwoCustomersConn.db.accounts ++ [r1] ∧
      (ConsoleUI.openAccount allOk sampleTwoCustomersConn 11 2 500 0 700000000
        "2023-11-14").2.db.accounts = sampleTwoCustomersConn.db.accounts ++ [r2] ∧
      r1.account_number = "11700000000" ∧ r2.account_number = "11700000000" := by
  have h1 := sampleOpen_true 1 1700000000 (Or.inl rfl)
  have h2 := sampleOpen_true 11 700000000 (Or.inr rfl)
  obtain ⟨r1, e1, n1⟩ := ConsoleUI.openAccount_row _ _ _ _ _ _ _ _ h1
  obtain ⟨r2, e2, n2⟩ := ConsoleUI.openAccount_row _ _ _ _ _ _ _ _ h2
  have s1 : to_string 1 ++ to_string 1700000000 = "11700000000" := by decide
  have s2 : to_string 11 ++ to_string 700000000 = "11700000000" := by decide
  exact ⟨by decide, by decide, h1, h2, r1, r2, e1, e2, n1.trans s1, n2.trans s2⟩

/-- C24, amended: for every two successful openings by `ConsoleUI::openAccount` whose clock
readings have decimal renderings of the same length (as any two readings between 10^9 and
10^10 - 1 seconds have) and that differ in customer id or in clock second, the account
numbers of the two rows stored (customer id followed by clock reading) are different
strings. -/
theorem ConsoleUI.accountNumber_distinct (ok1 ok2 : StoreBehaviour) (c1 c2 : Conn)
    (customerId1 customerId2 accountType1 accountType2 : Int)
    (initialDeposit1 initialDeposit2 extra1 extra2 : Money) (now1 now2 : Int)
    (dateOpened1 dateOpened2 : String)
    (hopen1 : (ConsoleUI.openAccount ok1 c1 customerId1 accountType1 initialDeposit1 extra1
      now1 dateOpened1).1 = some true)
    (hopen2 : (ConsoleUI.openAccount ok2 c2 customerId2 accountType2 initialDeposit2 extra2
      now2 dateOpened2).1 = some true)
    (hlen : (to_string now1).length = (to_string now2).length)
    (hne : customerId1 ≠ customerId2 ∨ now1 ≠ now2) :
    ∃ r1 r2 : AccountRow,
      (ConsoleUI.openAccount ok1 c1 customerId1 accountType1 initialDeposit1 extra1 now1
        dateOpened1).2.db.accounts = c1.db.accounts ++ [r1] ∧
      (ConsoleUI.openAccount ok2 c2 customerId2 accountType2 initialDeposit2 extra2 now2
        dateOpened2).2.db.accounts = c2.db.accounts ++ [r2] ∧
      r1.account_number = to_string customerId1 ++ to_string now1 ∧
      r2.account_number = to_string customerId2 ++ to_string now2 ∧
      r1.account_number ≠ r2.account_number := by
  obtain ⟨r1, e1, n1⟩ := ConsoleUI.openAccount_row _ _ _ _ _ _ _ _ hopen1
  obtain ⟨r2, e2, n2⟩ := ConsoleUI.openAccount_row _ _ _ _ _ _ _ _ hopen2
  refine ⟨r1, r2, e1, e2, n1, n2, ?_⟩
  rw [n1, n2]
  intro heq
  have hd := congrArg String.data heq
  simp only [String.data_append] at hd
  have hl : (to_string now1).data.length = (to_string now2).data.length := hlen
  obtain ⟨hc, hn⟩ := List.append_inj' hd hl
  have ec := to_string_inj customerId1 customerId2 (String.ext hc)
  have en := to_string_inj now1 now2 (String.ext hn)
  rcases hne with h | h
  · exact h ec
  · exact h en

/-- Witness of C24, amended: customers 1 and 11 each open an account in the same clock
second 1700000000. -/
theorem ConsoleUI.accountNumber_distinct_witness :
    (ConsoleUI.openAccount allOk sampleTwoCustomersConn 1 2 500 0 1700000000
      "2023-11-14").1 = some true ∧
    (ConsoleUI.openAccount allOk sampleTwoCustomersConn 11 2 500 0 1700000000
      "2023-11-14").1 = some true ∧
    (to_string 1700000000).length = (to_string 1700000000).length ∧
    ((1 : Int) ≠ 11 ∨ (1700000000 : Int) ≠ 1700000000) ∧
    ∃ r1 r2 : AccountRow,
      (ConsoleUI.openAccount allOk sampleTwoCustomersConn 1 2 500 0 1700000000
        "2023-11-14").2.db.accounts = sampleTwoCustomersConn.db.accounts ++ [r1] ∧
      (ConsoleUI.openAccount allOk sampleTwoCustomersConn 11 2 500 0 1700000000
        "2023-11-14").2.db.accounts = sampleTwoCustomersConn.db.accounts ++ [r2] ∧
      r1.account_number = to_string 1 ++ to_string 1700000000 ∧
      r2.account_number = to_string 11 ++ to_string 1700000000 ∧
      r1.account_number ≠ r2.account_number :=
  ⟨sampleOpen_true 1 1700000000 (Or.inl rfl), sampleOpen_true 11 1700000000 (Or.inr rfl),
   rfl, Or.inl (by decide),
   ConsoleUI.accountNumber_distinct allOk allOk sampleTwoCustomersConn
     sampleTwoCustomersConn 1 11 2 2 500 500 0 0 1700000000 1700000000 "2023-11-14"
     "2023-11-14" (sampleOpen_true 1 1700000000 (Or.inl rfl))
     (sampleOpen_true 11 1700000000 (Or.inr rfl)) rfl (Or.inl (by decide))⟩

end Bank
